import Mathlib

/-! libgps: a shallow embedding of `src/gps.c`.

Bytes are natural numbers below 256 (the bit pattern of a C `char`).  A
pointer into a character buffer is the list of the bytes from the pointed
position on; a read at or past the end of the list yields NUL, a NUL inside
the list is an ordinary terminator.  `int32_t` values are integers, every
arithmetic result being wrapped to the two's complement 32-bit range.
-/

namespace Gps

/-! ## Constants of `gps.h` -/

def GPS_TIME_STRING_SIZE : Nat := 25
def GPS_TALKER_ID_SIZE : Nat := 3
def GPS_INVALID_VALUE : Int := 0x7FFFFFFF
def GPS_VALUE_FACTOR : Int := 1000
def GPS_LAT_LON_FACTOR : Int := 1000000

def GPS_OK : Nat := 0
def GPS_ERROR_HEAD : Nat := 1
def GPS_ERROR_FOOT : Nat := 2
def GPS_ERROR_CHECKSUM : Nat := 3
def GPS_ERROR_TRUNCATED : Nat := 4
def GPS_ERROR_UNSUPPORTED : Nat := 5

def NMEA_MAX_FIELDS : Nat := 32
def SENTENCE_ID_SIZE : Nat := 3

/-- The fix mode, `enum gps_mode`. -/
inductive gps_mode where
  | GPS_MODE_UNKNOWN
  | GPS_MODE_NO_FIX
  | GPS_MODE_2D_FIX
  | GPS_MODE_3D_FIX
deriving DecidableEq, Repr

/-- The record `struct gps_tpv`; `time` has 25 bytes and `talker_id` 3. -/
structure gps_tpv where
  mode : gps_mode
  altitude : Int
  latitude : Int
  longitude : Int
  track : Int
  speed : Int
  time : List Nat
  talker_id : List Nat
deriving DecidableEq, Repr

/-! ## Memory and machine arithmetic -/

/-- The bytes of a string literal. -/
def bytes (s : String) : List Nat := s.toList.map Char.toNat

/-- The byte `p[i]`; NUL at or past the end of the buffer. -/
def rd (p : List Nat) (i : Nat) : Nat := p.getD i 0

/-- The byte `*p`. -/
def hd (p : List Nat) : Nat := p.headD 0

/-- Wrap an integer to the range of `int32_t`. -/
def wrap32 (x : Int) : Int := (x + 2147483648) % 4294967296 - 2147483648

/-- The macro `is_char_in_range(c, start, end)`, the difference cast to 8 bits. -/
def is_char_in_range (c start stop : Nat) : Bool :=
  decide ((c + 256 - start) % 256 < (stop + 256 - start + 1) % 256)

def is_digit_0_to_1 (c : Nat) : Bool := is_char_in_range c 48 49
def is_digit_0_to_2 (c : Nat) : Bool := is_char_in_range c 48 50
def is_digit_0_to_3 (c : Nat) : Bool := is_char_in_range c 48 51
def is_digit_0_to_5 (c : Nat) : Bool := is_char_in_range c 48 53
def is_digit_0_to_9 (c : Nat) : Bool := is_char_in_range c 48 57

def NULL_TIME : List Nat := bytes "0000-00-00T00:00:00.000Z" ++ [0]

/-! ## Hexadecimal helpers -/

/-- The function `uint8_to_hex_char`: table lookup, `'0'` when out of range. -/
def uint8_to_hex_char (n : Nat) : Nat :=
  let hex : List Nat := [48, 49, 50, 51, 52, 53, 54, 55, 56, 57, 65, 66, 67, 68, 69, 70]
  if 0 ≤ n ∧ n ≤ 0x0F then hex.getD n 48 else hex.getD 0 48

/-- The function `hex_char_to_uint8`; `c` is a `char`, a byte above 127 is
negative and fails every range test. -/
def hex_char_to_uint8 (c : Nat) : Nat :=
  if 48 ≤ c ∧ c ≤ 57 then c - 48
  else if 65 ≤ c ∧ c ≤ 70 then c - 65 + 10
  else if 97 ≤ c ∧ c ≤ 102 then c - 97 + 10
  else 0

/-- The function `build_hex_byte`. -/
def build_hex_byte (c0 c1 : Nat) : Nat :=
  let val := ((hex_char_to_uint8 c0) <<< 4) &&& 0xF0
  (val ||| ((hex_char_to_uint8 c1) &&& 0x0F)) % 256

/-! ## Fixed-point scanners -/

/-- The integer-part loop of `parse_number`
(`do value = value * 10 + (c0 - '0'); c0 = *str++; while (is_digit_0_to_9(c0))`):
`c0` is the current digit and `str` the bytes after it; returns the value,
the byte that ended the loop and the bytes after that one. -/
def parse_number_int : Int → Nat → List Nat → Int × Nat × List Nat
  | value, c0, str =>
    let value := wrap32 (value * 10 + ((c0 : Int) - 48))
    match str with
    | [] => (value, 0, [])
    | c :: rest =>
      if is_digit_0_to_9 c then parse_number_int value c rest else (value, c, rest)

/-- The fraction loop shared by `parse_number` (`i = 3`) and
`parse_angular_distance` (`i = 6`):
`do value = value * 10 + (c0 - '0'); factor /= 10; c0 = *str++;
 while (is_digit_0_to_9(c0) && --i)`, the counter `i` being 8 bits wide. -/
def fraction_loop : Nat → Int → Int → Nat → List Nat → Int × Int
  | i, value, factor, c0, str =>
    let value := wrap32 (value * 10 + ((c0 : Int) - 48))
    let factor := Int.tdiv factor 10
    match str with
    | [] => (value, factor)
    | c :: rest =>
      if is_digit_0_to_9 c && ((i + 255) % 256 != 0) then
        fraction_loop ((i + 255) % 256) value factor c rest
      else (value, factor)

/-- The function `parse_number`. -/
def parse_number (str : List Nat) : Int :=
  let value : Int := 0
  let sign : Int := 1
  let c0 := hd str
  let str := str.tail
  if c0 = 0 then GPS_INVALID_VALUE
  else
    let (sign, c0, str) := if c0 = 45 then ((-1 : Int), hd str, str.tail) else (sign, c0, str)
    if is_digit_0_to_9 c0 then
      let (value, c0, str) := parse_number_int value c0 str
      let factor := GPS_VALUE_FACTOR
      let (value, factor) :=
        if c0 = 46 then
          let c0 := hd str
          let str := str.tail
          if is_digit_0_to_9 c0 then fraction_loop 3 value factor c0 str else (value, factor)
        else (value, factor)
      wrap32 (wrap32 (value * factor) * sign)
    else GPS_INVALID_VALUE

/-- The loops `while (i--)` of `parse_angular_distance`, each reading `i`
digits into an accumulator; `none` is the early `return GPS_INVALID_VALUE`. -/
def angular_digits : Nat → Int → Nat → List Nat → Option (Int × Nat × List Nat)
  | 0, acc, c0, nmea => some (acc, c0, nmea)
  | i + 1, acc, c0, nmea =>
    if is_digit_0_to_9 c0 then
      angular_digits i (wrap32 (acc * 10 + ((c0 : Int) - 48))) (hd nmea) nmea.tail
    else none

/-- The function `parse_angular_distance`. -/
def parse_angular_distance (nmea : List Nat) (direction : Nat) : Int :=
  let c0 := hd nmea
  let nmea := nmea.tail
  if c0 = 0 then GPS_INVALID_VALUE
  else
    let si : Option (Int × Nat) :=
      if direction = 78 then some (1, 2)
      else if direction = 83 then some (-1, 2)
      else if direction = 69 then some (1, 3)
      else if direction = 87 then some (-1, 3)
      else none
    match si with
    | none => GPS_INVALID_VALUE
    | some (sign, i) =>
      match angular_digits i 0 c0 nmea with
      | none => GPS_INVALID_VALUE
      | some (angular_distance, c0, nmea) =>
        let angular_distance := wrap32 (angular_distance * GPS_LAT_LON_FACTOR)
        match angular_digits 2 0 c0 nmea with
        | none => GPS_INVALID_VALUE
        | some (minutes, c0, nmea) =>
          if c0 ≠ 46 then GPS_INVALID_VALUE
          else
            let c0 := hd nmea
            let nmea := nmea.tail
            let factor := GPS_LAT_LON_FACTOR
            if is_digit_0_to_9 c0 then
              let (minutes, factor) := fraction_loop 6 minutes factor c0 nmea
              let minutes := wrap32 (minutes * factor)
              let minutes := Int.tdiv minutes 60
              let angular_distance := wrap32 (angular_distance + minutes)
              wrap32 (angular_distance * sign)
            else GPS_INVALID_VALUE

/-! ## Temporal reconstructors -/

/-- The loop `for (i = 0; is_digit_0_to_9(c0) && (i < n); ++i)` that copies
digits to `destination[base + i]`, of `parse_time` (`base = 20`, `n = 3`)
and `parse_extended_date` (`base = 0`, `n = 4`). -/
def copy_digits (base n : Nat) : Nat → Nat → List Nat → List Nat → List Nat
  | i, c0, nmea, destination =>
    if is_digit_0_to_9 c0 && decide (i < n) then
      match nmea with
      | [] => destination.set (base + i) c0
      | c :: rest => copy_digits base n (i + 1) c rest (destination.set (base + i) c0)
    else destination

/-- The function `parse_time`; the result is the buffer `destination` after the call. -/
def parse_time (destination nmea : List Nat) : List Nat :=
  let c0 := hd nmea
  let nmea := nmea.tail
  if is_digit_0_to_2 c0 then
    let destination := destination.set 11 c0
    let c0 := hd nmea
    let nmea := nmea.tail
    if is_digit_0_to_9 c0 then
      let destination := destination.set 12 c0
      let c0 := hd nmea
      let nmea := nmea.tail
      if is_digit_0_to_5 c0 then
        let destination := destination.set 14 c0
        let c0 := hd nmea
        let nmea := nmea.tail
        if is_digit_0_to_9 c0 then
          let destination := destination.set 15 c0
          let c0 := hd nmea
          let nmea := nmea.tail
          if is_digit_0_to_5 c0 then
            let destination := destination.set 17 c0
            let c0 := hd nmea
            let nmea := nmea.tail
            if is_digit_0_to_9 c0 then
              let destination := destination.set 18 c0
              let c0 := hd nmea
              let nmea := nmea.tail
              if c0 = 46 then
                copy_digits 20 3 0 (hd nmea) nmea.tail destination
              else
                ((destination.set 20 48).set 21 48).set 22 48
            else destination
          else destination
        else destination
      else destination
    else destination
  else destination

/-- The function `parse_date`. -/
def parse_date (destination nmea : List Nat) : List Nat :=
  let c0 := hd nmea
  let nmea := nmea.tail
  if is_digit_0_to_3 c0 then
    let destination := destination.set 8 c0
    let c0 := hd nmea
    let nmea := nmea.tail
    if is_digit_0_to_9 c0 then
      let destination := destination.set 9 c0
      let c0 := hd nmea
      let nmea := nmea.tail
      if is_digit_0_to_1 c0 then
        let destination := destination.set 5 c0
        let c0 := hd nmea
        let nmea := nmea.tail
        if is_digit_0_to_9 c0 then
          let destination := destination.set 6 c0
          let c0 := hd nmea
          let nmea := nmea.tail
          if is_digit_0_to_9 c0 then
            let destination := destination.set 2 c0
            let c0 := hd nmea
            if is_digit_0_to_9 c0 then
              let destination := destination.set 3 c0
              (destination.set 0 50).set 1 48
            else destination
          else destination
        else destination
      else destination
    else destination
  else destination

/-- The function `parse_extended_date`. -/
def parse_extended_date (destination day month year : List Nat) : List Nat :=
  let c0 := hd day
  let day := day.tail
  if is_digit_0_to_3 c0 then
    let destination := destination.set 8 c0
    let c0 := hd day
    if is_digit_0_to_9 c0 then
      let destination := destination.set 9 c0
      let c0 := hd month
      let month := month.tail
      if is_digit_0_to_1 c0 then
        let destination := destination.set 5 c0
        let c0 := hd month
        if is_digit_0_to_9 c0 then
          let destination := destination.set 6 c0
          copy_digits 0 4 0 (hd year) year.tail destination
        else destination
      else destination
    else destination
  else destination

/-! ## Unit-aware converters -/

/-- The function `parse_altitude`. -/
def parse_altitude (nmea : List Nat) (unit : Nat) : Int :=
  if unit ≠ 77 then GPS_INVALID_VALUE else parse_number nmea

/-- The function `parse_track`. -/
def parse_track (nmea : List Nat) (type : Nat) : Int :=
  if type ≠ 84 then GPS_INVALID_VALUE else parse_number nmea

/-- The function `parse_speed`; `/` of C truncates toward zero. -/
def parse_speed (nmea : List Nat) (unit : Nat) : Int :=
  if unit = 75 then
    let speed := parse_number nmea
    Int.tdiv (wrap32 (speed * 10)) 36
  else if unit = 78 then
    let speed := parse_number nmea
    Int.tdiv (wrap32 (speed * 1000)) 1944
  else GPS_INVALID_VALUE

/-- The function `parse_mode`. -/
def parse_mode (mode : Nat) : gps_mode :=
  if mode = 49 then gps_mode.GPS_MODE_NO_FIX
  else if mode = 50 then gps_mode.GPS_MODE_2D_FIX
  else if mode = 51 then gps_mode.GPS_MODE_3D_FIX
  else gps_mode.GPS_MODE_UNKNOWN

/-- The function `is_status_valid`. -/
def is_status_valid (status : Nat) : Bool :=
  if 65 = status then true else false

/-! ## Per-sentence extractors

The argument `token` is the array `const char **token`: `token k` is the
string `token[k]`, and `none` when the tokenizer never stored entry `k`
(the array is not initialised, reading such an entry is undefined). -/

/-- The function `parse_gga`. -/
def parse_gga (tpv : gps_tpv) (token : Nat → Option (List Nat)) : Option gps_tpv := do
  let t0 ← token 0
  let tpv := { tpv with time := parse_time tpv.time t0 }
  let t1 ← token 1
  let t2 ← token 2
  let tpv := { tpv with latitude := parse_angular_distance t1 (hd t2) }
  let t3 ← token 3
  let t4 ← token 4
  let tpv := { tpv with longitude := parse_angular_distance t3 (hd t4) }
  let t8 ← token 8
  let t9 ← token 9
  let tpv := { tpv with altitude := parse_altitude t8 (hd t9) }
  pure tpv

/-- The function `parse_gll`. -/
def parse_gll (tpv : gps_tpv) (token : Nat → Option (List Nat)) : Option gps_tpv := do
  let t5 ← token 5
  if is_status_valid (hd t5) then
    let t0 ← token 0
    let t1 ← token 1
    let tpv := { tpv with latitude := parse_angular_distance t0 (hd t1) }
    let t2 ← token 2
    let t3 ← token 3
    let tpv := { tpv with longitude := parse_angular_distance t2 (hd t3) }
    let t4 ← token 4
    let tpv := { tpv with time := parse_time tpv.time t4 }
    pure tpv
  else pure tpv

/-- The function `parse_gsa`. -/
def parse_gsa (tpv : gps_tpv) (token : Nat → Option (List Nat)) : Option gps_tpv := do
  let t1 ← token 1
  pure { tpv with mode := parse_mode (hd t1) }

/-- The function `parse_rmc`. -/
def parse_rmc (tpv : gps_tpv) (token : Nat → Option (List Nat)) : Option gps_tpv := do
  let t1 ← token 1
  if is_status_valid (hd t1) then
    let t0 ← token 0
    let tpv := { tpv with time := parse_time tpv.time t0 }
    let t2 ← token 2
    let t3 ← token 3
    let tpv := { tpv with latitude := parse_angular_distance t2 (hd t3) }
    let t4 ← token 4
    let t5 ← token 5
    let tpv := { tpv with longitude := parse_angular_distance t4 (hd t5) }
    let t7 ← token 7
    let tpv := { tpv with track := parse_track t7 84 }
    let t6 ← token 6
    let tpv := { tpv with speed := parse_speed t6 78 }
    let t8 ← token 8
    let tpv := { tpv with time := parse_date tpv.time t8 }
    pure tpv
  else pure tpv

/-- The function `parse_vtg`. -/
def parse_vtg (tpv : gps_tpv) (token : Nat → Option (List Nat)) : Option gps_tpv := do
  let t0 ← token 0
  let t1 ← token 1
  let tpv := { tpv with track := parse_track t0 (hd t1) }
  let t6 ← token 6
  let t7 ← token 7
  let tpv := { tpv with speed := parse_speed t6 (hd t7) }
  pure tpv

/-- The function `parse_zda`. -/
def parse_zda (tpv : gps_tpv) (token : Nat → Option (List Nat)) : Option gps_tpv := do
  let t0 ← token 0
  let tpv := { tpv with time := parse_time tpv.time t0 }
  let t1 ← token 1
  let t2 ← token 2
  let t3 ← token 3
  let tpv := { tpv with time := parse_extended_date tpv.time t1 t2 t3 }
  pure tpv

/-! ## Public functions -/

/-- The function `gps_init_tpv`. -/
def gps_init_tpv (tpv : gps_tpv) : gps_tpv :=
  { tpv with
    mode := gps_mode.GPS_MODE_UNKNOWN
    altitude := GPS_INVALID_VALUE
    latitude := GPS_INVALID_VALUE
    longitude := GPS_INVALID_VALUE
    track := GPS_INVALID_VALUE
    speed := GPS_INVALID_VALUE
    time := NULL_TIME
    talker_id := List.replicate GPS_TALKER_ID_SIZE 0 }

/-! ## Encoder -/

/-- The copy loop of `gps_encode`: `c0` is the current byte, `message` the
bytes after it; returns the checksum and the bytes written. -/
def encode_loop : Nat → List Nat → Nat → List Nat → Nat × List Nat
  | c0, message, checksum, out =>
    if c0 = 0 then (checksum, out)
    else
      match message with
      | [] => ((checksum ^^^ c0) % 256, out ++ [c0])
      | c :: rest => encode_loop c rest ((checksum ^^^ c0) % 256) (out ++ [c0])

/-- The function `gps_encode`: the bytes stored from `destination` on, and
the offset from `destination` of the returned pointer. -/
def gps_encode (message : List Nat) : List Nat × Nat :=
  let checksum := 0
  let c0 := hd message
  let out := [36]
  let (checksum, out) := encode_loop c0 message.tail checksum out
  let out := out ++ [42]
  let out := out ++ [uint8_to_hex_char ((checksum &&& 0xF0) >>> 4)]
  let out := out ++ [uint8_to_hex_char (checksum &&& 0x0F)]
  let out := out ++ [13]
  let out := out ++ [10]
  let ret := out.length
  let out := out ++ [0]
  (out, ret)

/-! ## Decoder -/

/-- The function `match_sentence_id`, that is `strncmp(str, id, 3) == 0`:
`n` bytes are compared, the comparison stopping after a common NUL. -/
def match_sentence_id_n : Nat → List Nat → List Nat → Bool
  | 0, _, _ => true
  | n + 1, str, id =>
    if hd str ≠ hd id then false
    else if hd str = 0 then true
    else match_sentence_id_n n str.tail id.tail

def match_sentence_id (str id : List Nat) : Bool :=
  match_sentence_id_n SENTENCE_ID_SIZE str id

/-- The call `memchr(p, '\0', n) != NULL`. -/
def memchr_nul : Nat → List Nat → Bool
  | 0, _ => false
  | n + 1, p => if hd p = 0 then true else memchr_nul n p.tail

/-- The state in which the tokenizing loop of `gps_decode` ends. -/
inductive scan where
  /-- The store `token[i++]` with `i = 32`, outside the array. -/
  | overflow
  /-- The statement `return GPS_ERROR_TRUNCATED`, with the buffer as it is then. -/
  | truncated (nmea : List Nat)
  /-- The loop ended at a `'*'`: the bytes before the pointer `nmea`, the
  bytes from it on, the checksum and the entries stored in `token`. -/
  | star (pre cur : List Nat) (checksum : Nat) (token : List Nat)
deriving DecidableEq, Repr

/-- The tokenizing loop of `gps_decode`.  The buffer is `pre ++ cur`, the
pointer `nmea` stands between the two and `c0` is the first byte of `cur`;
`token` lists the stored entries `token[0], .., token[i-1]`, each the
offset of the pointed byte from the start of the buffer. -/
def tokenize : List Nat → List Nat → Nat → List Nat → scan
  | pre, [], _, _ => scan.truncated pre
  | pre, c0 :: rest, checksum, token =>
    if c0 = 42 then scan.star pre (c0 :: rest) checksum token
    else if c0 = 0 then scan.truncated (pre ++ c0 :: rest)
    else
      let checksum := (checksum ^^^ c0) % 256
      if c0 = 44 then
        if token.length < NMEA_MAX_FIELDS then
          tokenize (pre ++ [0]) rest checksum (token ++ [pre.length + 1])
        else scan.overflow
      else tokenize (pre ++ [c0]) rest checksum token

/-- The type `parse_function`. -/
abbrev parse_function := gps_tpv → (Nat → Option (List Nat)) → Option gps_tpv

/-- The value of `gps_decode`: the result code, the record and the sentence
buffer after the call. -/
structure decoded where
  code : Nat
  tpv : gps_tpv
  nmea : List Nat
deriving DecidableEq, Repr

/-- The chain of `match_sentence_id` tests of `gps_decode`; `none` is
`return GPS_ERROR_UNSUPPORTED`. -/
def select_parse (nmea : List Nat) : Option parse_function :=
  if match_sentence_id nmea (bytes "GGA") then some parse_gga
  else if match_sentence_id nmea (bytes "GLL") then some parse_gll
  else if match_sentence_id nmea (bytes "GSA") then some parse_gsa
  else if match_sentence_id nmea (bytes "RMC") then some parse_rmc
  else if match_sentence_id nmea (bytes "VTG") then some parse_vtg
  else if match_sentence_id nmea (bytes "ZDA") then some parse_zda
  else none

/-- The function `gps_decode`.  The result is `none` when the call has no
defined behaviour: a store past the 32 entries of `token`, or an extractor
reading an entry of `token` that was never stored. -/
def gps_decode (tpv : gps_tpv) (nmea : List Nat) : Option decoded :=
  let checksum := 0
  let c0 := rd nmea 0
  if c0 ≠ 36 then some ⟨GPS_ERROR_HEAD, tpv, nmea⟩
  else
    let c0 := rd nmea 1
    let c1 := rd nmea 2
    if c0 = 0 ∨ c1 = 0 then some ⟨GPS_ERROR_TRUNCATED, tpv, nmea⟩
    else
      let tpv := { tpv with talker_id := (tpv.talker_id.set 0 c0).set 1 c1 }
      let checksum := (checksum ^^^ (c0 ^^^ c1)) % 256
      if memchr_nul SENTENCE_ID_SIZE (nmea.drop 3) then some ⟨GPS_ERROR_TRUNCATED, tpv, nmea⟩
      else
        match select_parse (nmea.drop 3) with
        | none => some ⟨GPS_ERROR_UNSUPPORTED, tpv, nmea⟩
        | some parse =>
          match tokenize (nmea.take 3) (nmea.drop 3) checksum [] with
          | scan.overflow => none
          | scan.truncated nmea => some ⟨GPS_ERROR_TRUNCATED, tpv, nmea⟩
          | scan.star pre cur checksum token =>
            let pre := pre ++ [0]
            let cur := cur.tail
            let nmea := pre ++ cur
            let c0 := rd cur 0
            let c1 := rd cur 1
            if checksum ≠ build_hex_byte c0 c1 then some ⟨GPS_ERROR_CHECKSUM, tpv, nmea⟩
            else
              let c0 := rd cur 2
              let c1 := rd cur 3
              if c0 ≠ 13 ∨ c1 ≠ 10 then some ⟨GPS_ERROR_FOOT, tpv, nmea⟩
              else
                match parse tpv (fun k => (token.get? k).map (fun p => nmea.drop p)) with
                | none => none
                | some tpv => some ⟨GPS_OK, tpv, nmea⟩

/-- The function `gps_error_string`. -/
def gps_error_string (e : Int) : String :=
  let msg : List String := [
    "No error while parsing NMEA",
    "Header '$' missing",
    "Footer CRLF missing",
    "Checksum did not match",
    "Sentence truncated",
    "Unsupported NMEA sentence"]
  if 0 ≤ e ∧ e < (msg.length : Int) then msg.getD e.toNat "Unknown error" else "Unknown error"

/-- The record of the tests: an arbitrary record after `gps_init_tpv`. -/
def init_tpv : gps_tpv :=
  gps_init_tpv ⟨gps_mode.GPS_MODE_3D_FIX, 1, 2, 3, 4, 5, List.replicate 25 7, List.replicate 3 7⟩


/-! ## Reference definitions, written from the specification -/

/-- The uppercase hexadecimal digit of a value below 16. -/
def upper_hex_digit (n : Nat) : Nat := if n < 10 then 48 + n else 65 + (n - 10)

/-- The XOR of all bytes of a string. -/
def xor_bytes (m : List Nat) : Nat := m.foldl (fun a c => a ^^^ c) 0

/-- The bytes the tokenizing loop walks over: those before the first `'*'`
or NUL. -/
def scan_body (cur : List Nat) : List Nat :=
  cur.takeWhile (fun c => decide (c ≠ 42) && decide (c ≠ 0))

/-- The scanned bytes as the loop leaves them: each `','` replaced by NUL. -/
def mutate (body : List Nat) : List Nat := body.map (fun c => if c = 44 then 0 else c)

/-- The offsets stored in `token`: one past each `','`, for a body that
starts at offset `p`. -/
def comma_offsets : Nat → List Nat → List Nat
  | _, [] => []
  | p, c :: rest =>
    if c = 44 then (p + 1) :: comma_offsets (p + 1) rest else comma_offsets (p + 1) rest

/-- The running 8-bit checksum over a run of bytes. -/
def xor_fold (checksum : Nat) (body : List Nat) : Nat :=
  body.foldl (fun a c => (a ^^^ c) % 256) checksum

/-- The three bytes `s[3..5]` of a sentence. -/
def sentence_id (s : List Nat) : List Nat := [rd s 3, rd s 4, rd s 5]

/-- The six supported sentence IDs. -/
def supported_ids : List (List Nat) :=
  [bytes "GGA", bytes "GLL", bytes "GSA", bytes "RMC", bytes "VTG", bytes "ZDA"]

/-- The position of the first `'*'` at or after `s[3]` (the end of the
buffer when there is none). -/
def star_pos (s : List Nat) : Nat :=
  3 + ((s.drop 3).takeWhile (fun c => decide (c ≠ 42))).length

/-- A NUL is reached before the first `'*'` at or after `s[3]`: there is a
NUL among the bytes before it, or there is no `'*'` before the end. -/
def nul_before_star (s : List Nat) : Bool :=
  ((s.drop 3).takeWhile (fun c => decide (c ≠ 42))).contains 0 || rd s (star_pos s) != 42

/-- The result code of the first failing gate, in the order of the gates;
`GPS_OK` when no gate fails. -/
def gate_code (s : List Nat) : Nat :=
  if rd s 0 ≠ 36 then GPS_ERROR_HEAD
  else if rd s 1 = 0 ∨ rd s 2 = 0 then GPS_ERROR_TRUNCATED
  else if rd s 3 = 0 ∨ rd s 4 = 0 ∨ rd s 5 = 0 then GPS_ERROR_TRUNCATED
  else if sentence_id s ∉ supported_ids then GPS_ERROR_UNSUPPORTED
  else if nul_before_star s then GPS_ERROR_TRUNCATED
  else if build_hex_byte (rd s (star_pos s + 1)) (rd s (star_pos s + 2))
      ≠ xor_bytes ((s.take (star_pos s)).drop 1) then GPS_ERROR_CHECKSUM
  else if rd s (star_pos s + 3) ≠ 13 ∨ rd s (star_pos s + 4) ≠ 10 then GPS_ERROR_FOOT
  else GPS_OK

/-- The gates before the tokenizing loop all pass. -/
def reaches_tokenizer (s : List Nat) : Prop :=
  rd s 0 = 36 ∧ rd s 1 ≠ 0 ∧ rd s 2 ≠ 0 ∧ rd s 3 ≠ 0 ∧ rd s 4 ≠ 0 ∧ rd s 5 ≠ 0
    ∧ sentence_id s ∈ supported_ids

/-- The number of `','` the tokenizing loop meets: those from `s[3]` on,
before the first `'*'` or NUL. -/
def field_commas (s : List Nat) : Nat := (scan_body (s.drop 3)).count 44

/-- The number of tokens the extractor of a sentence ID reads at most:
one more than the largest index it uses. -/
def min_tokens (id : List Nat) : Nat :=
  if id = bytes "GGA" then 10
  else if id = bytes "GLL" then 6
  else if id = bytes "GSA" then 2
  else if id = bytes "RMC" then 9
  else if id = bytes "VTG" then 8
  else if id = bytes "ZDA" then 4
  else 0

/-- The C string at a pointer: the bytes before the first NUL. -/
def cstr (p : List Nat) : List Nat := p.takeWhile (fun c => decide (c ≠ 0))

/-- The substrings between consecutive `','` of a run of bytes. -/
def split_commas : List Nat → List (List Nat)
  | [] => [[]]
  | c :: rest =>
    if c = 44 then [] :: split_commas rest
    else (c :: (split_commas rest).headD []) :: (split_commas rest).tail

/-- The fields of a sentence: the substrings between consecutive `','` after
the sentence ID, the last one ending at the `'*'`. -/
def fields (s : List Nat) : List (List Nat) := (split_commas (scan_body (s.drop 3))).tail

/-- The field `f_k` of a sentence. -/
def field (s : List Nat) (k : Nat) : List Nat := (fields s).getD k []

/-- What a sentence of type `id` stores, in terms of its fields `f 0, f 1, ..`
taken as plain substrings (the table of section 4.5 of the specification). -/
def extract_fields (id : List Nat) (r : gps_tpv) (f : Nat → List Nat) : gps_tpv :=
  if id = bytes "GGA" then
    { r with
      time := parse_time r.time (f 0)
      latitude := parse_angular_distance (f 1) (hd (f 2))
      longitude := parse_angular_distance (f 3) (hd (f 4))
      altitude := if hd (f 9) = 77 then parse_number (f 8) else GPS_INVALID_VALUE }
  else if id = bytes "GLL" then
    if hd (f 5) = 65 then
      { r with
        latitude := parse_angular_distance (f 0) (hd (f 1))
        longitude := parse_angular_distance (f 2) (hd (f 3))
        time := parse_time r.time (f 4) }
    else r
  else if id = bytes "GSA" then
    { r with mode := parse_mode (hd (f 1)) }
  else if id = bytes "RMC" then
    if hd (f 1) = 65 then
      { r with
        time := parse_date (parse_time r.time (f 0)) (f 8)
        latitude := parse_angular_distance (f 2) (hd (f 3))
        longitude := parse_angular_distance (f 4) (hd (f 5))
        track := parse_number (f 7)
        speed := parse_speed (f 6) 78 }
    else r
  else if id = bytes "VTG" then
    { r with
      track := if hd (f 1) = 84 then parse_number (f 0) else GPS_INVALID_VALUE
      speed := parse_speed (f 6) (hd (f 7)) }
  else if id = bytes "ZDA" then
    { r with time := parse_extended_date (parse_time r.time (f 0)) (f 1) (f 2) (f 3) }
  else r

/-- A well-framed sentence: bytes that pass every gate of `gps_decode` and
carry, between the sentence ID and the `'*'`, at least the number of `','`
the extractor of the sentence type reads and at most 32. -/
def well_framed (s : List Nat) : Prop :=
  (∀ b ∈ s, b < 256) ∧ gate_code s = GPS_OK
    ∧ min_tokens (sentence_id s) ≤ field_commas s ∧ field_commas s ≤ NMEA_MAX_FIELDS

/-- Join substrings with `','`. -/
def join_commas : List (List Nat) → List Nat
  | [] => []
  | [t] => t
  | t :: u :: ts => t ++ 44 :: join_commas (u :: ts)

/-- The sentences of the unit tests. -/
def gga_sentence : List Nat :=
  bytes "$GPGGA,172814.0,3723.46587704,N,12202.26957864,W,2,6,1.2,18.893,M,-25.669,M,2.0,0031*4F\r\n"

def gll_sentence : List Nat := bytes "$GPGLL,3704.229,N,07647.090,W,153030.311,A*23\r\n"

def rmc_sentence : List Nat :=
  bytes "$GPRMC,023044,A,3907.3840,N,12102.4692,W,0.0,156.1,131102,15.3,E,A*37\r\n"

/-- The RMC sentence of the tests with status `'V'` in place of `'A'`. -/
def rmc_void_sentence : List Nat :=
  bytes "$GPRMC,023044,V,3907.3840,N,12102.4692,W,0.0,156.1,131102,15.3,E,A*20\r\n"

/-- The unsupported sentence of the tests. -/
def rme_sentence : List Nat := bytes "$PGRME,15.0,M,22.5,M,15.0,M*1B\r\n"

/-- The VTG sentence of the tests with both speed fields empty. -/
def vtg_empty_speed : List Nat := bytes "$GPVTG,176.90,T,,M,,N,,K,A*34\r\n"

/-- The RMC sentence of the tests with the speed field empty. -/
def rmc_empty_speed : List Nat :=
  bytes "$GPRMC,023044,A,3907.3840,N,12102.4692,W,,156.1,131102,15.3,E,A*19\r\n"

/-- The VTG sentence of the tests. -/
def vtg_sentence : List Nat := bytes "$GPVTG,176.90,T,,M,3.68,N,6.81,K,A*36\r\n"

/-- The ZDA sentence of the tests. -/
def zda_sentence : List Nat := bytes "$GPZDA,050306,29,10,2003,,*43\r\n"

/-- The GSA sentence of the tests. -/
def gsa_sentence : List Nat := bytes "$GPGSA,A,3,01,04,07,16,20,,,,,,,,3.6,2.2,2.7*35\r\n"

/-- A GSA sentence with an empty second field. -/
def gsa_empty_mode : List Nat := bytes "$GPGSA,A,,01*2E\r\n"

/-- The sentence of `test_decode_invalid_checksum`: checksum characters "??". -/
def gga_nonhex_sentence : List Nat :=
  bytes "$GPGGA,092751.000,5321.6802,N,00630.3371,W,1,8,1.03,61.7,M,55.3,M,,*??\r\n"

/-- A GSA sentence whose body has the checksum 0x30, closed with "3?". -/
def gsa_nonhex_low : List Nat := bytes "$GPGSA,A,3*3?\r\n"

/-- A GSA sentence whose body has the checksum 0x00, closed with "??". -/
def gsa_nonhex_both : List Nat := bytes "$GPGSA,A,3,A]*??\r\n"

/-- The sentence buffer of a unit test after a complete decode: every `','`
and the `'*'` overwritten with NUL. -/
def after_decode (s : List Nat) : List Nat := s.map (fun c => if c = 44 ∨ c = 42 then 0 else c)

/-- The result of the GGA unit test. -/
def gga_decoded : decoded :=
  ⟨GPS_OK,
    ⟨gps_mode.GPS_MODE_UNKNOWN, 18893, 37391097, -122037826, GPS_INVALID_VALUE,
      GPS_INVALID_VALUE, bytes "0000-00-00T17:28:14.000Z" ++ [0], bytes "GP" ++ [0]⟩,
    after_decode gga_sentence⟩

/-- The result of the RMC unit test. -/
def rmc_decoded : decoded :=
  ⟨GPS_OK,
    ⟨gps_mode.GPS_MODE_UNKNOWN, GPS_INVALID_VALUE, 39123066, -121041153, 156100, 0,
      bytes "2002-11-13T02:30:44.000Z" ++ [0], bytes "GP" ++ [0]⟩,
    after_decode rmc_sentence⟩

/-! ## Reference grammars of the scanners, written from the specification -/

/-- A decimal digit `[0-9]`. -/
def is_digit (c : Nat) : Bool := decide (48 ≤ c ∧ c ≤ 57)

/-- The value of a run of decimal digits read after the value `a`. -/
def digits_from (a : Int) (ds : List Nat) : Int :=
  ds.foldl (fun a c => a * 10 + ((c : Int) - 48)) a

/-- The value of a run of decimal digits. -/
def digits_value (ds : List Nat) : Int := digits_from 0 ds

/-- Number grammar `-?[0-9]+(\.[0-9]{1,3})?`: the token after the optional `'-'`. -/
def number_body (token : List Nat) : List Nat := if hd token = 45 then token.tail else token

/-- The sign the optional `'-'` gives. -/
def number_sign (token : List Nat) : Int := if hd token = 45 then -1 else 1

/-- The digit run `I` of the integer part. -/
def number_int (token : List Nat) : List Nat := (number_body token).takeWhile is_digit

/-- The digits that follow the `'.'`, when a `'.'` follows the integer part. -/
def number_frac (token : List Nat) : List Nat :=
  if hd ((number_body token).drop (number_int token).length) = 46 then
    ((number_body token).drop (number_int token).length).tail.takeWhile is_digit
  else []

/-- The scaled magnitude `(I * 10^j + F) * 10^(3-j)`, with `j = min(k,3)` of
the `k` fraction digits used and `F` their value. -/
def number_magnitude (token : List Nat) : Int :=
  (digits_value (number_int token) * 10 ^ (min (number_frac token).length 3)
      + digits_value ((number_frac token).take (min (number_frac token).length 3)))
    * 10 ^ (3 - min (number_frac token).length 3)

/-- The reference value of a number token: the sentinel when no digit
follows the optional `'-'`, the signed scaled magnitude otherwise. -/
def number_ref (token : List Nat) : Int :=
  if number_int token = [] then GPS_INVALID_VALUE
  else number_sign token * number_magnitude token

/-- The sign and the width of the degree prefix a direction character gives:
`N`, `S` two digits, `E`, `W` three; `N`, `E` positive, `S`, `W` negative. -/
def angular_width (direction : Nat) : Option (Int × Nat) :=
  if direction = 78 then some (1, 2)
  else if direction = 83 then some (-1, 2)
  else if direction = 69 then some (1, 3)
  else if direction = 87 then some (-1, 3)
  else none

/-- The fraction digits of an angular token with a degree prefix of width `w`. -/
def angular_frac (w : Nat) (token : List Nat) : List Nat :=
  (token.drop (w + 3)).takeWhile is_digit

/-- The angular grammar: `w` degree digits, two arc-minute digits, a `'.'`
and at least one fraction digit. -/
def angular_matches (w : Nat) (token : List Nat) : Bool :=
  decide ((token.take (w + 2)).length = w + 2) && (token.take (w + 2)).all is_digit
    && decide (rd token (w + 2) = 46) && decide (angular_frac w token ≠ [])

/-- The reference value of an angular token:
`sign * (D * 10^6 + trunc((M * 10^j + F) * 10^(6-j) / 60))`. -/
def angular_ref (token : List Nat) (direction : Nat) : Int :=
  match angular_width direction with
  | none => GPS_INVALID_VALUE
  | some (sign, w) =>
    if angular_matches w token then
      sign * (digits_value (token.take w) * 10 ^ 6
        + Int.tdiv
            ((digits_value ((token.drop w).take 2) * 10 ^ (min (angular_frac w token).length 6)
                + digits_value
                    ((angular_frac w token).take (min (angular_frac w token).length 6)))
              * 10 ^ (6 - min (angular_frac w token).length 6)) 60)
    else GPS_INVALID_VALUE

/-- The degrees of an angular token with a degree run of width `w`, times 10^6. -/
def angular_degrees (w : Nat) (token : List Nat) : Int :=
  digits_value (token.take w) * 10 ^ 6

/-- The arc minutes of an angular token, with the first `j = min k 6` of its
`k` fraction digits, times `10^6`: `(M * 10^j + F) * 10^(6-j)`. -/
def angular_scaled_minutes (w : Nat) (token : List Nat) : Int :=
  (digits_value ((token.drop w).take 2) * 10 ^ (min (angular_frac w token).length 6)
      + digits_value ((angular_frac w token).take (min (angular_frac w token).length 6)))
    * 10 ^ (6 - min (angular_frac w token).length 6)

/-- The token and the direction are accepted by the angular grammar. -/
def angular_accepts (token : List Nat) (direction : Nat) : Bool :=
  match angular_width direction with
  | none => false
  | some (_, w) => angular_matches w token

/-- The positions of the time buffer that hold a digit. -/
def digit_positions : List Nat := [0, 1, 2, 3, 5, 6, 8, 9, 11, 12, 14, 15, 17, 18, 20, 21, 22]

/-- The shape of the time buffer: 24 characters and a NUL, with `'-'` at
positions 4 and 7, `'T'` at 10, `':'` at 13 and 16, `'.'` at 19, `'Z'` at 23 and
a decimal digit at every other position. -/
def time_shape (t : List Nat) : Prop :=
  t.length = 25 ∧ rd t 24 = 0 ∧ rd t 4 = 45 ∧ rd t 7 = 45 ∧ rd t 10 = 84 ∧ rd t 13 = 58
    ∧ rd t 16 = 58 ∧ rd t 19 = 46 ∧ rd t 23 = 90
    ∧ ∀ j ∈ digit_positions, is_digit (rd t j) = true

/-- A finite sequence of `gps_decode` calls, each on its own input buffer,
into the record the previous call left; `none` when a call has no defined
behaviour. -/
def decode_all : gps_tpv → List (List Nat) → Option gps_tpv
  | r, [] => some r
  | r, s :: ss =>
    match gps_decode r s with
    | none => none
    | some d => decode_all d.tpv ss

/-- An input of bytes with an in-range token count: when the tokenizing loop
is reached it meets at most 32 commas, and when every gate passes the
sentence carries at least the number of commas its type reads. -/
def in_range (s : List Nat) : Prop :=
  (∀ b ∈ s, b < 256) ∧ (reaches_tokenizer s → field_commas s ≤ NMEA_MAX_FIELDS)
    ∧ (gate_code s = GPS_OK → min_tokens (sentence_id s) ≤ field_commas s)

/-- Truncation toward zero of `a / b`, for `b > 0`. -/
def trunc_div (a : Int) (b : Nat) : Int := Int.sign a * ((a.natAbs / b : Nat) : Int)

/-! ## Auxiliary definitions of the proofs -/

/-- The accumulation `value = value * 10 + (c - '0')` over a run of bytes, in
32-bit arithmetic. -/
def wfold (a : Int) (ds : List Nat) : Int :=
  ds.foldl (fun a c => wrap32 (a * 10 + ((c : Int) - 48))) a

/-- The statement `factor /= 10` executed `n` times. -/
def tdiv_iter (f : Int) : Nat → Int
  | 0 => f
  | n + 1 => tdiv_iter (Int.tdiv f 10) n

/-- The stores `destination[p] = d0; destination[p + 1] = d1; ..`. -/
def write_at : Nat → List Nat → List Nat → List Nat
  | _, [], destination => destination
  | p, d :: ds, destination => write_at (p + 1) ds (destination.set p d)


/-- The record after the two stores `tpv->talker_id[0] = c0; tpv->talker_id[1] = c1`. -/
def store_talker (tpv : gps_tpv) (c0 c1 : Nat) : gps_tpv :=
  { tpv with talker_id := (tpv.talker_id.set 0 c0).set 1 c1 }

/-- The array `token` after the tokenizing loop, as the extractors see it:
entry `k` is the string at the `k`-th stored offset of the buffer `nmea`. -/
def token_array (nmea : List Nat) (token : List Nat) : Nat → Option (List Nat) :=
  fun k => (token.get? k).map (fun p => nmea.drop p)

/-- The state after the integer loop, as far as the rest of `parse_number`
can observe it: the bytes after a NUL are never read. -/
def visible (st : Int × Nat × List Nat) : Int × Nat × List Nat :=
  (st.1, st.2.1, if st.2.1 = 0 then [] else cstr st.2.2)

/-- The end of `parse_angular_distance`, from the test of the decimal point
on, as a function of the state `(minutes, c0, nmea)` the second digit loop
leaves. -/
def angular_finish (sign angular_distance : Int) (st : Int × Nat × List Nat) : Int :=
  if st.2.1 ≠ 46 then GPS_INVALID_VALUE
  else
    if is_digit_0_to_9 (hd st.2.2) then
      wrap32 (wrap32 (angular_distance
        + Int.tdiv (wrap32 ((fraction_loop 6 st.1 GPS_LAT_LON_FACTOR (hd st.2.2) st.2.2.tail).1
            * (fraction_loop 6 st.1 GPS_LAT_LON_FACTOR (hd st.2.2) st.2.2.tail).2)) 60) * sign)
    else GPS_INVALID_VALUE

/-- The arc-minute part of `parse_angular_distance`, as a function of the
state `(angular_distance, c0, nmea)` the first digit loop leaves. -/
def angular_minutes (sign : Int) (st : Int × Nat × List Nat) : Int :=
  match angular_digits 2 0 st.2.1 st.2.2 with
  | none => GPS_INVALID_VALUE
  | some st2 => angular_finish sign (wrap32 (st.1 * GPS_LAT_LON_FACTOR)) st2

/-- The number of leading digit checks of `parse_time` that a token passes:
the six checks of the source, in their order, on the bytes 0 to 5 of the
token. -/
def time_matched (token : List Nat) : Nat :=
  if is_digit_0_to_2 (rd token 0) = false then 0
  else if is_digit_0_to_9 (rd token 1) = false then 1
  else if is_digit_0_to_5 (rd token 2) = false then 2
  else if is_digit_0_to_9 (rd token 3) = false then 3
  else if is_digit_0_to_5 (rd token 4) = false then 4
  else if is_digit_0_to_9 (rd token 5) = false then 5
  else 6

/-- The positions of the buffer that `parse_time` writes the digits of
`HHMMSS` to, in the order of the writes. -/
def time_positions : List Nat := [11, 12, 14, 15, 17, 18]

/-- The stores `destination[p] = c` for the positions `p` and the bytes `c`
of two lists, pairwise and in order. -/
def set_all : List Nat → List Nat → List Nat → List Nat
  | p :: ps, c :: cs, destination => set_all ps cs (destination.set p c)
  | _, _, destination => destination

/-- The buffer after the first `k` digits of a token have been written to
their positions. -/
def time_written (destination token : List Nat) (k : Nat) : List Nat :=
  set_all (time_positions.take k)
    [rd token 0, rd token 1, rd token 2, rd token 3, rd token 4, rd token 5] destination

/-- The stores `destination[p] = v` of a list of pairs `(p, v)`, in order. -/
def write_all (ws : List (Nat × Nat)) (destination : List Nat) : List Nat :=
  ws.foldl (fun d w => d.set w.1 w.2) destination

/-- The value position `j` holds after the stores of a list of pairs, when it
held `o` before: that of the last store to `j`, if there is one. -/
def last_write (j : Nat) (ws : List (Nat × Nat)) (o : Option Nat) : Option Nat :=
  ws.foldl (fun o w => if w.1 = j then some w.2 else o) o

/-- A function on buffers that is a fixed list of stores, the same for every
buffer. -/
def is_writes (f : List Nat → List Nat) : Prop :=
  ∃ ws : List (Nat × Nat), ∀ d, f d = write_all ws d

/-- One checked store of the temporal reconstructors: `if (c) { destination[p]
= v; (the rest) } else return`. -/
def guarded_write (c : Bool) (p v : Nat) (k : List Nat → List Nat) (d : List Nat) : List Nat :=
  if c then k (d.set p v) else d

/-- A function on buffers that keeps the shape of the time buffer. -/
def keeps_shape (f : List Nat → List Nat) : Prop :=
  ∀ d, time_shape d → time_shape (f d)

/-! ## Lemmas on the hexadecimal helpers -/

theorem xor_byte_lt {a c : Nat} (ha : a < 256) (hc : c < 256) : a ^^^ c < 256 :=
  Nat.xor_lt_two_pow (n := 8) ha hc

theorem foldl_xor_lt (m : List Nat) (hm : ∀ b ∈ m, b < 256) :
    ∀ a, a < 256 → m.foldl (fun a c => a ^^^ c) a < 256 := by
  induction m with
  | nil => intro a ha; simpa using ha
  | cons c rest ih =>
    intro a ha
    simp only [List.foldl_cons]
    exact ih (fun b hb => hm b (List.mem_cons_of_mem _ hb)) _
      (xor_byte_lt ha (hm c (List.mem_cons_self _ _)))

theorem xor_bytes_lt (m : List Nat) (hm : ∀ b ∈ m, b < 256) : xor_bytes m < 256 :=
  foldl_xor_lt m hm 0 (by decide)

set_option maxRecDepth 100000 in
theorem hex_high_digit : ∀ x, x < 256 →
    uint8_to_hex_char ((x &&& 0xF0) >>> 4) = upper_hex_digit (x / 16) := by decide

set_option maxRecDepth 100000 in
theorem hex_low_digit : ∀ x, x < 256 →
    uint8_to_hex_char (x &&& 0x0F) = upper_hex_digit (x % 16) := by decide

set_option maxRecDepth 100000 in
theorem build_hex_byte_digits : ∀ x, x < 256 →
    build_hex_byte (upper_hex_digit (x / 16)) (upper_hex_digit (x % 16)) = x := by decide

/-! ## The encoder -/

theorem encode_loop_eq (rest : List Nat) :
    ∀ (c0 checksum : Nat) (out : List Nat), checksum < 256 →
      (∀ b ∈ c0 :: rest, 0 < b ∧ b < 256) →
      encode_loop c0 rest checksum out =
        ((c0 :: rest).foldl (fun a c => a ^^^ c) checksum, out ++ c0 :: rest) := by
  induction rest with
  | nil =>
    intro c0 checksum out hck hm
    have h0 := hm c0 (List.mem_cons_self _ _)
    have hx := xor_byte_lt hck h0.2
    unfold encode_loop
    simp [Nat.ne_of_gt h0.1, Nat.mod_eq_of_lt hx]
  | cons c rest ih =>
    intro c0 checksum out hck hm
    have h0 := hm c0 (List.mem_cons_self _ _)
    have hx := xor_byte_lt hck h0.2
    unfold encode_loop
    simp only [Nat.ne_of_gt h0.1, if_false, Nat.mod_eq_of_lt hx]
    rw [ih c _ _ hx (fun b hb => hm b (List.mem_cons_of_mem _ hb))]
    simp

theorem gps_encode_eq (m : List Nat) (hm : ∀ b ∈ m, 0 < b ∧ b < 256) :
    gps_encode m =
      ([36] ++ m ++ [42, upper_hex_digit (xor_bytes m / 16),
          upper_hex_digit (xor_bytes m % 16), 13, 10, 0], m.length + 6) := by
  have hx : xor_bytes m < 256 := xor_bytes_lt m (fun b hb => (hm b hb).2)
  cases m with
  | nil => decide
  | cons c rest =>
    unfold gps_encode
    simp only [hd, List.headD_cons, List.tail_cons]
    rw [encode_loop_eq rest c 0 [36] (by decide) hm]
    have e : List.foldl (fun a c => a ^^^ c) 0 (c :: rest) = xor_bytes (c :: rest) := rfl
    simp only [e, hex_high_digit _ hx, hex_low_digit _ hx]
    simp

/-- C2: for every NUL-free byte string `m`, `gps_encode` writes exactly the
`|m| + 7` bytes `'$' ++ m ++ '*' ++ H1 H2 ++ '\r' '\n' ++ NUL`, with `H1 H2`
the uppercase hexadecimal digits (high nibble first) of the XOR of the bytes
of `m`, and returns the position `|m| + 6` of the written NUL; the two
encodings of the tests are "$PMTK251,38400*27\r\n" and "$*00\r\n". -/
theorem gps_encode_spec (m : List Nat) (hm : ∀ b ∈ m, 0 < b ∧ b < 256) :
    (gps_encode m).1 =
        [36] ++ m ++ [42, upper_hex_digit (xor_bytes m / 16),
          upper_hex_digit (xor_bytes m % 16), 13, 10] ++ [0]
      ∧ (gps_encode m).1.length = m.length + 7
      ∧ xor_bytes m < 256
      ∧ (gps_encode m).2 = m.length + 6
      ∧ rd (gps_encode m).1 (gps_encode m).2 = 0
      ∧ (xor_bytes [] = 0 ∧ upper_hex_digit 0 = 48)
      ∧ gps_encode (bytes "PMTK251,38400") = (bytes "$PMTK251,38400*27\r\n" ++ [0], 19)
      ∧ gps_encode (bytes "") = (bytes "$*00\r\n" ++ [0], 6) := by
  rw [gps_encode_eq m hm]
  refine ⟨by simp, by simp, xor_bytes_lt m (fun b hb => (hm b hb).2), rfl, ?_,
    by decide, by decide, by decide⟩
  simp only [rd, List.getD_eq_getElem?_getD]
  rw [List.getElem?_append_right (by simp)]
  simp

/-- The theorem `gps_encode_spec` at the message "PMTK251,38400". -/
theorem gps_encode_spec_witness :
    (∀ b ∈ bytes "PMTK251,38400", 0 < b ∧ b < 256)
      ∧ (gps_encode (bytes "PMTK251,38400")).1 = bytes "$PMTK251,38400*27\r\n" ++ [0]
      ∧ (gps_encode (bytes "PMTK251,38400")).2 = 19 :=
  ⟨by decide, by
      have h := (gps_encode_spec (bytes "PMTK251,38400") (by decide)).1
      rw [h]; decide,
    (gps_encode_spec (bytes "PMTK251,38400") (by decide)).2.2.2.1⟩

/-! ## The tokenizing loop in closed form -/

theorem scan_body_cons_star (rest : List Nat) : scan_body (42 :: rest) = [] := by
  simp [scan_body]

theorem scan_body_cons_nul (rest : List Nat) : scan_body (0 :: rest) = [] := by
  simp [scan_body]

theorem scan_body_cons {c : Nat} (rest : List Nat) (h1 : c ≠ 42) (h0 : c ≠ 0) :
    scan_body (c :: rest) = c :: scan_body rest := by
  simp [scan_body, h1, h0]

theorem comma_offsets_length (body : List Nat) :
    ∀ p, (comma_offsets p body).length = body.count 44 := by
  induction body with
  | nil => intro p; rfl
  | cons c rest ih =>
    intro p
    by_cases hc : c = 44
    · subst hc; simp [comma_offsets, ih]
    · have hc2 : ¬ (44 = c) := fun h => hc h.symm
      simp [comma_offsets, hc, ih, List.count_cons, hc2]

theorem tokenize_eq (cur : List Nat) :
    ∀ (pre : List Nat) (ck : Nat) (tok : List Nat), tok.length ≤ NMEA_MAX_FIELDS →
      tokenize pre cur ck tok =
        if NMEA_MAX_FIELDS < tok.length + (scan_body cur).count 44 then scan.overflow
        else if hd (cur.drop (scan_body cur).length) = 42 then
          scan.star (pre ++ mutate (scan_body cur)) (cur.drop (scan_body cur).length)
            (xor_fold ck (scan_body cur)) (tok ++ comma_offsets pre.length (scan_body cur))
        else scan.truncated (pre ++ mutate (scan_body cur) ++ cur.drop (scan_body cur).length) := by
  induction cur with
  | nil =>
    intro pre ck tok htok
    have : ¬ (NMEA_MAX_FIELDS < tok.length) := by omega
    simp [tokenize, scan_body, hd, mutate, this]
  | cons c rest ih =>
    intro pre ck tok htok
    by_cases h1 : c = 42
    · subst h1
      have : ¬ (NMEA_MAX_FIELDS < tok.length) := by omega
      simp [tokenize, scan_body_cons_star, hd, mutate, comma_offsets, xor_fold, this]
    · by_cases h0 : c = 0
      · subst h0
        have : ¬ (NMEA_MAX_FIELDS < tok.length) := by omega
        simp [tokenize, scan_body_cons_nul, hd, mutate, this]
      · rw [scan_body_cons rest h1 h0]
        by_cases hc : c = 44
        · subst hc
          by_cases hl : tok.length < NMEA_MAX_FIELDS
          · have hl2 : (tok ++ [pre.length + 1]).length ≤ NMEA_MAX_FIELDS := by
              simp; omega
            unfold tokenize
            simp only [h1, h0, if_false, if_true, hl]
            rw [ih _ _ _ hl2]
            have e1 : (tok ++ [pre.length + 1]).length + List.count 44 (scan_body rest)
                = tok.length + List.count 44 (44 :: scan_body rest) := by
              simp; omega
            rw [e1]
            simp [mutate, comma_offsets, xor_fold]
          · have : NMEA_MAX_FIELDS < tok.length + List.count 44 (44 :: scan_body rest) := by
              simp; omega
            unfold tokenize
            simp only [h1, h0, if_false, if_true, hl, this]
        · have hc2 : ¬ (44 = c) := fun h => hc h.symm
          unfold tokenize
          simp only [h1, h0, hc, if_false]
          rw [ih _ _ _ htok]
          simp [mutate, comma_offsets, xor_fold, hc, List.count_cons, hc2]

/-! ## The decoder in closed form -/

theorem gps_decode_body (r : gps_tpv) (t0 t1 : Nat) (cur : List Nat) (parse : parse_function)
    (h0 : t0 ≠ 0) (h1 : t1 ≠ 0) (hm : memchr_nul SENTENCE_ID_SIZE cur = false)
    (hp : select_parse cur = some parse) :
    gps_decode r (36 :: t0 :: t1 :: cur) =
      if NMEA_MAX_FIELDS < (scan_body cur).count 44 then none
      else if hd (cur.drop (scan_body cur).length) ≠ 42 then
        some ⟨GPS_ERROR_TRUNCATED, store_talker r t0 t1,
          [36, t0, t1] ++ mutate (scan_body cur) ++ cur.drop (scan_body cur).length⟩
      else if xor_fold ((t0 ^^^ t1) % 256) (scan_body cur)
          ≠ build_hex_byte (rd (cur.drop (scan_body cur).length) 1)
              (rd (cur.drop (scan_body cur).length) 2) then
        some ⟨GPS_ERROR_CHECKSUM, store_talker r t0 t1,
          [36, t0, t1] ++ mutate (scan_body cur) ++ [0]
            ++ (cur.drop (scan_body cur).length).tail⟩
      else if rd (cur.drop (scan_body cur).length) 3 ≠ 13
          ∨ rd (cur.drop (scan_body cur).length) 4 ≠ 10 then
        some ⟨GPS_ERROR_FOOT, store_talker r t0 t1,
          [36, t0, t1] ++ mutate (scan_body cur) ++ [0]
            ++ (cur.drop (scan_body cur).length).tail⟩
      else
        match parse (store_talker r t0 t1)
            (token_array ([36, t0, t1] ++ mutate (scan_body cur) ++ [0]
                ++ (cur.drop (scan_body cur).length).tail)
              (comma_offsets 3 (scan_body cur))) with
        | none => none
        | some tpv =>
          some ⟨GPS_OK, tpv, [36, t0, t1] ++ mutate (scan_body cur) ++ [0]
            ++ (cur.drop (scan_body cur).length).tail⟩ := by
  unfold gps_decode
  simp only [rd, List.getD_cons_zero, List.getD_cons_succ, ne_eq, not_true_eq_false, if_false,
    h0, h1, or_self, List.drop_succ_cons, List.drop_zero, hm, Bool.false_eq_true, hp,
    List.take_succ_cons, List.take_zero, Nat.zero_xor]
  rw [tokenize_eq cur _ _ [] (by simp)]
  have e1 : ∀ l : List Nat, l.tail.getD 0 0 = l.getD 1 0 := by intro l; cases l <;> simp
  have e2 : ∀ l : List Nat, l.tail.getD 1 0 = l.getD 2 0 := by intro l; cases l <;> simp
  have e3 : ∀ l : List Nat, l.tail.getD 2 0 = l.getD 3 0 := by intro l; cases l <;> simp
  have e4 : ∀ l : List Nat, l.tail.getD 3 0 = l.getD 4 0 := by intro l; cases l <;> simp
  by_cases hov : NMEA_MAX_FIELDS < (scan_body cur).count 44
  · simp [hov]
  · by_cases hst : hd (cur.drop (scan_body cur).length) = 42
    · simp only [List.length_nil, Nat.zero_add, hov, if_false, hst, if_true, not_true_eq_false]
      simp only [List.nil_append, List.length_cons, List.length_nil, Nat.zero_add, Nat.reduceAdd,
        e1, e2, e3, e4, token_array, store_talker, List.cons_append, List.append_assoc,
        List.singleton_append]
      split_ifs <;> rfl
    · simp [hov, hst, store_talker]

/-! ## Sentence-ID lookup -/

theorem bytes_GGA : bytes "GGA" = [71, 71, 65] := by decide
theorem bytes_GLL : bytes "GLL" = [71, 76, 76] := by decide
theorem bytes_GSA : bytes "GSA" = [71, 83, 65] := by decide
theorem bytes_RMC : bytes "RMC" = [82, 77, 67] := by decide
theorem bytes_VTG : bytes "VTG" = [86, 84, 71] := by decide
theorem bytes_ZDA : bytes "ZDA" = [90, 68, 65] := by decide

theorem memchr_nul_false (cur : List Nat) (hm : memchr_nul SENTENCE_ID_SIZE cur = false) :
    ∃ x y z rest, cur = x :: y :: z :: rest ∧ x ≠ 0 ∧ y ≠ 0 ∧ z ≠ 0 := by
  rcases cur with _ | ⟨x, _ | ⟨y, _ | ⟨z, rest⟩⟩⟩
  · simp [memchr_nul, SENTENCE_ID_SIZE, hd] at hm
  · simp [memchr_nul, SENTENCE_ID_SIZE, hd] at hm
  · simp [memchr_nul, SENTENCE_ID_SIZE, hd] at hm
  · refine ⟨x, y, z, rest, rfl, ?_⟩
    simp [memchr_nul, SENTENCE_ID_SIZE, hd] at hm
    exact hm

theorem memchr_nul_cons3 (x y z : Nat) (rest : List Nat) :
    memchr_nul SENTENCE_ID_SIZE (x :: y :: z :: rest) = false ↔ x ≠ 0 ∧ y ≠ 0 ∧ z ≠ 0 := by
  simp [memchr_nul, SENTENCE_ID_SIZE, hd]

theorem match_sentence_id_cons3 (x y z a b c : Nat) (rest : List Nat)
    (hx : x ≠ 0) (hy : y ≠ 0) :
    match_sentence_id (x :: y :: z :: rest) [a, b, c] = true ↔ [x, y, z] = [a, b, c] := by
  simp [match_sentence_id, match_sentence_id_n, SENTENCE_ID_SIZE, hd, hx, hy]

theorem select_parse_cons3 (x y z : Nat) (rest : List Nat) (hx : x ≠ 0) (hy : y ≠ 0) :
    select_parse (x :: y :: z :: rest) =
      if [x, y, z] = bytes "GGA" then some parse_gga
      else if [x, y, z] = bytes "GLL" then some parse_gll
      else if [x, y, z] = bytes "GSA" then some parse_gsa
      else if [x, y, z] = bytes "RMC" then some parse_rmc
      else if [x, y, z] = bytes "VTG" then some parse_vtg
      else if [x, y, z] = bytes "ZDA" then some parse_zda
      else none := by
  unfold select_parse
  simp only [bytes_GGA, bytes_GLL, bytes_GSA, bytes_RMC, bytes_VTG, bytes_ZDA,
    match_sentence_id_cons3 x y z _ _ _ rest hx hy]

/-! ## Extractors: enough tokens give a defined result -/

theorem token_array_some (nmea token : List Nat) (k : Nat) (hk : k < token.length) :
    ∃ t, token_array nmea token k = some t := by
  unfold token_array
  rw [List.get?_eq_get hk]
  exact ⟨_, rfl⟩

theorem parse_gga_some (r : gps_tpv) (token : Nat → Option (List Nat))
    (h : ∀ k, k < 10 → ∃ t, token k = some t) : ∃ r1, parse_gga r token = some r1 := by
  obtain ⟨t0, h0⟩ := h 0 (by omega)
  obtain ⟨t1, h1⟩ := h 1 (by omega)
  obtain ⟨t2, h2⟩ := h 2 (by omega)
  obtain ⟨t3, h3⟩ := h 3 (by omega)
  obtain ⟨t4, h4⟩ := h 4 (by omega)
  obtain ⟨t8, h8⟩ := h 8 (by omega)
  obtain ⟨t9, h9⟩ := h 9 (by omega)
  simp [parse_gga, h0, h1, h2, h3, h4, h8, h9]

theorem parse_gll_some (r : gps_tpv) (token : Nat → Option (List Nat))
    (h : ∀ k, k < 6 → ∃ t, token k = some t) : ∃ r1, parse_gll r token = some r1 := by
  obtain ⟨t0, h0⟩ := h 0 (by omega)
  obtain ⟨t1, h1⟩ := h 1 (by omega)
  obtain ⟨t2, h2⟩ := h 2 (by omega)
  obtain ⟨t3, h3⟩ := h 3 (by omega)
  obtain ⟨t4, h4⟩ := h 4 (by omega)
  obtain ⟨t5, h5⟩ := h 5 (by omega)
  by_cases hv : is_status_valid (hd t5) = true <;>
    simp [parse_gll, h0, h1, h2, h3, h4, h5, hv]

theorem parse_gsa_some (r : gps_tpv) (token : Nat → Option (List Nat))
    (h : ∀ k, k < 2 → ∃ t, token k = some t) : ∃ r1, parse_gsa r token = some r1 := by
  obtain ⟨t1, h1⟩ := h 1 (by omega)
  simp [parse_gsa, h1]

theorem parse_rmc_some (r : gps_tpv) (token : Nat → Option (List Nat))
    (h : ∀ k, k < 9 → ∃ t, token k = some t) : ∃ r1, parse_rmc r token = some r1 := by
  obtain ⟨t0, h0⟩ := h 0 (by omega)
  obtain ⟨t1, h1⟩ := h 1 (by omega)
  obtain ⟨t2, h2⟩ := h 2 (by omega)
  obtain ⟨t3, h3⟩ := h 3 (by omega)
  obtain ⟨t4, h4⟩ := h 4 (by omega)
  obtain ⟨t5, h5⟩ := h 5 (by omega)
  obtain ⟨t6, h6⟩ := h 6 (by omega)
  obtain ⟨t7, h7⟩ := h 7 (by omega)
  obtain ⟨t8, h8⟩ := h 8 (by omega)
  by_cases hv : is_status_valid (hd t1) = true <;>
    simp [parse_rmc, h0, h1, h2, h3, h4, h5, h6, h7, h8, hv]

theorem parse_vtg_some (r : gps_tpv) (token : Nat → Option (List Nat))
    (h : ∀ k, k < 8 → ∃ t, token k = some t) : ∃ r1, parse_vtg r token = some r1 := by
  obtain ⟨t0, h0⟩ := h 0 (by omega)
  obtain ⟨t1, h1⟩ := h 1 (by omega)
  obtain ⟨t6, h6⟩ := h 6 (by omega)
  obtain ⟨t7, h7⟩ := h 7 (by omega)
  simp [parse_vtg, h0, h1, h6, h7]

theorem parse_zda_some (r : gps_tpv) (token : Nat → Option (List Nat))
    (h : ∀ k, k < 4 → ∃ t, token k = some t) : ∃ r1, parse_zda r token = some r1 := by
  obtain ⟨t0, h0⟩ := h 0 (by omega)
  obtain ⟨t1, h1⟩ := h 1 (by omega)
  obtain ⟨t2, h2⟩ := h 2 (by omega)
  obtain ⟨t3, h3⟩ := h 3 (by omega)
  simp [parse_zda, h0, h1, h2, h3]

/-! ## The gates in terms of the scanned body -/

theorem rd_eq_hd_drop (l : List Nat) : ∀ n, rd l n = hd (l.drop n) := by
  induction l with
  | nil => intro n; simp [rd, hd]
  | cons a l ih =>
    intro n
    cases n with
    | zero => simp [rd, hd]
    | succ n => simp [rd, hd]

theorem rd_drop (l : List Nat) (n k : Nat) : rd (l.drop n) k = rd l (n + k) := by
  rw [rd_eq_hd_drop, rd_eq_hd_drop, List.drop_drop]

theorem scan_body_eq_of_no_nul (cur : List Nat)
    (h : ¬ (0 ∈ cur.takeWhile (fun c => decide (c ≠ 42)))) :
    scan_body cur = cur.takeWhile (fun c => decide (c ≠ 42)) := by
  induction cur with
  | nil => rfl
  | cons c rest ih =>
    by_cases h1 : c = 42
    · subst h1; simp [scan_body]
    · by_cases h0 : c = 0
      · subst h0; simp at h
      · rw [scan_body_cons rest h1 h0]
        simp only [List.takeWhile_cons, h1, ne_eq, not_false_eq_true, decide_True, if_true,
          List.mem_cons, not_or] at h ⊢
        rw [ih h.2]

theorem scan_body_stops_at_nul (cur : List Nat)
    (h : 0 ∈ cur.takeWhile (fun c => decide (c ≠ 42))) :
    hd (cur.drop (scan_body cur).length) = 0 := by
  induction cur with
  | nil => simp at h
  | cons c rest ih =>
    by_cases h1 : c = 42
    · subst h1; simp at h
    · by_cases h0 : c = 0
      · subst h0; simp [scan_body, hd]
      · rw [scan_body_cons rest h1 h0]
        simp only [List.takeWhile_cons, h1, ne_eq, not_false_eq_true, decide_True, if_true,
          List.mem_cons] at h
        rcases h with h | h
        · exact absurd h.symm h0
        · simpa using ih h

theorem nul_before_star_iff (t0 t1 a : Nat) (cur : List Nat) :
    nul_before_star (a :: t0 :: t1 :: cur) = true
      ↔ hd (cur.drop (scan_body cur).length) ≠ 42 := by
  unfold nul_before_star star_pos
  simp only [List.drop_succ_cons, List.drop_zero, Bool.or_eq_true, List.contains_iff_exists_mem_beq,
    bne_iff_ne, ne_eq]
  have e : rd (a :: t0 :: t1 :: cur)
      (3 + (cur.takeWhile (fun c => decide (c ≠ 42))).length)
      = hd (cur.drop (cur.takeWhile (fun c => decide (c ≠ 42))).length) := by
    rw [← rd_eq_hd_drop, Nat.add_comm]; simp [rd]
  rw [e]
  by_cases h : 0 ∈ cur.takeWhile (fun c => decide (c ≠ 42))
  · have h2 := scan_body_stops_at_nul cur h
    constructor
    · intro _; rw [h2]; decide
    · intro _; left; exact ⟨0, h, by simp⟩
  · rw [scan_body_eq_of_no_nul cur h]
    constructor
    · rintro (⟨x, hx, hx0⟩ | h3)
      · have hx1 : 0 = x := by simpa using hx0
        subst hx1; exact absurd hx h
      · exact h3
    · intro h3; right; exact h3

theorem xor_fold_eq (body : List Nat) (hb : ∀ b ∈ body, b < 256) :
    ∀ a, a < 256 → xor_fold a body = body.foldl (fun a c => a ^^^ c) a := by
  induction body with
  | nil => intro a _; rfl
  | cons c rest ih =>
    intro a ha
    have hc := hb c (List.mem_cons_self _ _)
    have hx := xor_byte_lt ha hc
    simp only [xor_fold, List.foldl_cons, Nat.mod_eq_of_lt hx]
    exact ih (fun b hb2 => hb b (List.mem_cons_of_mem _ hb2)) _ hx

theorem xor_fold_talker (t0 t1 : Nat) (body : List Nat) (h0 : t0 < 256) (h1 : t1 < 256)
    (hb : ∀ b ∈ body, b < 256) :
    xor_fold ((t0 ^^^ t1) % 256) body = xor_bytes (t0 :: t1 :: body) := by
  have hx := xor_byte_lt h0 h1
  rw [Nat.mod_eq_of_lt hx, xor_fold_eq body hb _ hx]
  simp [xor_bytes]

theorem scan_body_take (cur : List Nat) :
    cur.take (scan_body cur).length = scan_body cur := by
  unfold scan_body
  induction cur with
  | nil => rfl
  | cons c rest ih =>
    by_cases hc : (decide (c ≠ 42) && decide (c ≠ 0)) = true
    · simp only [List.takeWhile_cons, hc, if_true, List.length_cons, List.take_succ_cons, ih]
    · simp only [List.takeWhile_cons, hc, if_false, List.length_nil, List.take_zero]
      rfl

theorem scan_body_mem (cur : List Nat) : ∀ b ∈ scan_body cur, b ≠ 42 ∧ b ≠ 0 := by
  intro b hb
  have := List.mem_takeWhile_imp hb
  simp only [ne_eq, Bool.and_eq_true, decide_eq_true_eq] at this
  exact this

theorem scan_body_subset (cur : List Nat) : ∀ b ∈ scan_body cur, b ∈ cur := by
  intro b hb
  exact (List.takeWhile_sublist _).subset hb

theorem star_pos_eq (a t0 t1 : Nat) (cur : List Nat)
    (h : hd (cur.drop (scan_body cur).length) = 42) :
    star_pos (a :: t0 :: t1 :: cur) = 3 + (scan_body cur).length := by
  have hn : ¬ (nul_before_star (a :: t0 :: t1 :: cur) = true) := by
    rw [nul_before_star_iff]; simp [h]
  have h0 : ¬ (0 ∈ cur.takeWhile (fun c => decide (c ≠ 42))) := by
    intro h0
    apply hn
    unfold nul_before_star
    simp only [List.drop_succ_cons, List.drop_zero, Bool.or_eq_true]
    left
    simpa using h0
  unfold star_pos
  simp only [List.drop_succ_cons, List.drop_zero]
  rw [scan_body_eq_of_no_nul cur h0]

theorem gate_code_cons (t0 t1 : Nat) (cur : List Nat) (h0 : t0 ≠ 0) (h1 : t1 ≠ 0)
    (hm : memchr_nul SENTENCE_ID_SIZE cur = false)
    (hb0 : t0 < 256) (hb1 : t1 < 256) (hb : ∀ b ∈ cur, b < 256) :
    gate_code (36 :: t0 :: t1 :: cur) =
      if sentence_id (36 :: t0 :: t1 :: cur) ∉ supported_ids then GPS_ERROR_UNSUPPORTED
      else if hd (cur.drop (scan_body cur).length) ≠ 42 then GPS_ERROR_TRUNCATED
      else if xor_fold ((t0 ^^^ t1) % 256) (scan_body cur)
          ≠ build_hex_byte (rd (cur.drop (scan_body cur).length) 1)
              (rd (cur.drop (scan_body cur).length) 2) then GPS_ERROR_CHECKSUM
      else if rd (cur.drop (scan_body cur).length) 3 ≠ 13
          ∨ rd (cur.drop (scan_body cur).length) 4 ≠ 10 then GPS_ERROR_FOOT
      else GPS_OK := by
  obtain ⟨x, y, z, rest, rfl, hx, hy, hz⟩ := memchr_nul_false cur hm
  unfold gate_code
  have r0 : rd (36 :: t0 :: t1 :: x :: y :: z :: rest) 0 = 36 := rfl
  have r1 : rd (36 :: t0 :: t1 :: x :: y :: z :: rest) 1 = t0 := rfl
  have r2 : rd (36 :: t0 :: t1 :: x :: y :: z :: rest) 2 = t1 := rfl
  have r3 : rd (36 :: t0 :: t1 :: x :: y :: z :: rest) 3 = x := rfl
  have r4 : rd (36 :: t0 :: t1 :: x :: y :: z :: rest) 4 = y := rfl
  have r5 : rd (36 :: t0 :: t1 :: x :: y :: z :: rest) 5 = z := rfl
  simp only [r0, r1, r2, r3, r4, r5, ne_eq, not_true_eq_false, if_false, h0, h1, hx, hy, hz,
    or_self]
  by_cases hid : sentence_id (36 :: t0 :: t1 :: x :: y :: z :: rest) ∈ supported_ids
  · simp only [hid, not_true_eq_false, if_false]
    by_cases hst : hd ((x :: y :: z :: rest).drop (scan_body (x :: y :: z :: rest)).length) = 42
    · have hn : ¬ (nul_before_star (36 :: t0 :: t1 :: x :: y :: z :: rest) = true) := by
        rw [nul_before_star_iff]; simp [hst]
      have hsp := star_pos_eq 36 t0 t1 (x :: y :: z :: rest) hst
      have e : ∀ k, rd (36 :: t0 :: t1 :: x :: y :: z :: rest)
          (3 + (scan_body (x :: y :: z :: rest)).length + k)
          = rd ((x :: y :: z :: rest).drop (scan_body (x :: y :: z :: rest)).length) k := by
        intro k
        rw [rd_drop, Nat.add_assoc, Nat.add_comm 3]
        rfl
      have ex : List.drop 1 (List.take (3 + (scan_body (x :: y :: z :: rest)).length)
          (36 :: t0 :: t1 :: x :: y :: z :: rest))
          = t0 :: t1 :: scan_body (x :: y :: z :: rest) := by
        rw [Nat.add_comm 3]
        simp only [List.take_succ_cons, List.drop_succ_cons, List.drop_zero]
        rw [scan_body_take]
      have hbody : ∀ b ∈ scan_body (x :: y :: z :: rest), b < 256 :=
        fun b hb2 => hb b (scan_body_subset _ b hb2)
      simp only [hn, if_false, hst, not_true_eq_false, hsp, e, ex,
        xor_fold_talker t0 t1 _ hb0 hb1 hbody]
      by_cases hck : build_hex_byte
          (rd ((x :: y :: z :: rest).drop (scan_body (x :: y :: z :: rest)).length) 1)
          (rd ((x :: y :: z :: rest).drop (scan_body (x :: y :: z :: rest)).length) 2)
          = xor_bytes (t0 :: t1 :: scan_body (x :: y :: z :: rest))
      · simp [hck]
      · have hck2 : ¬ (xor_bytes (t0 :: t1 :: scan_body (x :: y :: z :: rest))
            = build_hex_byte
              (rd ((x :: y :: z :: rest).drop (scan_body (x :: y :: z :: rest)).length) 1)
              (rd ((x :: y :: z :: rest).drop (scan_body (x :: y :: z :: rest)).length) 2)) :=
          fun h => hck h.symm
        simp [hck, hck2]
    · have hn : nul_before_star (36 :: t0 :: t1 :: x :: y :: z :: rest) = true := by
        rw [nul_before_star_iff]; exact hst
      simp [hn, hst]
  · simp [hid]

/-! ## C1: the result code -/

theorem shape_of_header (s : List Nat) (h0 : rd s 0 = 36) (h1 : rd s 1 ≠ 0) (h2 : rd s 2 ≠ 0) :
    s = 36 :: rd s 1 :: rd s 2 :: s.drop 3 := by
  rcases s with _ | ⟨a, _ | ⟨b, _ | ⟨c, rest⟩⟩⟩
  · simp [rd] at h0
  · simp [rd] at h1
  · simp [rd] at h2
  · simp [rd] at h0 ⊢
    exact h0

theorem supported_select (x y z : Nat) (rest : List Nat) (hx : x ≠ 0) (hy : y ≠ 0)
    (hid : [x, y, z] ∈ supported_ids) :
    ∃ parse, select_parse (x :: y :: z :: rest) = some parse
      ∧ ∀ (r : gps_tpv) (token : Nat → Option (List Nat)),
          (∀ k, k < min_tokens [x, y, z] → ∃ t, token k = some t) →
          ∃ r1, parse r token = some r1 := by
  rw [select_parse_cons3 x y z rest hx hy]
  simp only [supported_ids, List.mem_cons, List.mem_singleton, List.not_mem_nil, or_false] at hid
  simp only [bytes_GGA, bytes_GLL, bytes_GSA, bytes_RMC, bytes_VTG, bytes_ZDA] at hid ⊢
  rcases hid with h | h | h | h | h | h <;>
    (simp only [List.cons.injEq, and_true] at h
     obtain ⟨rfl, rfl, rfl⟩ := h)
  · exact ⟨parse_gga, by simp, fun r token ht => parse_gga_some r token (by simpa [min_tokens, bytes_GGA] using ht)⟩
  · exact ⟨parse_gll, by simp, fun r token ht => parse_gll_some r token (by simpa [min_tokens, bytes_GGA, bytes_GLL] using ht)⟩
  · exact ⟨parse_gsa, by simp, fun r token ht => parse_gsa_some r token (by simpa [min_tokens, bytes_GGA, bytes_GLL, bytes_GSA] using ht)⟩
  · exact ⟨parse_rmc, by simp, fun r token ht => parse_rmc_some r token (by simpa [min_tokens, bytes_GGA, bytes_GLL, bytes_GSA, bytes_RMC] using ht)⟩
  · exact ⟨parse_vtg, by simp, fun r token ht => parse_vtg_some r token (by simpa [min_tokens, bytes_GGA, bytes_GLL, bytes_GSA, bytes_RMC, bytes_VTG] using ht)⟩
  · exact ⟨parse_zda, by simp, fun r token ht => parse_zda_some r token (by simpa [min_tokens, bytes_GGA, bytes_GLL, bytes_GSA, bytes_RMC, bytes_VTG, bytes_ZDA] using ht)⟩

theorem unsupported_select (x y z : Nat) (rest : List Nat) (hx : x ≠ 0) (hy : y ≠ 0)
    (hid : [x, y, z] ∉ supported_ids) : select_parse (x :: y :: z :: rest) = none := by
  rw [select_parse_cons3 x y z rest hx hy]
  simp only [supported_ids, List.mem_cons, List.mem_singleton, List.not_mem_nil, or_false,
    not_or] at hid
  simp [hid]

theorem gate_code_ok_iff (s : List Nat) :
    gate_code s = GPS_OK ↔
      (reaches_tokenizer s ∧ nul_before_star s = false
        ∧ build_hex_byte (rd s (star_pos s + 1)) (rd s (star_pos s + 2))
            = xor_bytes ((s.take (star_pos s)).drop 1)
        ∧ rd s (star_pos s + 3) = 13 ∧ rd s (star_pos s + 4) = 10) := by
  unfold gate_code reaches_tokenizer
  simp only [GPS_OK, GPS_ERROR_HEAD, GPS_ERROR_TRUNCATED, GPS_ERROR_UNSUPPORTED,
    GPS_ERROR_CHECKSUM, GPS_ERROR_FOOT]
  split_ifs <;> simp_all <;> tauto

theorem gps_decode_gate_code_aux (r : gps_tpv) (s : List Nat) (hs : ∀ b ∈ s, b < 256)
    (h32 : reaches_tokenizer s → field_commas s ≤ NMEA_MAX_FIELDS)
    (hmin : gate_code s = GPS_OK → min_tokens (sentence_id s) ≤ field_commas s) :
    ∃ d, gps_decode r s = some d ∧ d.code = gate_code s := by
  by_cases hh : rd s 0 = 36
  swap
  · exact ⟨⟨GPS_ERROR_HEAD, r, s⟩, by simp [gps_decode, hh], by simp [gate_code, hh]⟩
  by_cases ht : rd s 1 = 0 ∨ rd s 2 = 0
  · exact ⟨⟨GPS_ERROR_TRUNCATED, r, s⟩, by simp [gps_decode, hh, ht],
      by simp [gate_code, hh, ht]⟩
  have ht1 : rd s 1 ≠ 0 := fun h => ht (Or.inl h)
  have ht2 : rd s 2 ≠ 0 := fun h => ht (Or.inr h)
  have hshape := shape_of_header s hh ht1 ht2
  generalize rd s 1 = t0 at hshape ht1
  generalize rd s 2 = t1 at hshape ht2
  generalize s.drop 3 = cur at hshape
  subst hshape
  clear hh ht
  have hb0 : t0 < 256 := hs t0 (by simp)
  have hb1 : t1 < 256 := hs t1 (by simp)
  have hb : ∀ b ∈ cur, b < 256 := fun b hb => hs b (by simp [hb])
  by_cases hm : memchr_nul SENTENCE_ID_SIZE cur = true
  · refine ⟨⟨GPS_ERROR_TRUNCATED, store_talker r t0 t1, 36 :: t0 :: t1 :: cur⟩, ?_, ?_⟩
    · simp [gps_decode, rd, ht1, ht2, hm, store_talker]
    · have : rd cur 0 = 0 ∨ rd cur 1 = 0 ∨ rd cur 2 = 0 := by
        rcases cur with _ | ⟨x, _ | ⟨y, _ | ⟨z, rest⟩⟩⟩
        all_goals simp [memchr_nul, SENTENCE_ID_SIZE, hd, rd] at hm ⊢
        tauto
      have r0 : rd (36 :: t0 :: t1 :: cur) 0 = 36 := rfl
      have r1 : rd (36 :: t0 :: t1 :: cur) 1 = t0 := rfl
      have r2 : rd (36 :: t0 :: t1 :: cur) 2 = t1 := rfl
      have r3 : rd (36 :: t0 :: t1 :: cur) 3 = rd cur 0 := rfl
      have r4 : rd (36 :: t0 :: t1 :: cur) 4 = rd cur 1 := rfl
      have r5 : rd (36 :: t0 :: t1 :: cur) 5 = rd cur 2 := rfl
      unfold gate_code
      simp only [r0, r1, r2, r3, r4, r5, ne_eq, not_true_eq_false, if_false, ht1, ht2, or_self,
        this, if_true]
  · have hm2 : memchr_nul SENTENCE_ID_SIZE cur = false := by simpa using hm
    rw [gate_code_cons t0 t1 cur ht1 ht2 hm2 hb0 hb1 hb] at hmin ⊢
    obtain ⟨x, y, z, rest, rfl, hx, hy, hz⟩ := memchr_nul_false cur hm2
    have hsid : sentence_id (36 :: t0 :: t1 :: x :: y :: z :: rest) = [x, y, z] := rfl
    rw [hsid] at hmin ⊢
    by_cases hid : [x, y, z] ∈ supported_ids
    · obtain ⟨parse, hp, hsome⟩ := supported_select x y z rest hx hy hid
      have hreach : reaches_tokenizer (36 :: t0 :: t1 :: x :: y :: z :: rest) :=
        ⟨rfl, ht1, ht2, hx, hy, hz, hid⟩
      have hov : ¬ (NMEA_MAX_FIELDS < (scan_body (x :: y :: z :: rest)).count 44) := by
        have := h32 hreach
        simp only [field_commas, List.drop_succ_cons, List.drop_zero] at this
        omega
      rw [gps_decode_body r t0 t1 _ parse ht1 ht2 hm2 hp]
      simp only [hov, if_false, hid, not_true_eq_false]
      split_ifs with c1 c2 c3
      · exact ⟨_, rfl, rfl⟩
      · exact ⟨_, rfl, rfl⟩
      · exact ⟨_, rfl, rfl⟩
      · have hge : min_tokens [x, y, z] ≤ (scan_body (x :: y :: z :: rest)).count 44 := by
          have := hmin (by simp [hid, c1, c2, c3])
          simpa [field_commas] using this
        obtain ⟨r1, hr1⟩ := hsome (store_talker r t0 t1)
          (token_array ([36, t0, t1] ++ mutate (scan_body (x :: y :: z :: rest)) ++ [0]
              ++ ((x :: y :: z :: rest).drop (scan_body (x :: y :: z :: rest)).length).tail)
            (comma_offsets 3 (scan_body (x :: y :: z :: rest))))
          (fun k hk => token_array_some _ _ k (by rw [comma_offsets_length]; omega))
        rw [hr1]
        exact ⟨_, rfl, rfl⟩
    · refine ⟨⟨GPS_ERROR_UNSUPPORTED, store_talker r t0 t1, 36 :: t0 :: t1 :: x :: y :: z :: rest⟩, ?_, ?_⟩
      · have hp := unsupported_select x y z rest hx hy hid
        simp [gps_decode, rd, ht1, ht2, hm2, hp, store_talker]
      · simp [hid]

/-- C1 (amended): for every byte string `s` in which the tokenizing loop, when
it is reached, meets at most 32 `','`, and which, when no gate fails, has at
least the number of `','` its sentence type reads, `gps_decode` returns the
code of the first failing gate, in the order header (1), talker bytes (4),
NUL in the ID (4), unsupported ID (5), NUL before `'*'` (4), checksum (3),
footer (2); and it returns `GPS_OK` if and only if no gate fails. -/
theorem gps_decode_gate_code (r : gps_tpv) (s : List Nat) (hs : ∀ b ∈ s, b < 256)
    (h32 : reaches_tokenizer s → field_commas s ≤ NMEA_MAX_FIELDS)
    (hmin : gate_code s = GPS_OK → min_tokens (sentence_id s) ≤ field_commas s) :
    ∃ d, gps_decode r s = some d ∧ d.code = gate_code s
      ∧ (d.code = GPS_OK ↔
          (rd s 0 = 36 ∧ rd s 1 ≠ 0 ∧ rd s 2 ≠ 0 ∧ rd s 3 ≠ 0 ∧ rd s 4 ≠ 0 ∧ rd s 5 ≠ 0
            ∧ sentence_id s ∈ supported_ids ∧ nul_before_star s = false
            ∧ build_hex_byte (rd s (star_pos s + 1)) (rd s (star_pos s + 2))
                = xor_bytes ((s.take (star_pos s)).drop 1)
            ∧ rd s (star_pos s + 3) = 13 ∧ rd s (star_pos s + 4) = 10)) := by
  obtain ⟨d, hd1, hd2⟩ := gps_decode_gate_code_aux r s hs h32 hmin
  refine ⟨d, hd1, hd2, ?_⟩
  rw [hd2, gate_code_ok_iff]
  simp only [reaches_tokenizer, and_assoc]

set_option maxRecDepth 100000 in
/-- The theorem `gps_decode_gate_code` at the GGA sentence of the tests. -/
theorem gps_decode_gate_code_witness :
    ∃ d, gps_decode init_tpv (bytes "$GPGGA,172814.0,3723.46587704,N,12202.26957864,W,2,6,1.2,18.893,M,-25.669,M,2.0,0031*4F\r\n") = some d
      ∧ d.code = GPS_OK :=
  (gps_decode_gate_code init_tpv
    (bytes "$GPGGA,172814.0,3723.46587704,N,12202.26957864,W,2,6,1.2,18.893,M,-25.669,M,2.0,0031*4F\r\n")
    (by decide) (fun _ => by decide) (fun _ => by decide)).imp
    (fun _ h => ⟨h.1, h.2.1.trans (by decide)⟩)

set_option maxRecDepth 100000 in
/-- C1 as stated fails: "$GPGSA*42\r\n" passes every gate, but `parse_gsa`
reads `token[1]`, which the tokenizer never stored; and a GGA body of 33
`','` without `'*'` makes the loop store past the 32 entries of `token`
before the NUL is reached. -/
theorem gps_decode_gate_code_counterexample :
    (gate_code (bytes "$GPGSA*42\r\n") = GPS_OK
      ∧ gps_decode init_tpv (bytes "$GPGSA*42\r\n") = none)
    ∧ (gate_code (bytes "$GPGGA,,,,,,,,,,,,,,,,,,,,,,,,,,,,,,,,,") = GPS_ERROR_TRUNCATED
      ∧ gps_decode init_tpv (bytes "$GPGGA,,,,,,,,,,,,,,,,,,,,,,,,,,,,,,,,,") = none) := by
  decide

/-! ## C strings: a scanner reads nothing past the first NUL -/

theorem hd_cstr (p : List Nat) : hd (cstr p) = hd p := by
  cases p with
  | nil => rfl
  | cons c rest =>
    by_cases hc : c = 0
    · subst hc; simp [cstr, hd]
    · simp [cstr, hd, hc]

theorem cstr_tail (p : List Nat) (h : hd p ≠ 0) : (cstr p).tail = cstr p.tail := by
  cases p with
  | nil => rfl
  | cons c rest =>
    have hc : c ≠ 0 := by simpa [hd] using h
    simp [cstr, hc]

theorem cstr_nul (p : List Nat) (h : hd p = 0) : cstr p = [] := by
  cases p with
  | nil => rfl
  | cons c rest =>
    have hc : c = 0 := by simpa [hd] using h
    subst hc
    simp [cstr]

theorem cstr_cons {c : Nat} (rest : List Nat) (hc : c ≠ 0) : cstr (c :: rest) = c :: cstr rest := by
  simp [cstr, hc]

theorem cstr_cons_nul (rest : List Nat) : cstr (0 :: rest) = [] := by
  simp [cstr]

theorem is_digit_0_to_9_ne {c : Nat} (h : is_digit_0_to_9 c = true) : c ≠ 0 := by
  rintro rfl; revert h; decide

theorem is_digit_0_to_5_ne {c : Nat} (h : is_digit_0_to_5 c = true) : c ≠ 0 := by
  rintro rfl; revert h; decide

theorem is_digit_0_to_3_ne {c : Nat} (h : is_digit_0_to_3 c = true) : c ≠ 0 := by
  rintro rfl; revert h; decide

theorem is_digit_0_to_2_ne {c : Nat} (h : is_digit_0_to_2 c = true) : c ≠ 0 := by
  rintro rfl; revert h; decide

theorem is_digit_0_to_1_ne {c : Nat} (h : is_digit_0_to_1 c = true) : c ≠ 0 := by
  rintro rfl; revert h; decide

theorem copy_digits_nul (base n i : Nat) (nmea destination : List Nat) :
    copy_digits base n i 0 nmea destination = destination := by
  unfold copy_digits
  have : is_digit_0_to_9 0 = false := by decide
  simp [this]

theorem copy_digits_cstr (base n : Nat) (nmea : List Nat) :
    ∀ (i c0 : Nat) (destination : List Nat),
      copy_digits base n i c0 (cstr nmea) destination
        = copy_digits base n i c0 nmea destination := by
  induction nmea with
  | nil => intro i c0 destination; rfl
  | cons c rest ih =>
    intro i c0 destination
    by_cases hc : c = 0
    · subst hc
      rw [cstr_cons_nul]
      unfold copy_digits
      simp only [copy_digits_nul]
    · rw [cstr_cons rest hc]
      unfold copy_digits
      simp only [ih]

theorem copy_digits_cstr_tail (base n i : Nat) (nmea destination : List Nat) :
    copy_digits base n i (hd nmea) (cstr nmea).tail destination
      = copy_digits base n i (hd nmea) nmea.tail destination := by
  by_cases h : hd nmea = 0
  · rw [h, copy_digits_nul, copy_digits_nul]
  · rw [cstr_tail nmea h, copy_digits_cstr]

theorem parse_time_cstr (destination nmea : List Nat) :
    parse_time destination (cstr nmea) = parse_time destination nmea := by
  unfold parse_time
  simp only [hd_cstr]
  by_cases h1 : is_digit_0_to_2 (hd nmea) = true
  swap
  · simp only [h1, Bool.false_eq_true, if_false]
  rw [cstr_tail nmea (is_digit_0_to_2_ne h1)]
  simp only [hd_cstr, h1, if_true]
  by_cases h2 : is_digit_0_to_9 (hd nmea.tail) = true
  swap
  · simp only [h2, Bool.false_eq_true, if_false]
  rw [cstr_tail nmea.tail (is_digit_0_to_9_ne h2)]
  simp only [hd_cstr, h2, if_true]
  by_cases h3 : is_digit_0_to_5 (hd nmea.tail.tail) = true
  swap
  · simp only [h3, Bool.false_eq_true, if_false]
  rw [cstr_tail nmea.tail.tail (is_digit_0_to_5_ne h3)]
  simp only [hd_cstr, h3, if_true]
  by_cases h4 : is_digit_0_to_9 (hd nmea.tail.tail.tail) = true
  swap
  · simp only [h4, Bool.false_eq_true, if_false]
  rw [cstr_tail nmea.tail.tail.tail (is_digit_0_to_9_ne h4)]
  simp only [hd_cstr, h4, if_true]
  by_cases h5 : is_digit_0_to_5 (hd nmea.tail.tail.tail.tail) = true
  swap
  · simp only [h5, Bool.false_eq_true, if_false]
  rw [cstr_tail nmea.tail.tail.tail.tail (is_digit_0_to_5_ne h5)]
  simp only [hd_cstr, h5, if_true]
  by_cases h6 : is_digit_0_to_9 (hd nmea.tail.tail.tail.tail.tail) = true
  swap
  · simp only [h6, Bool.false_eq_true, if_false]
  rw [cstr_tail nmea.tail.tail.tail.tail.tail (is_digit_0_to_9_ne h6)]
  simp only [hd_cstr, h6, if_true]
  by_cases h7 : hd nmea.tail.tail.tail.tail.tail.tail = 46
  swap
  · simp only [h7, if_false]
  rw [cstr_tail nmea.tail.tail.tail.tail.tail.tail (by rw [h7]; decide)]
  simp only [hd_cstr, h7, if_true, copy_digits_cstr_tail]

theorem parse_date_cstr (destination nmea : List Nat) :
    parse_date destination (cstr nmea) = parse_date destination nmea := by
  unfold parse_date
  simp only [hd_cstr]
  by_cases h1 : is_digit_0_to_3 (hd nmea) = true
  swap
  · simp only [h1, Bool.false_eq_true, if_false]
  rw [cstr_tail nmea (is_digit_0_to_3_ne h1)]
  simp only [hd_cstr, h1, if_true]
  by_cases h2 : is_digit_0_to_9 (hd nmea.tail) = true
  swap
  · simp only [h2, Bool.false_eq_true, if_false]
  rw [cstr_tail nmea.tail (is_digit_0_to_9_ne h2)]
  simp only [hd_cstr, h2, if_true]
  by_cases h3 : is_digit_0_to_1 (hd nmea.tail.tail) = true
  swap
  · simp only [h3, Bool.false_eq_true, if_false]
  rw [cstr_tail nmea.tail.tail (is_digit_0_to_1_ne h3)]
  simp only [hd_cstr, h3, if_true]
  by_cases h4 : is_digit_0_to_9 (hd nmea.tail.tail.tail) = true
  swap
  · simp only [h4, Bool.false_eq_true, if_false]
  rw [cstr_tail nmea.tail.tail.tail (is_digit_0_to_9_ne h4)]
  simp only [hd_cstr, h4, if_true]
  by_cases h5 : is_digit_0_to_9 (hd nmea.tail.tail.tail.tail) = true
  swap
  · simp only [h5, Bool.false_eq_true, if_false]
  rw [cstr_tail nmea.tail.tail.tail.tail (is_digit_0_to_9_ne h5)]
  simp only [hd_cstr, h5, if_true]

theorem parse_extended_date_cstr (destination day month year : List Nat) :
    parse_extended_date destination (cstr day) (cstr month) (cstr year)
      = parse_extended_date destination day month year := by
  unfold parse_extended_date
  simp only [hd_cstr]
  by_cases h1 : is_digit_0_to_3 (hd day) = true
  swap
  · simp only [h1, Bool.false_eq_true, if_false]
  rw [cstr_tail day (is_digit_0_to_3_ne h1)]
  simp only [hd_cstr, h1, if_true]
  by_cases h2 : is_digit_0_to_9 (hd day.tail) = true
  swap
  · simp only [h2, Bool.false_eq_true, if_false]
  simp only [h2, if_true]
  by_cases h3 : is_digit_0_to_1 (hd month) = true
  swap
  · simp only [h3, Bool.false_eq_true, if_false]
  rw [cstr_tail month (is_digit_0_to_1_ne h3)]
  simp only [hd_cstr, h3, if_true, copy_digits_cstr_tail]

theorem fraction_loop_cstr (str : List Nat) :
    ∀ (i : Nat) (value factor : Int) (c0 : Nat),
      fraction_loop i value factor c0 (cstr str) = fraction_loop i value factor c0 str := by
  induction str with
  | nil => intro i value factor c0; rfl
  | cons c rest ih =>
    intro i value factor c0
    by_cases hc : c = 0
    · subst hc
      rw [cstr_cons_nul]
      unfold fraction_loop
      have : is_digit_0_to_9 0 = false := by decide
      simp [this]
    · rw [cstr_cons rest hc]
      unfold fraction_loop
      simp only [ih]

theorem fraction_loop_cstr_tail (str : List Nat) (i : Nat) (value factor : Int)
    (h : hd str ≠ 0) :
    fraction_loop i value factor (hd str) (cstr str).tail
      = fraction_loop i value factor (hd str) str.tail := by
  rw [cstr_tail str h, fraction_loop_cstr]

theorem parse_number_int_cstr (str : List Nat) :
    ∀ (value : Int) (c0 : Nat),
      parse_number_int value c0 (cstr str) = visible (parse_number_int value c0 str) := by
  induction str with
  | nil => intro value c0; simp [parse_number_int, cstr, visible]
  | cons c rest ih =>
    intro value c0
    by_cases hc : c = 0
    · subst hc
      rw [cstr_cons_nul]
      have : is_digit_0_to_9 0 = false := by decide
      simp [parse_number_int, visible, this]
    · rw [cstr_cons rest hc]
      unfold parse_number_int
      by_cases hdg : is_digit_0_to_9 c = true
      · simp only [hdg, if_true, ih]
      · simp [hdg, visible, hc]

theorem parse_number_tail_view (value : Int) (sign : Int) (c0 : Nat) (str : List Nat) :
    (match (if c0 = 46 then
        (if is_digit_0_to_9 (hd (if c0 = 0 then [] else cstr str)) = true then
          fraction_loop 3 value GPS_VALUE_FACTOR (hd (if c0 = 0 then [] else cstr str))
            (if c0 = 0 then [] else cstr str).tail
        else (value, GPS_VALUE_FACTOR))
      else (value, GPS_VALUE_FACTOR)) with
    | (value, factor) => wrap32 (wrap32 (value * factor) * sign))
    = (match (if c0 = 46 then
        (if is_digit_0_to_9 (hd str) = true then
          fraction_loop 3 value GPS_VALUE_FACTOR (hd str) str.tail
        else (value, GPS_VALUE_FACTOR))
      else (value, GPS_VALUE_FACTOR)) with
    | (value, factor) => wrap32 (wrap32 (value * factor) * sign)) := by
  by_cases h : c0 = 46
  · have h0 : c0 ≠ 0 := by rw [h]; decide
    simp only [h0, if_false, hd_cstr]
    by_cases hdg : is_digit_0_to_9 (hd str) = true
    · simp only [hdg, if_true, fraction_loop_cstr_tail str _ _ _ (is_digit_0_to_9_ne hdg)]
    · simp only [hdg, Bool.false_eq_true, if_false]
  · simp only [h, if_false]

theorem parse_number_digits_cstr (sign : Int) (c0 : Nat) (str : List Nat) :
    (match parse_number_int 0 c0 (cstr str) with
      | (value, c0, str) =>
        match (if c0 = 46 then
            (if is_digit_0_to_9 (hd str) = true then
              fraction_loop 3 value GPS_VALUE_FACTOR (hd str) str.tail
            else (value, GPS_VALUE_FACTOR))
          else (value, GPS_VALUE_FACTOR)) with
        | (value, factor) => wrap32 (wrap32 (value * factor) * sign))
    = (match parse_number_int 0 c0 str with
      | (value, c0, str) =>
        match (if c0 = 46 then
            (if is_digit_0_to_9 (hd str) = true then
              fraction_loop 3 value GPS_VALUE_FACTOR (hd str) str.tail
            else (value, GPS_VALUE_FACTOR))
          else (value, GPS_VALUE_FACTOR)) with
        | (value, factor) => wrap32 (wrap32 (value * factor) * sign)) := by
  rw [parse_number_int_cstr]
  generalize parse_number_int 0 c0 str = st
  obtain ⟨v, c, l⟩ := st
  simp only [visible]
  exact parse_number_tail_view v sign c l

theorem parse_number_cstr (str : List Nat) : parse_number (cstr str) = parse_number str := by
  unfold parse_number
  simp only [hd_cstr]
  by_cases h0 : hd str = 0
  · simp only [h0, if_true]
  simp only [h0, if_false]
  rw [cstr_tail str h0]
  by_cases hm : hd str = 45
  · simp only [hm, if_true, hd_cstr]
    by_cases hdg : is_digit_0_to_9 (hd str.tail) = true
    · simp only [hdg, if_true]
      rw [cstr_tail str.tail (is_digit_0_to_9_ne hdg)]
      exact parse_number_digits_cstr (-1) _ _
    · simp only [hdg, Bool.false_eq_true, if_false]
  · simp only [hm, if_false]
    by_cases hdg : is_digit_0_to_9 (hd str) = true
    · simp only [hdg, if_true]
      exact parse_number_digits_cstr 1 _ _
    · simp only [hdg, Bool.false_eq_true, if_false]

theorem hd_eq_of_cstr_eq {p q : List Nat} (h : cstr p = cstr q) : hd p = hd q := by
  rw [← hd_cstr p, ← hd_cstr q, h]

theorem cstr_tail_eq_of_cstr_eq {p q : List Nat} (h : cstr p = cstr q) (h0 : hd q ≠ 0) :
    cstr p.tail = cstr q.tail := by
  have hp : hd p ≠ 0 := by rw [hd_eq_of_cstr_eq h]; exact h0
  rw [← cstr_tail p hp, ← cstr_tail q h0, h]

theorem cstr_idem (p : List Nat) : cstr (cstr p) = cstr p := by
  induction p with
  | nil => rfl
  | cons c rest ih =>
    by_cases hc : c = 0
    · subst hc; simp [cstr]
    · rw [cstr_cons rest hc, cstr_cons _ hc, ih]

theorem angular_digits_view (i : Nat) :
    ∀ (acc : Int) (c0 : Nat) (p q : List Nat), (c0 ≠ 0 → cstr p = cstr q) →
      (angular_digits i acc c0 p).map visible = (angular_digits i acc c0 q).map visible := by
  induction i with
  | zero =>
    intro acc c0 p q h
    simp only [angular_digits, Option.map_some', visible]
    by_cases h0 : c0 = 0
    · simp only [h0, if_true]
    · simp only [h0, if_false, h h0]
  | succ i ih =>
    intro acc c0 p q h
    unfold angular_digits
    by_cases hdg : is_digit_0_to_9 c0 = true
    · have hpq := h (is_digit_0_to_9_ne hdg)
      simp only [hdg, if_true]
      rw [hd_eq_of_cstr_eq hpq]
      exact ih _ _ _ _ (fun h0 => cstr_tail_eq_of_cstr_eq hpq h0)
    · simp only [hdg, Bool.false_eq_true, if_false]

theorem parse_angular_distance_eq (nmea : List Nat) (direction : Nat) :
    parse_angular_distance nmea direction =
      if hd nmea = 0 then GPS_INVALID_VALUE
      else
        match (if direction = 78 then some ((1 : Int), 2)
            else if direction = 83 then some (-1, 2)
            else if direction = 69 then some (1, 3)
            else if direction = 87 then some (-1, 3)
            else none : Option (Int × Nat)) with
        | none => GPS_INVALID_VALUE
        | some (sign, i) =>
          match angular_digits i 0 (hd nmea) nmea.tail with
          | none => GPS_INVALID_VALUE
          | some st => angular_minutes sign st := by
  unfold parse_angular_distance
  by_cases h0 : hd nmea = 0
  · simp only [h0, if_true]
  simp only [h0, if_false]
  split
  · rfl
  · rename_i sign i _
    cases h1 : angular_digits i 0 (hd nmea) nmea.tail with
    | none => rfl
    | some st =>
      obtain ⟨ad, c0, rest⟩ := st
      simp only [angular_minutes]
      cases h2 : angular_digits 2 0 c0 rest with
      | none => rfl
      | some st2 =>
        obtain ⟨m, c1, rest2⟩ := st2
        simp only [angular_finish]

theorem angular_finish_visible (sign angular_distance : Int) (st : Int × Nat × List Nat) :
    angular_finish sign angular_distance (visible st) = angular_finish sign angular_distance st := by
  obtain ⟨m, c, l⟩ := st
  simp only [angular_finish, visible]
  by_cases h46 : c = 46
  · have h0 : c ≠ 0 := by rw [h46]; decide
    simp only [h0, if_false, hd_cstr]
    by_cases hdg : is_digit_0_to_9 (hd l) = true
    · simp only [hdg, if_true, fraction_loop_cstr_tail l _ _ _ (is_digit_0_to_9_ne hdg)]
    · simp only [hdg, Bool.false_eq_true, if_false]
  · simp [h46]

theorem angular_finish_view (sign angular_distance : Int) (a b : Int × Nat × List Nat)
    (h : visible a = visible b) :
    angular_finish sign angular_distance a = angular_finish sign angular_distance b := by
  rw [← angular_finish_visible sign angular_distance a, h, angular_finish_visible]

theorem angular_minutes_view (sign : Int) (a b : Int × Nat × List Nat)
    (h : visible a = visible b) : angular_minutes sign a = angular_minutes sign b := by
  obtain ⟨ad, c, l⟩ := a
  obtain ⟨ad2, c2, l2⟩ := b
  simp only [visible, Prod.mk.injEq] at h
  obtain ⟨rfl, rfl, hl⟩ := h
  have hv := angular_digits_view 2 0 c l l2 (fun h0 => by simpa [h0] using hl)
  simp only [angular_minutes]
  cases h1 : angular_digits 2 0 c l with
  | none =>
    rw [h1] at hv
    cases h2 : angular_digits 2 0 c l2 with
    | none => rfl
    | some y => rw [h2] at hv; simp at hv
  | some x =>
    rw [h1] at hv
    cases h2 : angular_digits 2 0 c l2 with
    | none => rw [h2] at hv; simp at hv
    | some y =>
      rw [h2] at hv
      simp only [Option.map_some', Option.some.injEq] at hv
      exact angular_finish_view _ _ x y hv

theorem parse_angular_distance_cstr (nmea : List Nat) (direction : Nat) :
    parse_angular_distance (cstr nmea) direction = parse_angular_distance nmea direction := by
  rw [parse_angular_distance_eq, parse_angular_distance_eq]
  simp only [hd_cstr]
  by_cases h0 : hd nmea = 0
  · simp only [h0, if_true]
  simp only [h0, if_false]
  rw [cstr_tail nmea h0]
  split
  · rfl
  · rename_i sign i _
    have hv := angular_digits_view i 0 (hd nmea) (cstr nmea.tail) nmea.tail
      (fun _ => cstr_idem _)
    cases h1 : angular_digits i 0 (hd nmea) (cstr nmea.tail) with
    | none =>
      rw [h1] at hv
      cases h2 : angular_digits i 0 (hd nmea) nmea.tail with
      | none => rfl
      | some y => rw [h2] at hv; simp at hv
    | some x =>
      rw [h1] at hv
      cases h2 : angular_digits i 0 (hd nmea) nmea.tail with
      | none => rw [h2] at hv; simp at hv
      | some y =>
        rw [h2] at hv
        simp only [Option.map_some', Option.some.injEq] at hv
        exact angular_minutes_view _ x y hv

/-! ## Tokens are the fields of the sentence -/

theorem split_commas_ne_nil (b : List Nat) : split_commas b ≠ [] := by
  cases b with
  | nil => simp [split_commas]
  | cons c rest =>
    by_cases hc : c = 44 <;> simp [split_commas, hc]

theorem cstr_mutate_head (b : List Nat) (hb : ∀ x ∈ b, x ≠ 0) (tail : List Nat) :
    cstr (mutate b ++ 0 :: tail) = (split_commas b).headD [] := by
  induction b with
  | nil => simp [mutate, cstr, split_commas]
  | cons c rest ih =>
    have hrest : ∀ x ∈ rest, x ≠ 0 := fun x hx => hb x (List.mem_cons_of_mem _ hx)
    have hc0 : c ≠ 0 := hb c (List.mem_cons_self _ _)
    by_cases hc : c = 44
    · subst hc
      simp [mutate, split_commas, cstr]
    · have ih2 := ih hrest
      simp only [mutate] at ih2
      simp only [mutate, List.map_cons, hc, if_false, List.cons_append, split_commas,
        List.headD_cons]
      rw [cstr_cons _ hc0, ih2]

theorem getD_tail_of_ne_nil {α : Type} (l : List α) (k : Nat) (d : α) (h : l ≠ []) :
    l.tail.getD k d = l.getD (k + 1) d := by
  cases l with
  | nil => exact absurd rfl h
  | cons a l => simp

theorem token_string (body : List Nat) (hb : ∀ x ∈ body, x ≠ 0) (tail : List Nat) :
    ∀ (pre : List Nat) (k : Nat), k < body.count 44 →
      cstr ((pre ++ mutate body ++ 0 :: tail).drop ((comma_offsets pre.length body).getD k 0))
        = (split_commas body).tail.getD k [] := by
  induction body with
  | nil => intro pre k hk; simp at hk
  | cons c rest ih =>
    intro pre k hk
    have hrest : ∀ x ∈ rest, x ≠ 0 := fun x hx => hb x (List.mem_cons_of_mem _ hx)
    have hc0 : c ≠ 0 := hb c (List.mem_cons_self _ _)
    by_cases hc : c = 44
    · subst hc
      have e : pre ++ mutate (44 :: rest) ++ 0 :: tail
          = (pre ++ [0]) ++ mutate rest ++ 0 :: tail := by
        simp [mutate]
      cases k with
      | zero =>
        simp only [comma_offsets, if_true, List.getD_cons_zero, split_commas, List.tail_cons]
        rw [e]
        have e2 : ((pre ++ [0]) ++ mutate rest ++ 0 :: tail).drop (pre.length + 1)
            = mutate rest ++ 0 :: tail := by
          rw [List.append_assoc, List.drop_append_of_le_length (by simp)]
          simp
        rw [e2, cstr_mutate_head rest hrest]
        cases split_commas rest <;> rfl
      | succ k =>
        have hk2 : k < rest.count 44 := by
          simp only [List.count_cons_self] at hk
          omega
        have ih2 := ih hrest (pre ++ [0]) k hk2
        simp only [List.length_append, List.length_singleton] at ih2
        simp only [comma_offsets, if_true, List.getD_cons_succ, split_commas, List.tail_cons]
        rw [e, ih2, getD_tail_of_ne_nil _ _ _ (split_commas_ne_nil rest)]
    · have hc2 : ¬ (44 = c) := fun h => hc h.symm
      have hk2 : k < rest.count 44 := by
        simpa [List.count_cons, hc2] using hk
      have e : pre ++ mutate (c :: rest) ++ 0 :: tail
          = (pre ++ [c]) ++ mutate rest ++ 0 :: tail := by
        simp [mutate, hc]
      have ih2 := ih hrest (pre ++ [c]) k hk2
      simp only [List.length_append, List.length_singleton] at ih2
      simp only [comma_offsets, hc, if_false, split_commas, List.tail_cons]
      rw [e, ih2]

theorem token_array_field (t0 t1 : Nat) (cur tail : List Nat) (k : Nat) (t : List Nat)
    (h : token_array ([36, t0, t1] ++ mutate (scan_body cur) ++ [0] ++ tail)
      (comma_offsets 3 (scan_body cur)) k = some t) :
    cstr t = field (36 :: t0 :: t1 :: cur) k := by
  unfold token_array at h
  cases hg : (comma_offsets 3 (scan_body cur)).get? k with
  | none => rw [hg] at h; simp at h
  | some p =>
    rw [hg] at h
    simp only [Option.map_some', Option.some.injEq] at h
    have hk : k < (comma_offsets 3 (scan_body cur)).length := by
      rw [List.get?_eq_some] at hg
      exact hg.1
    have hp : p = (comma_offsets 3 (scan_body cur)).getD k 0 := by
      rw [List.getD_eq_getElem?_getD, ← List.get?_eq_getElem?, hg]
      rfl
    have hk2 : k < (scan_body cur).count 44 := by
      rw [comma_offsets_length] at hk; exact hk
    have := token_string (scan_body cur) (fun x hx => (scan_body_mem cur x hx).2) tail
      [36, t0, t1] k hk2
    rw [← h, hp]
    simp only [List.append_assoc, List.singleton_append, List.cons_append, List.nil_append,
      List.length_cons, List.length_nil, Nat.zero_add, Nat.reduceAdd] at this ⊢
    rw [this]
    rfl

/-! ## Extractors in terms of the fields -/

theorem hd_of_cstr {t g : List Nat} (h : cstr t = g) : hd t = hd g := by
  rw [← h, hd_cstr]

theorem parse_time_of_cstr {t g : List Nat} (h : cstr t = g) (d : List Nat) :
    parse_time d t = parse_time d g := by
  rw [← h, parse_time_cstr]

theorem parse_date_of_cstr {t g : List Nat} (h : cstr t = g) (d : List Nat) :
    parse_date d t = parse_date d g := by
  rw [← h, parse_date_cstr]

theorem parse_number_of_cstr {t g : List Nat} (h : cstr t = g) :
    parse_number t = parse_number g := by
  rw [← h, parse_number_cstr]

theorem parse_angular_distance_of_cstr {t g : List Nat} (h : cstr t = g) (direction : Nat) :
    parse_angular_distance t direction = parse_angular_distance g direction := by
  rw [← h, parse_angular_distance_cstr]

theorem parse_speed_of_cstr {t g : List Nat} (h : cstr t = g) (unit : Nat) :
    parse_speed t unit = parse_speed g unit := by
  unfold parse_speed
  rw [parse_number_of_cstr h]

theorem parse_extended_date_of_cstr {t1 t2 t3 g1 g2 g3 : List Nat} (h1 : cstr t1 = g1)
    (h2 : cstr t2 = g2) (h3 : cstr t3 = g3) (d : List Nat) :
    parse_extended_date d t1 t2 t3 = parse_extended_date d g1 g2 g3 := by
  rw [← h1, ← h2, ← h3, parse_extended_date_cstr]

theorem parse_gga_fields (r r1 : gps_tpv) (token : Nat → Option (List Nat))
    (f : Nat → List Nat) (h : parse_gga r token = some r1)
    (hf : ∀ k t, token k = some t → cstr t = f k) :
    r1 = extract_fields (bytes "GGA") r f := by
  simp only [parse_gga, Option.bind_eq_bind, Option.bind_eq_some, Option.pure_def,
    Option.some.injEq] at h
  obtain ⟨t0, h0, t1, h1, t2, h2, t3, h3, t4, h4, t8, h8, t9, h9, rfl⟩ := h
  simp only [extract_fields, if_true, parse_altitude, parse_time_of_cstr (hf 0 t0 h0),
    parse_angular_distance_of_cstr (hf 1 t1 h1), parse_angular_distance_of_cstr (hf 3 t3 h3),
    hd_of_cstr (hf 2 t2 h2), hd_of_cstr (hf 4 t4 h4), hd_of_cstr (hf 9 t9 h9),
    parse_number_of_cstr (hf 8 t8 h8), ne_eq, ite_not]

theorem is_status_valid_iff (c : Nat) : is_status_valid c = true ↔ c = 65 := by
  unfold is_status_valid
  constructor
  · intro h
    by_cases hc : 65 = c
    · exact hc.symm
    · simp [hc] at h
  · intro h; simp [h]

theorem id_ne_GGA_GLL : ¬ (bytes "GLL" = bytes "GGA") := by decide
theorem id_ne_GGA_GSA : ¬ (bytes "GSA" = bytes "GGA") := by decide
theorem id_ne_GLL_GSA : ¬ (bytes "GSA" = bytes "GLL") := by decide
theorem id_ne_GGA_RMC : ¬ (bytes "RMC" = bytes "GGA") := by decide
theorem id_ne_GLL_RMC : ¬ (bytes "RMC" = bytes "GLL") := by decide
theorem id_ne_GSA_RMC : ¬ (bytes "RMC" = bytes "GSA") := by decide
theorem id_ne_GGA_VTG : ¬ (bytes "VTG" = bytes "GGA") := by decide
theorem id_ne_GLL_VTG : ¬ (bytes "VTG" = bytes "GLL") := by decide
theorem id_ne_GSA_VTG : ¬ (bytes "VTG" = bytes "GSA") := by decide
theorem id_ne_RMC_VTG : ¬ (bytes "VTG" = bytes "RMC") := by decide
theorem id_ne_GGA_ZDA : ¬ (bytes "ZDA" = bytes "GGA") := by decide
theorem id_ne_GLL_ZDA : ¬ (bytes "ZDA" = bytes "GLL") := by decide
theorem id_ne_GSA_ZDA : ¬ (bytes "ZDA" = bytes "GSA") := by decide
theorem id_ne_RMC_ZDA : ¬ (bytes "ZDA" = bytes "RMC") := by decide
theorem id_ne_VTG_ZDA : ¬ (bytes "ZDA" = bytes "VTG") := by decide

theorem parse_gll_fields (r r1 : gps_tpv) (token : Nat → Option (List Nat))
    (f : Nat → List Nat) (h : parse_gll r token = some r1)
    (hf : ∀ k t, token k = some t → cstr t = f k) :
    r1 = extract_fields (bytes "GLL") r f := by
  simp only [parse_gll, Option.bind_eq_bind, Option.bind_eq_some] at h
  obtain ⟨t5, h5, h⟩ := h
  have e5 := hd_of_cstr (hf 5 t5 h5)
  by_cases hv : is_status_valid (hd t5) = true
  · have hA : hd (f 5) = 65 := by rw [← e5]; exact (is_status_valid_iff _).1 hv
    simp only [hv, if_true, Option.bind_eq_bind, Option.bind_eq_some, Option.pure_def,
      Option.some.injEq] at h
    obtain ⟨t0, h0, t1, h1, t2, h2, t3, h3, t4, h4, rfl⟩ := h
    simp only [extract_fields, id_ne_GGA_GLL, if_false, if_true, hA,
      parse_time_of_cstr (hf 4 t4 h4),
      parse_angular_distance_of_cstr (hf 0 t0 h0), parse_angular_distance_of_cstr (hf 2 t2 h2),
      hd_of_cstr (hf 1 t1 h1), hd_of_cstr (hf 3 t3 h3)]
  · have hA : ¬ (hd (f 5) = 65) := by
      rw [← e5]; exact fun h2 => hv ((is_status_valid_iff _).2 h2)
    simp only [hv, Bool.false_eq_true, if_false, Option.pure_def, Option.some.injEq] at h
    subst h
    simp only [extract_fields, id_ne_GGA_GLL, if_false, if_true, hA]

theorem parse_gsa_fields (r r1 : gps_tpv) (token : Nat → Option (List Nat))
    (f : Nat → List Nat) (h : parse_gsa r token = some r1)
    (hf : ∀ k t, token k = some t → cstr t = f k) :
    r1 = extract_fields (bytes "GSA") r f := by
  simp only [parse_gsa, Option.bind_eq_bind, Option.bind_eq_some, Option.pure_def,
    Option.some.injEq] at h
  obtain ⟨t1, h1, rfl⟩ := h
  simp only [extract_fields, id_ne_GGA_GSA, id_ne_GLL_GSA, if_false, if_true,
    hd_of_cstr (hf 1 t1 h1)]

theorem parse_rmc_fields (r r1 : gps_tpv) (token : Nat → Option (List Nat))
    (f : Nat → List Nat) (h : parse_rmc r token = some r1)
    (hf : ∀ k t, token k = some t → cstr t = f k) :
    r1 = extract_fields (bytes "RMC") r f := by
  simp only [parse_rmc, Option.bind_eq_bind, Option.bind_eq_some] at h
  obtain ⟨t1, h1, h⟩ := h
  have e1 := hd_of_cstr (hf 1 t1 h1)
  by_cases hv : is_status_valid (hd t1) = true
  · have hA : hd (f 1) = 65 := by rw [← e1]; exact (is_status_valid_iff _).1 hv
    simp only [hv, if_true, Option.bind_eq_bind, Option.bind_eq_some, Option.pure_def,
      Option.some.injEq] at h
    obtain ⟨t0, h0, t2, h2, t3, h3, t4, h4, t5, h5, t7, h7, t6, h6, t8, h8, rfl⟩ := h
    simp only [extract_fields, id_ne_GGA_RMC, id_ne_GLL_RMC, id_ne_GSA_RMC, if_false, if_true,
      hA, parse_track, ne_eq, not_true_eq_false,
      parse_time_of_cstr (hf 0 t0 h0), parse_date_of_cstr (hf 8 t8 h8),
      parse_angular_distance_of_cstr (hf 2 t2 h2), parse_angular_distance_of_cstr (hf 4 t4 h4),
      hd_of_cstr (hf 3 t3 h3), hd_of_cstr (hf 5 t5 h5), parse_number_of_cstr (hf 7 t7 h7),
      parse_speed_of_cstr (hf 6 t6 h6)]
  · have hA : ¬ (hd (f 1) = 65) := by
      rw [← e1]; exact fun h2 => hv ((is_status_valid_iff _).2 h2)
    simp only [hv, Bool.false_eq_true, if_false, Option.pure_def, Option.some.injEq] at h
    subst h
    simp only [extract_fields, id_ne_GGA_RMC, id_ne_GLL_RMC, id_ne_GSA_RMC, if_false, if_true,
      hA]

theorem parse_vtg_fields (r r1 : gps_tpv) (token : Nat → Option (List Nat))
    (f : Nat → List Nat) (h : parse_vtg r token = some r1)
    (hf : ∀ k t, token k = some t → cstr t = f k) :
    r1 = extract_fields (bytes "VTG") r f := by
  simp only [parse_vtg, Option.bind_eq_bind, Option.bind_eq_some, Option.pure_def,
    Option.some.injEq] at h
  obtain ⟨t0, h0, t1, h1, t6, h6, t7, h7, rfl⟩ := h
  simp only [extract_fields, id_ne_GGA_VTG, id_ne_GLL_VTG, id_ne_GSA_VTG, id_ne_RMC_VTG,
    if_false, if_true, parse_track, ne_eq, ite_not,
    hd_of_cstr (hf 1 t1 h1), hd_of_cstr (hf 7 t7 h7), parse_number_of_cstr (hf 0 t0 h0),
    parse_speed_of_cstr (hf 6 t6 h6)]

theorem parse_zda_fields (r r1 : gps_tpv) (token : Nat → Option (List Nat))
    (f : Nat → List Nat) (h : parse_zda r token = some r1)
    (hf : ∀ k t, token k = some t → cstr t = f k) :
    r1 = extract_fields (bytes "ZDA") r f := by
  simp only [parse_zda, Option.bind_eq_bind, Option.bind_eq_some, Option.pure_def,
    Option.some.injEq] at h
  obtain ⟨t0, h0, t1, h1, t2, h2, t3, h3, rfl⟩ := h
  simp only [extract_fields, id_ne_GGA_ZDA, id_ne_GLL_ZDA, id_ne_GSA_ZDA, id_ne_RMC_ZDA,
    id_ne_VTG_ZDA, if_false, if_true,
    parse_time_of_cstr (hf 0 t0 h0),
    parse_extended_date_of_cstr (hf 1 t1 h1) (hf 2 t2 h2) (hf 3 t3 h3)]

theorem select_parse_fields (x y z : Nat) (rest : List Nat) (hx : x ≠ 0) (hy : y ≠ 0)
    (parse : parse_function) (hp : select_parse (x :: y :: z :: rest) = some parse) :
    [x, y, z] ∈ supported_ids
      ∧ ∀ (r r1 : gps_tpv) (token : Nat → Option (List Nat)) (f : Nat → List Nat),
          parse r token = some r1 → (∀ k t, token k = some t → cstr t = f k) →
          r1 = extract_fields [x, y, z] r f := by
  rw [select_parse_cons3 x y z rest hx hy] at hp
  split_ifs at hp with h1 h2 h3 h4 h5 h6
  · simp only [Option.some.injEq] at hp
    subst hp
    rw [h1]
    exact ⟨by simp [supported_ids], fun r r1 token f h hf => parse_gga_fields r r1 token f h hf⟩
  · simp only [Option.some.injEq] at hp
    subst hp
    rw [h2]
    exact ⟨by simp [supported_ids], fun r r1 token f h hf => parse_gll_fields r r1 token f h hf⟩
  · simp only [Option.some.injEq] at hp
    subst hp
    rw [h3]
    exact ⟨by simp [supported_ids], fun r r1 token f h hf => parse_gsa_fields r r1 token f h hf⟩
  · simp only [Option.some.injEq] at hp
    subst hp
    rw [h4]
    exact ⟨by simp [supported_ids], fun r r1 token f h hf => parse_rmc_fields r r1 token f h hf⟩
  · simp only [Option.some.injEq] at hp
    subst hp
    rw [h5]
    exact ⟨by simp [supported_ids], fun r r1 token f h hf => parse_vtg_fields r r1 token f h hf⟩
  · simp only [Option.some.injEq] at hp
    subst hp
    rw [h6]
    exact ⟨by simp [supported_ids], fun r r1 token f h hf => parse_zda_fields r r1 token f h hf⟩

/-- A successful decode: the gates the sentence passed and the record it
leaves, in terms of the fields of the sentence. -/
theorem gps_decode_ok (r : gps_tpv) (s : List Nat) (d : decoded)
    (h : gps_decode r s = some d) (hc : d.code = GPS_OK) :
    reaches_tokenizer s ∧ field_commas s ≤ NMEA_MAX_FIELDS
      ∧ hd ((s.drop 3).drop (scan_body (s.drop 3)).length) = 42
      ∧ xor_fold ((rd s 1 ^^^ rd s 2) % 256) (scan_body (s.drop 3))
          = build_hex_byte (rd ((s.drop 3).drop (scan_body (s.drop 3)).length) 1)
              (rd ((s.drop 3).drop (scan_body (s.drop 3)).length) 2)
      ∧ rd ((s.drop 3).drop (scan_body (s.drop 3)).length) 3 = 13
      ∧ rd ((s.drop 3).drop (scan_body (s.drop 3)).length) 4 = 10
      ∧ d.tpv = extract_fields (sentence_id s) (store_talker r (rd s 1) (rd s 2)) (field s) := by
  by_cases hh : rd s 0 = 36
  swap
  · simp [gps_decode, hh] at h
    subst h
    simp [GPS_ERROR_HEAD, GPS_OK] at hc
  by_cases ht : rd s 1 = 0 ∨ rd s 2 = 0
  · simp [gps_decode, hh, ht] at h
    subst h
    simp [GPS_ERROR_TRUNCATED, GPS_OK] at hc
  have ht1 : rd s 1 ≠ 0 := fun h => ht (Or.inl h)
  have ht2 : rd s 2 ≠ 0 := fun h => ht (Or.inr h)
  have hshape := shape_of_header s hh ht1 ht2
  have e1 : rd (36 :: rd s 1 :: rd s 2 :: s.drop 3) 1 = rd s 1 := rfl
  have e2 : rd (36 :: rd s 1 :: rd s 2 :: s.drop 3) 2 = rd s 2 := rfl
  have e3 : (36 :: rd s 1 :: rd s 2 :: s.drop 3).drop 3 = s.drop 3 := rfl
  rw [hshape] at h ⊢
  simp only [e1, e2, e3]
  generalize rd s 1 = t0 at h ht1 ⊢
  generalize rd s 2 = t1 at h ht2 ⊢
  generalize s.drop 3 = cur at h ⊢
  clear hshape hh ht e1 e2 e3
  by_cases hm : memchr_nul SENTENCE_ID_SIZE cur = true
  · simp [gps_decode, rd, ht1, ht2, hm] at h
    subst h
    simp [GPS_ERROR_TRUNCATED, GPS_OK] at hc
  have hm2 : memchr_nul SENTENCE_ID_SIZE cur = false := by simpa using hm
  obtain ⟨x, y, z, rest, rfl, hx, hy, hz⟩ := memchr_nul_false cur hm2
  cases hp : select_parse (x :: y :: z :: rest) with
  | none =>
    simp [gps_decode, rd, ht1, ht2, hm2, hp] at h
    subst h
    simp [GPS_ERROR_UNSUPPORTED, GPS_OK] at hc
  | some parse =>
    obtain ⟨hid, hfields⟩ := select_parse_fields x y z rest hx hy parse hp
    rw [gps_decode_body r t0 t1 _ parse ht1 ht2 hm2 hp] at h
    split_ifs at h with c0 c1 c2 c3
    · simp only [Option.some.injEq] at h
      subst h
      simp [GPS_ERROR_TRUNCATED, GPS_OK] at hc
    · simp only [Option.some.injEq] at h
      subst h
      simp [GPS_ERROR_CHECKSUM, GPS_OK] at hc
    · simp only [Option.some.injEq] at h
      subst h
      simp [GPS_ERROR_FOOT, GPS_OK] at hc
    · cases hparse : parse (store_talker r t0 t1)
          (token_array ([36, t0, t1] ++ mutate (scan_body (x :: y :: z :: rest)) ++ [0]
              ++ ((x :: y :: z :: rest).drop (scan_body (x :: y :: z :: rest)).length).tail)
            (comma_offsets 3 (scan_body (x :: y :: z :: rest)))) with
      | none => rw [hparse] at h; simp at h
      | some r1 =>
        rw [hparse] at h
        simp only [Option.some.injEq] at h
        subst h
        have hf := hfields _ r1 _ (field (36 :: t0 :: t1 :: x :: y :: z :: rest)) hparse
          (fun k t hk => token_array_field t0 t1 _ _ k t hk)
        refine ⟨⟨rfl, ht1, ht2, hx, hy, hz, hid⟩, ?_, ?_, ?_, ?_, ?_, hf⟩
        · simp only [field_commas, List.drop_succ_cons, List.drop_zero]
          omega
        · simpa using c1
        · simpa using c2
        · simp only [not_or, not_not] at c3; exact c3.1
        · simp only [not_or, not_not] at c3; exact c3.2

/-! ## Framed sentences -/

theorem scan_body_append_star (body tail : List Nat) (hb : ∀ b ∈ body, b ≠ 0 ∧ b ≠ 42) :
    scan_body (body ++ 42 :: tail) = body := by
  induction body with
  | nil => simp [scan_body]
  | cons c rest ih =>
    have hc := hb c (List.mem_cons_self _ _)
    rw [List.cons_append, scan_body_cons _ hc.2 hc.1,
      ih (fun b hb2 => hb b (List.mem_cons_of_mem _ hb2))]

theorem memchr_nul_framed (body tail : List Nat) (hb : ∀ b ∈ body, b ≠ 0 ∧ b ≠ 42)
    (hlen : 3 ≤ body.length) :
    memchr_nul SENTENCE_ID_SIZE (body ++ 42 :: tail) = false := by
  rcases body with _ | ⟨x, _ | ⟨y, _ | ⟨z, rest⟩⟩⟩
  · simp at hlen
  · simp at hlen
  · simp at hlen
  · have hx := (hb x (by simp)).1
    have hy := (hb y (by simp)).1
    have hz := (hb z (by simp)).1
    simp [memchr_nul, SENTENCE_ID_SIZE, hd, hx, hy, hz]

theorem gate_code_framed (t0 t1 : Nat) (body tail : List Nat) (h0 : t0 ≠ 0) (h1 : t1 ≠ 0)
    (hb0 : t0 < 256) (hb1 : t1 < 256) (hb : ∀ b ∈ body, b ≠ 0 ∧ b ≠ 42)
    (hb256 : ∀ b ∈ body, b < 256) (htail : ∀ b ∈ tail, b < 256) (hlen : 3 ≤ body.length) :
    gate_code (36 :: t0 :: t1 :: (body ++ 42 :: tail)) =
      if sentence_id (36 :: t0 :: t1 :: (body ++ 42 :: tail)) ∉ supported_ids then
        GPS_ERROR_UNSUPPORTED
      else if xor_bytes (t0 :: t1 :: body) ≠ build_hex_byte (rd tail 0) (rd tail 1) then
        GPS_ERROR_CHECKSUM
      else if rd tail 2 ≠ 13 ∨ rd tail 3 ≠ 10 then GPS_ERROR_FOOT
      else GPS_OK := by
  have hcur : ∀ b ∈ body ++ 42 :: tail, b < 256 := by
    intro b hb2
    rcases List.mem_append.1 hb2 with h | h
    · exact hb256 b h
    · rcases List.mem_cons.1 h with h | h
      · rw [h]; decide
      · exact htail b h
  rw [gate_code_cons t0 t1 _ h0 h1 (memchr_nul_framed body tail hb hlen) hb0 hb1 hcur]
  rw [scan_body_append_star body tail hb, xor_fold_talker t0 t1 body hb0 hb1 hb256]
  have e : (body ++ 42 :: tail).drop body.length = 42 :: tail := by simp
  rw [e]
  have r1 : rd (42 :: tail) 1 = rd tail 0 := rfl
  have r2 : rd (42 :: tail) 2 = rd tail 1 := rfl
  have r3 : rd (42 :: tail) 3 = rd tail 2 := rfl
  have r4 : rd (42 :: tail) 4 = rd tail 3 := rfl
  have r0 : hd (42 :: tail) = 42 := rfl
  simp only [r0, r1, r2, r3, r4, ne_eq, not_true_eq_false, if_false]

theorem field_commas_framed (t0 t1 : Nat) (body tail : List Nat)
    (hb : ∀ b ∈ body, b ≠ 0 ∧ b ≠ 42) :
    field_commas (36 :: t0 :: t1 :: (body ++ 42 :: tail)) = body.count 44 := by
  simp only [field_commas, List.drop_succ_cons, List.drop_zero]
  rw [scan_body_append_star body tail hb]

theorem supported_ids_length (id : List Nat) (h : id ∈ supported_ids) : id.length = 3 := by
  simp only [supported_ids, List.mem_cons, List.mem_singleton, List.not_mem_nil, or_false,
    bytes_GGA, bytes_GLL, bytes_GSA, bytes_RMC, bytes_VTG, bytes_ZDA] at h
  rcases h with h | h | h | h | h | h <;> rw [h] <;> rfl

/-! ## C3: encode, then decode -/

/-- C3: for every message `m` without `'*'` and NUL that begins with two
talker bytes followed by one of the six sentence IDs and whose number of
`','` (counted after the talker bytes) is at least the number its sentence
type reads and at most 32, `gps_decode` of the output of `gps_encode m`
returns `GPS_OK`; the byte `build_hex_byte` rebuilds from the two digits
written by `gps_encode` is the XOR of the bytes of `m`. -/
theorem encode_decode_round_trip (r : gps_tpv) (m : List Nat)
    (hm : ∀ b ∈ m, b ≠ 0 ∧ b ≠ 42 ∧ b < 256)
    (hid : (m.drop 2).take 3 ∈ supported_ids)
    (hmin : min_tokens ((m.drop 2).take 3) ≤ (m.drop 2).count 44)
    (hmax : (m.drop 2).count 44 ≤ NMEA_MAX_FIELDS) :
    (∃ d, gps_decode r (gps_encode m).1 = some d ∧ d.code = GPS_OK)
      ∧ build_hex_byte (rd (gps_encode m).1 (m.length + 2)) (rd (gps_encode m).1 (m.length + 3))
          = xor_bytes m := by
  have hlen := supported_ids_length _ hid
  have hm0 : ∀ b ∈ m, 0 < b ∧ b < 256 :=
    fun b hb => ⟨Nat.pos_of_ne_zero (hm b hb).1, (hm b hb).2.2⟩
  have hx : xor_bytes m < 256 := xor_bytes_lt m (fun b hb => (hm b hb).2.2)
  rw [gps_encode_eq m hm0]
  rcases m with _ | ⟨t0, _ | ⟨t1, body⟩⟩
  · simp at hlen
  · simp at hlen
  simp only [List.drop_succ_cons, List.drop_zero] at hid hmin hmax hlen
  have h3 : 3 ≤ body.length := by
    rw [List.length_take] at hlen; omega
  have ht0 := hm t0 (by simp)
  have ht1 := hm t1 (by simp)
  have hb : ∀ b ∈ body, b ≠ 0 ∧ b ≠ 42 := fun b hb => ⟨(hm b (by simp [hb])).1, (hm b (by simp [hb])).2.1⟩
  have hb256 : ∀ b ∈ body, b < 256 := fun b hb => (hm b (by simp [hb])).2.2
  have hd1 : upper_hex_digit (xor_bytes (t0 :: t1 :: body) / 16) < 256 := by
    unfold upper_hex_digit; split_ifs <;> omega
  have hd2 : upper_hex_digit (xor_bytes (t0 :: t1 :: body) % 16) < 256 := by
    unfold upper_hex_digit; split_ifs <;> omega
  have es : [36] ++ (t0 :: t1 :: body) ++ [42, upper_hex_digit (xor_bytes (t0 :: t1 :: body) / 16),
        upper_hex_digit (xor_bytes (t0 :: t1 :: body) % 16), 13, 10, 0]
      = 36 :: t0 :: t1 :: (body ++ 42 :: [upper_hex_digit (xor_bytes (t0 :: t1 :: body) / 16),
        upper_hex_digit (xor_bytes (t0 :: t1 :: body) % 16), 13, 10, 0]) := by simp
  simp only [es]
  have hsid : sentence_id (36 :: t0 :: t1 :: (body ++ 42 ::
      [upper_hex_digit (xor_bytes (t0 :: t1 :: body) / 16),
        upper_hex_digit (xor_bytes (t0 :: t1 :: body) % 16), 13, 10, 0])) = body.take 3 := by
    rcases body with _ | ⟨x, _ | ⟨y, _ | ⟨z, rest⟩⟩⟩
    · simp at h3
    · simp at h3
    · simp at h3
    · rfl
  have htail : ∀ b ∈ [upper_hex_digit (xor_bytes (t0 :: t1 :: body) / 16),
      upper_hex_digit (xor_bytes (t0 :: t1 :: body) % 16), 13, 10, 0], b < 256 := by
    intro b hb2
    simp only [List.mem_cons, List.mem_singleton, List.not_mem_nil, or_false] at hb2
    rcases hb2 with h | h | h | h | h <;> rw [h] <;> first | exact hd1 | exact hd2 | decide
  have hgate := gate_code_framed t0 t1 body _ ht0.1 ht1.1 ht0.2.2 ht1.2.2 hb hb256 htail h3
  have hdig := build_hex_byte_digits _ hx
  have r0 : ∀ a b : Nat, ∀ l : List Nat, rd (a :: b :: l) 0 = a := fun _ _ _ => rfl
  have r1 : ∀ a b : Nat, ∀ l : List Nat, rd (a :: b :: l) 1 = b := fun _ _ _ => rfl
  have r2 : ∀ a b c : Nat, ∀ l : List Nat, rd (a :: b :: c :: l) 2 = c := fun _ _ _ _ => rfl
  have r3 : ∀ a b c e : Nat, ∀ l : List Nat, rd (a :: b :: c :: e :: l) 3 = e :=
    fun _ _ _ _ _ => rfl
  simp only [hsid, hid, not_true_eq_false, if_false, r0, r1, r2, r3, hdig, ne_eq, or_self]
    at hgate
  constructor
  · have hs : ∀ b ∈ 36 :: t0 :: t1 :: (body ++ 42 ::
        [upper_hex_digit (xor_bytes (t0 :: t1 :: body) / 16),
          upper_hex_digit (xor_bytes (t0 :: t1 :: body) % 16), 13, 10, 0]), b < 256 := by
      intro b hb2
      rcases List.mem_cons.1 hb2 with h | h
      · omega
      rcases List.mem_cons.1 h with h | h
      · rw [h]; exact ht0.2.2
      rcases List.mem_cons.1 h with h | h
      · rw [h]; exact ht1.2.2
      rcases List.mem_append.1 h with h | h
      · exact hb256 b h
      rcases List.mem_cons.1 h with h | h
      · omega
      · exact htail b h
    obtain ⟨d, hd1, hd2⟩ := gps_decode_gate_code_aux r _ hs
      (fun _ => by rw [field_commas_framed t0 t1 body _ hb]; exact hmax)
      (fun _ => by rw [field_commas_framed t0 t1 body _ hb, hsid]; exact hmin)
    exact ⟨d, hd1, hd2.trans hgate⟩
  · have e : ∀ k, rd (36 :: t0 :: t1 :: (body ++ 42 ::
        [upper_hex_digit (xor_bytes (t0 :: t1 :: body) / 16),
          upper_hex_digit (xor_bytes (t0 :: t1 :: body) % 16), 13, 10, 0]))
        ((t0 :: t1 :: body).length + 2 + k)
        = rd [upper_hex_digit (xor_bytes (t0 :: t1 :: body) / 16),
          upper_hex_digit (xor_bytes (t0 :: t1 :: body) % 16), 13, 10, 0] k := by
      intro k
      have e3 : (t0 :: t1 :: body).length + 2 + k = 3 + (body.length + (1 + k)) := by
        simp only [List.length_cons]; omega
      rw [e3, ← rd_drop, List.drop_succ_cons, List.drop_succ_cons, List.drop_succ_cons,
        List.drop_zero, ← rd_drop, List.drop_append_of_le_length (Nat.le_refl _)]
      simp only [List.drop_length, List.nil_append, ← rd_drop, List.drop_succ_cons,
        List.drop_zero]
    have e0 := e 0
    have e1 := e 1
    simp only [Nat.add_zero] at e0
    rw [e0, e1]
    exact hdig

set_option maxRecDepth 100000 in
/-- The theorem `encode_decode_round_trip` at the body of the GGA sentence of the tests. -/
theorem encode_decode_round_trip_witness :
    (∃ d, gps_decode init_tpv (gps_encode (bytes "GPGGA,172814.0,3723.46587704,N,12202.26957864,W,2,6,1.2,18.893,M,-25.669,M,2.0,0031")).1 = some d
        ∧ d.code = GPS_OK)
      ∧ gps_encode (bytes "GPGGA,172814.0,3723.46587704,N,12202.26957864,W,2,6,1.2,18.893,M,-25.669,M,2.0,0031")
          = (bytes "$GPGGA,172814.0,3723.46587704,N,12202.26957864,W,2,6,1.2,18.893,M,-25.669,M,2.0,0031*4F\r\n" ++ [0], 89) :=
  ⟨(encode_decode_round_trip init_tpv
      (bytes "GPGGA,172814.0,3723.46587704,N,12202.26957864,W,2,6,1.2,18.893,M,-25.669,M,2.0,0031")
      (by decide) (by decide) (by decide) (by decide)).1, by decide⟩

/-! ## What the temporal reconstructors leave unchanged -/

theorem copy_digits_getElem (base n j : Nat) (hj : j < base ∨ base + n ≤ j) (nmea : List Nat) :
    ∀ (i c0 : Nat) (destination : List Nat),
      (copy_digits base n i c0 nmea destination)[j]? = destination[j]? := by
  induction nmea with
  | nil =>
    intro i c0 destination
    unfold copy_digits
    split_ifs with h
    · simp only [Bool.and_eq_true, decide_eq_true_eq] at h
      rw [List.getElem?_set_ne (by omega)]
    · rfl
  | cons c rest ih =>
    intro i c0 destination
    unfold copy_digits
    split_ifs with h
    · simp only [Bool.and_eq_true, decide_eq_true_eq] at h
      simp only [ih]
      rw [List.getElem?_set_ne (by omega)]
    · rfl

theorem copy_digits_length (base n : Nat) (nmea : List Nat) :
    ∀ (i c0 : Nat) (destination : List Nat),
      (copy_digits base n i c0 nmea destination).length = destination.length := by
  induction nmea with
  | nil =>
    intro i c0 destination
    unfold copy_digits
    split_ifs <;> simp
  | cons c rest ih =>
    intro i c0 destination
    unfold copy_digits
    split_ifs
    · simp only [ih, List.length_set]
    · rfl

theorem parse_time_getElem (destination nmea : List Nat) (j : Nat)
    (hj : j ≠ 11 ∧ j ≠ 12 ∧ j ≠ 14 ∧ j ≠ 15 ∧ j ≠ 17 ∧ j ≠ 18 ∧ j ≠ 20 ∧ j ≠ 21 ∧ j ≠ 22) :
    (parse_time destination nmea)[j]? = destination[j]? := by
  have hcd : j < 20 ∨ 20 + 3 ≤ j := by omega
  unfold parse_time
  simp only []
  split_ifs <;>
    simp only [copy_digits_getElem 20 3 j hcd, List.getElem?_set_ne (Ne.symm hj.1),
      List.getElem?_set_ne (Ne.symm hj.2.1), List.getElem?_set_ne (Ne.symm hj.2.2.1),
      List.getElem?_set_ne (Ne.symm hj.2.2.2.1), List.getElem?_set_ne (Ne.symm hj.2.2.2.2.1),
      List.getElem?_set_ne (Ne.symm hj.2.2.2.2.2.1),
      List.getElem?_set_ne (Ne.symm hj.2.2.2.2.2.2.1),
      List.getElem?_set_ne (Ne.symm hj.2.2.2.2.2.2.2.1),
      List.getElem?_set_ne (Ne.symm hj.2.2.2.2.2.2.2.2)]

theorem parse_time_length (destination nmea : List Nat) :
    (parse_time destination nmea).length = destination.length := by
  unfold parse_time
  simp only []
  split_ifs <;> simp only [copy_digits_length, List.length_set]

theorem parse_date_getElem (destination nmea : List Nat) (j : Nat) (hj : 10 ≤ j) :
    (parse_date destination nmea)[j]? = destination[j]? := by
  unfold parse_date
  simp only []
  split_ifs <;>
    simp only [List.getElem?_set_ne (show 0 ≠ j by omega),
      List.getElem?_set_ne (show 1 ≠ j by omega), List.getElem?_set_ne (show 2 ≠ j by omega),
      List.getElem?_set_ne (show 3 ≠ j by omega), List.getElem?_set_ne (show 5 ≠ j by omega),
      List.getElem?_set_ne (show 6 ≠ j by omega), List.getElem?_set_ne (show 8 ≠ j by omega),
      List.getElem?_set_ne (show 9 ≠ j by omega)]

theorem parse_date_length (destination nmea : List Nat) :
    (parse_date destination nmea).length = destination.length := by
  unfold parse_date
  simp only []
  split_ifs <;> simp only [List.length_set]

theorem parse_extended_date_getElem (destination day month year : List Nat) (j : Nat)
    (hj : 10 ≤ j) :
    (parse_extended_date destination day month year)[j]? = destination[j]? := by
  have hcd : j < 0 ∨ 0 + 4 ≤ j := by omega
  unfold parse_extended_date
  simp only []
  split_ifs <;>
    simp only [copy_digits_getElem 0 4 j hcd,
      List.getElem?_set_ne (show 5 ≠ j by omega),
      List.getElem?_set_ne (show 6 ≠ j by omega), List.getElem?_set_ne (show 8 ≠ j by omega),
      List.getElem?_set_ne (show 9 ≠ j by omega)]

theorem parse_extended_date_length (destination day month year : List Nat) :
    (parse_extended_date destination day month year).length = destination.length := by
  unfold parse_extended_date
  simp only []
  split_ifs <;> simp only [copy_digits_length, List.length_set]

/-! ## C4: the frame of a successful decode -/

theorem store_talker_talker_id (r : gps_tpv) (c0 c1 : Nat) (h : r.talker_id.length = 3) :
    (store_talker r c0 c1).talker_id = [c0, c1, rd r.talker_id 2] := by
  rcases hr : r.talker_id with _ | ⟨a, _ | ⟨b, _ | ⟨c, _ | ⟨e, l⟩⟩⟩⟩ <;> rw [hr] at h <;>
    simp at h
  simp [store_talker, hr, rd]

/-- C4: after a successful decode (`gps_decode` returns `GPS_OK`, which it
only does when the sentence carries the tokens its extractor reads),
`talker_id[0..1]` are the two bytes after `'$'` and `talker_id[2]` is
unchanged; GGA leaves mode, track, speed and the positions 0-9 of time
unchanged; GLL leaves mode, altitude, track, speed and the positions 0-9 of
time unchanged; GSA leaves all but mode unchanged; RMC leaves mode and
altitude unchanged; VTG leaves all but track and speed unchanged; ZDA leaves
all but time unchanged. -/
theorem gps_decode_frame (r : gps_tpv) (s : List Nat) (d : decoded)
    (h : gps_decode r s = some d) (hc : d.code = GPS_OK) (hlen : r.talker_id.length = 3) :
    d.tpv.talker_id = [rd s 1, rd s 2, rd r.talker_id 2]
      ∧ (sentence_id s = bytes "GGA" →
          d.tpv.mode = r.mode ∧ d.tpv.track = r.track ∧ d.tpv.speed = r.speed
            ∧ ∀ i, i < 10 → d.tpv.time[i]? = r.time[i]?)
      ∧ (sentence_id s = bytes "GLL" →
          d.tpv.mode = r.mode ∧ d.tpv.altitude = r.altitude ∧ d.tpv.track = r.track
            ∧ d.tpv.speed = r.speed ∧ ∀ i, i < 10 → d.tpv.time[i]? = r.time[i]?)
      ∧ (sentence_id s = bytes "GSA" →
          d.tpv.altitude = r.altitude ∧ d.tpv.latitude = r.latitude
            ∧ d.tpv.longitude = r.longitude ∧ d.tpv.track = r.track ∧ d.tpv.speed = r.speed
            ∧ d.tpv.time = r.time)
      ∧ (sentence_id s = bytes "RMC" → d.tpv.mode = r.mode ∧ d.tpv.altitude = r.altitude)
      ∧ (sentence_id s = bytes "VTG" →
          d.tpv.mode = r.mode ∧ d.tpv.altitude = r.altitude ∧ d.tpv.latitude = r.latitude
            ∧ d.tpv.longitude = r.longitude ∧ d.tpv.time = r.time)
      ∧ (sentence_id s = bytes "ZDA" →
          d.tpv.mode = r.mode ∧ d.tpv.altitude = r.altitude ∧ d.tpv.latitude = r.latitude
            ∧ d.tpv.longitude = r.longitude ∧ d.tpv.track = r.track
            ∧ d.tpv.speed = r.speed) := by
  obtain ⟨hreach, _, _, _, _, _, htpv⟩ := gps_decode_ok r s d h hc
  have hid := hreach.2.2.2.2.2.2
  have htalk := store_talker_talker_id r (rd s 1) (rd s 2) hlen
  have hdate : ∀ (t : List Nat) (i : Nat), i < 10 → (parse_time r.time t)[i]? = r.time[i]? :=
    fun t i hi => parse_time_getElem r.time t i (by omega)
  refine ⟨?_, ?_, ?_, ?_, ?_, ?_, ?_⟩
  · rw [htpv, ← htalk]
    simp only [supported_ids, List.mem_cons, List.mem_singleton, List.not_mem_nil,
      or_false] at hid
    rcases hid with e | e | e | e | e | e <;> rw [e] <;>
      simp only [extract_fields, id_ne_GGA_GLL, id_ne_GGA_GSA, id_ne_GLL_GSA, id_ne_GGA_RMC,
        id_ne_GLL_RMC, id_ne_GSA_RMC, id_ne_GGA_VTG, id_ne_GLL_VTG, id_ne_GSA_VTG,
        id_ne_RMC_VTG, id_ne_GGA_ZDA, id_ne_GLL_ZDA, id_ne_GSA_ZDA, id_ne_RMC_ZDA,
        id_ne_VTG_ZDA, if_true, if_false] <;>
      split_ifs <;> rfl
  · intro e
    rw [htpv, e]
    simp only [extract_fields, if_true]
    exact ⟨rfl, rfl, rfl, hdate _⟩
  · intro e
    rw [htpv, e]
    simp only [extract_fields, id_ne_GGA_GLL, if_false, if_true]
    split_ifs
    · exact ⟨rfl, rfl, rfl, rfl, hdate _⟩
    · exact ⟨rfl, rfl, rfl, rfl, fun _ _ => rfl⟩
  · intro e
    rw [htpv, e]
    simp only [extract_fields, id_ne_GGA_GSA, id_ne_GLL_GSA, if_false, if_true]
    exact ⟨rfl, rfl, rfl, rfl, rfl, rfl⟩
  · intro e
    rw [htpv, e]
    simp only [extract_fields, id_ne_GGA_RMC, id_ne_GLL_RMC, id_ne_GSA_RMC, if_false, if_true]
    split_ifs <;> exact ⟨rfl, rfl⟩
  · intro e
    rw [htpv, e]
    simp only [extract_fields, id_ne_GGA_VTG, id_ne_GLL_VTG, id_ne_GSA_VTG, id_ne_RMC_VTG,
      if_false, if_true]
    exact ⟨rfl, rfl, rfl, rfl, rfl⟩
  · intro e
    rw [htpv, e]
    simp only [extract_fields, id_ne_GGA_ZDA, id_ne_GLL_ZDA, id_ne_GSA_ZDA, id_ne_RMC_ZDA,
      id_ne_VTG_ZDA, if_false, if_true]
    exact ⟨rfl, rfl, rfl, rfl, rfl, rfl⟩

set_option maxRecDepth 100000 in
/-- The theorem `gps_decode_frame` at the GGA sentence of the tests. -/
theorem gps_decode_frame_witness :
    gps_decode init_tpv gga_sentence = some gga_decoded
      ∧ gga_decoded.tpv.talker_id = [71, 80, 0]
      ∧ (gga_decoded.tpv.mode = init_tpv.mode ∧ gga_decoded.tpv.track = init_tpv.track
          ∧ gga_decoded.tpv.speed = init_tpv.speed
          ∧ ∀ i, i < 10 → gga_decoded.tpv.time[i]? = init_tpv.time[i]?) :=
  ⟨by decide,
    (gps_decode_frame init_tpv gga_sentence gga_decoded (by decide) (by decide) (by decide)).1,
    (gps_decode_frame init_tpv gga_sentence gga_decoded (by decide) (by decide)
      (by decide)).2.1 (by decide)⟩

/-! ## Well-framed sentences decode -/

theorem gps_decode_well_framed (r : gps_tpv) (s : List Nat) (hw : well_framed s) :
    ∃ d, gps_decode r s = some d ∧ d.code = GPS_OK
      ∧ d.tpv = extract_fields (sentence_id s) (store_talker r (rd s 1) (rd s 2)) (field s) := by
  obtain ⟨hs, hg, hmin, hmax⟩ := hw
  obtain ⟨d, hd1, hd2⟩ := gps_decode_gate_code_aux r s hs (fun _ => hmax) (fun _ => hmin)
  have hc : d.code = GPS_OK := hd2.trans hg
  exact ⟨d, hd1, hc, (gps_decode_ok r s d hd1 hc).2.2.2.2.2.2⟩

theorem split_commas_no_comma (b : List Nat) : ∀ t ∈ split_commas b, ¬ (44 ∈ t) := by
  induction b with
  | nil => intro t ht; simp [split_commas] at ht; subst ht; simp
  | cons c rest ih =>
    intro t ht
    by_cases hc : c = 44
    · simp only [split_commas, hc, if_true, List.mem_cons] at ht
      rcases ht with ht | ht
      · subst ht; simp
      · exact ih t ht
    · simp only [split_commas, hc, if_false, List.mem_cons] at ht
      rcases ht with ht | ht
      · subst ht
        have hne := split_commas_ne_nil rest
        cases hsr : split_commas rest with
        | nil => exact absurd hsr hne
        | cons u us =>
          have hu := ih u (by rw [hsr]; simp)
          simp only [List.headD_cons, List.mem_cons, not_or]
          exact ⟨fun h => hc h.symm, hu⟩
      · exact ih t (List.mem_of_mem_tail ht)

theorem join_split_commas (b : List Nat) : join_commas (split_commas b) = b := by
  induction b with
  | nil => rfl
  | cons c rest ih =>
    have hne := split_commas_ne_nil rest
    cases hsr : split_commas rest with
    | nil => exact absurd hsr hne
    | cons u us =>
      rw [hsr] at ih
      by_cases hc : c = 44
      · subst hc
        simp only [split_commas, if_true, hsr, join_commas, List.nil_append, ih]
      · simp only [split_commas, hc, if_false, hsr, List.headD_cons, List.tail_cons]
        cases us with
        | nil =>
          simp only [join_commas] at ih ⊢
          rw [ih]
        | cons v vs =>
          simp only [join_commas, List.cons_append] at ih ⊢
          rw [ih]

theorem well_framed_body (s : List Nat) (hw : well_framed s) :
    rd s (3 + (scan_body (s.drop 3)).length) = 42
      ∧ (s.drop 3).take (scan_body (s.drop 3)).length = scan_body (s.drop 3)
      ∧ (∀ b ∈ scan_body (s.drop 3), b ≠ 42 ∧ b ≠ 0)
      ∧ (∀ t ∈ split_commas (scan_body (s.drop 3)), ¬ (44 ∈ t))
      ∧ join_commas (split_commas (scan_body (s.drop 3))) = scan_body (s.drop 3) := by
  obtain ⟨d, hd1, hc, _⟩ := gps_decode_well_framed
    ⟨gps_mode.GPS_MODE_UNKNOWN, 0, 0, 0, 0, 0, [], []⟩ s hw
  have hok := gps_decode_ok _ s d hd1 hc
  refine ⟨?_, scan_body_take _, scan_body_mem _, split_commas_no_comma _, join_split_commas _⟩
  rw [← rd_drop, rd_eq_hd_drop]
  exact hok.2.2.1

/-! ## C5: GGA -/

set_option maxRecDepth 100000 in
/-- C5: for every well-framed GGA sentence, `gps_decode` returns `GPS_OK` and
sets time by `parse_time` of field 0, latitude by `parse_angular_distance`
of field 1 and the first byte of field 2, longitude likewise of fields 3 and
4, altitude to `parse_number` of field 8 when field 9 begins with `'M'` and
to `GPS_INVALID_VALUE` otherwise; the fields are the substrings between
consecutive `','` of the bytes from `s[3]` to the `'*'`, the first substring
(that of the sentence ID) left out.  The GGA sentence of the tests gives
talker "GP", time "0000-00-00T17:28:14.000Z", latitude 37391097, longitude
-122037826 and altitude 18893. -/
theorem gps_decode_gga (r : gps_tpv) (s : List Nat) (hw : well_framed s)
    (hid : sentence_id s = bytes "GGA") :
    (∃ d, gps_decode r s = some d ∧ d.code = GPS_OK
        ∧ d.tpv.time = parse_time r.time (field s 0)
        ∧ d.tpv.latitude = parse_angular_distance (field s 1) (hd (field s 2))
        ∧ d.tpv.longitude = parse_angular_distance (field s 3) (hd (field s 4))
        ∧ d.tpv.altitude
            = if hd (field s 9) = 77 then parse_number (field s 8) else GPS_INVALID_VALUE)
      ∧ (rd s (3 + (scan_body (s.drop 3)).length) = 42
          ∧ (s.drop 3).take (scan_body (s.drop 3)).length = scan_body (s.drop 3)
          ∧ (∀ b ∈ scan_body (s.drop 3), b ≠ 42 ∧ b ≠ 0)
          ∧ (∀ t ∈ split_commas (scan_body (s.drop 3)), ¬ (44 ∈ t))
          ∧ join_commas (split_commas (scan_body (s.drop 3))) = scan_body (s.drop 3)
          ∧ ∀ k, field s k = (split_commas (scan_body (s.drop 3))).getD (k + 1) [])
      ∧ (gps_decode init_tpv gga_sentence).map
          (fun d => (d.code, d.tpv.talker_id, d.tpv.time, d.tpv.latitude, d.tpv.longitude,
            d.tpv.altitude))
          = some (GPS_OK, bytes "GP" ++ [0], bytes "0000-00-00T17:28:14.000Z" ++ [0],
              37391097, -122037826, 18893) := by
  obtain ⟨d, hd1, hc, htpv⟩ := gps_decode_well_framed r s hw
  obtain ⟨b1, b2, b3, b4, b5⟩ := well_framed_body s hw
  refine ⟨⟨d, hd1, hc, ?_⟩, ⟨b1, b2, b3, b4, b5, ?_⟩, by decide⟩
  · rw [htpv, hid]
    simp only [extract_fields, if_true, store_talker, and_self]
  · intro k
    simp only [field, fields]
    exact getD_tail_of_ne_nil _ _ _ (split_commas_ne_nil _)

set_option maxRecDepth 100000 in
/-- The theorem `gps_decode_gga` at the GGA sentence of the tests. -/
theorem gps_decode_gga_witness :
    well_framed gga_sentence ∧ sentence_id gga_sentence = bytes "GGA"
      ∧ ∃ d, gps_decode init_tpv gga_sentence = some d ∧ d.code = GPS_OK
        ∧ d.tpv.time = parse_time init_tpv.time (bytes "172814.0")
        ∧ d.tpv.latitude = parse_angular_distance (bytes "3723.46587704") 78
        ∧ d.tpv.longitude = parse_angular_distance (bytes "12202.26957864") 87
        ∧ d.tpv.altitude = parse_number (bytes "18.893") :=
  ⟨⟨by decide, by decide, by decide, by decide⟩, by decide,
    (gps_decode_gga init_tpv gga_sentence ⟨by decide, by decide, by decide, by decide⟩
      (by decide)).1⟩

/-! ## C6 and C7: RMC, GLL and the status gate -/

theorem parse_date_valid (destination : List Nat) (d1 d2 m1 m2 y1 y2 : Nat) (rest : List Nat)
    (hd1 : is_digit_0_to_3 d1 = true) (hd2 : is_digit_0_to_9 d2 = true)
    (hm1 : is_digit_0_to_1 m1 = true) (hm2 : is_digit_0_to_9 m2 = true)
    (hy1 : is_digit_0_to_9 y1 = true) (hy2 : is_digit_0_to_9 y2 = true) :
    parse_date destination (d1 :: d2 :: m1 :: m2 :: y1 :: y2 :: rest)
      = (((((((destination.set 8 d1).set 9 d2).set 5 m1).set 6 m2).set 2 y1).set 3 y2).set
          0 50).set 1 48 := by
  simp [parse_date, hd, hd1, hd2, hm1, hm2, hy1, hy2]

set_option maxRecDepth 100000 in
/-- C6: for every well-framed RMC sentence whose field 1 begins with `'A'`,
`gps_decode` returns `GPS_OK` and sets the time of day by `parse_time` of
field 0, latitude from fields 2 and 3, longitude from fields 4 and 5, speed
to the number of field 6 times 1000 / 1944 (from knots), track to the number
of field 7 and the date by `parse_date` of field 8, which for a field
`DDMMYY` of digits stores `20YY-MM-DD`.  The RMC sentence of the tests gives
time "2002-11-13T02:30:44.000Z", latitude 39123066, longitude -121041153,
track 156100 and speed 0. -/
theorem gps_decode_rmc (r : gps_tpv) (s : List Nat) (hw : well_framed s)
    (hid : sentence_id s = bytes "RMC") (hA : hd (field s 1) = 65) :
    (∃ d, gps_decode r s = some d ∧ d.code = GPS_OK
        ∧ d.tpv.time = parse_date (parse_time r.time (field s 0)) (field s 8)
        ∧ d.tpv.latitude = parse_angular_distance (field s 2) (hd (field s 3))
        ∧ d.tpv.longitude = parse_angular_distance (field s 4) (hd (field s 5))
        ∧ d.tpv.speed = Int.tdiv (wrap32 (parse_number (field s 6) * 1000)) 1944
        ∧ d.tpv.track = parse_number (field s 7)
        ∧ ∀ (d1 d2 m1 m2 y1 y2 : Nat) (rest : List Nat),
            field s 8 = d1 :: d2 :: m1 :: m2 :: y1 :: y2 :: rest →
            is_digit_0_to_3 d1 = true → is_digit_0_to_9 d2 = true →
            is_digit_0_to_1 m1 = true → is_digit_0_to_9 m2 = true →
            is_digit_0_to_9 y1 = true → is_digit_0_to_9 y2 = true →
            d.tpv.time = ((((((((parse_time r.time (field s 0)).set 8 d1).set 9 d2).set
              5 m1).set 6 m2).set 2 y1).set 3 y2).set 0 50).set 1 48)
      ∧ (gps_decode init_tpv rmc_sentence).map
          (fun d => (d.code, d.tpv.time, d.tpv.latitude, d.tpv.longitude, d.tpv.track,
            d.tpv.speed))
          = some (GPS_OK, bytes "2002-11-13T02:30:44.000Z" ++ [0], 39123066, -121041153,
              156100, 0) := by
  obtain ⟨d, hd1, hc, htpv⟩ := gps_decode_well_framed r s hw
  refine ⟨⟨d, hd1, hc, ?_⟩, by decide⟩
  have ht : d.tpv.time = parse_date (parse_time r.time (field s 0)) (field s 8) := by
    rw [htpv, hid]
    simp only [extract_fields, id_ne_GGA_RMC, id_ne_GLL_RMC, id_ne_GSA_RMC, if_false, if_true,
      hA, store_talker]
  refine ⟨ht, ?_, ?_, ?_, ?_, ?_⟩
  · rw [htpv, hid]
    simp only [extract_fields, id_ne_GGA_RMC, id_ne_GLL_RMC, id_ne_GSA_RMC, if_false, if_true,
      hA, store_talker]
  · rw [htpv, hid]
    simp only [extract_fields, id_ne_GGA_RMC, id_ne_GLL_RMC, id_ne_GSA_RMC, if_false, if_true,
      hA, store_talker]
  · rw [htpv, hid]
    simp only [extract_fields, id_ne_GGA_RMC, id_ne_GLL_RMC, id_ne_GSA_RMC, if_false, if_true,
      hA, store_talker, parse_speed]
    rfl
  · rw [htpv, hid]
    simp only [extract_fields, id_ne_GGA_RMC, id_ne_GLL_RMC, id_ne_GSA_RMC, if_false, if_true,
      hA, store_talker]
  · intro d1 d2 m1 m2 y1 y2 rest hf h1 h2 h3 h4 h5 h6
    rw [ht, hf, parse_date_valid _ d1 d2 m1 m2 y1 y2 rest h1 h2 h3 h4 h5 h6]

set_option maxRecDepth 100000 in
/-- The theorem `gps_decode_rmc` at the RMC sentence of the tests. -/
theorem gps_decode_rmc_witness :
    well_framed rmc_sentence ∧ sentence_id rmc_sentence = bytes "RMC"
      ∧ hd (field rmc_sentence 1) = 65
      ∧ ∃ d, gps_decode init_tpv rmc_sentence = some d ∧ d.code = GPS_OK
        ∧ d.tpv.time = parse_date (parse_time init_tpv.time (bytes "023044")) (bytes "131102")
        ∧ d.tpv.latitude = parse_angular_distance (bytes "3907.3840") 78
        ∧ d.tpv.longitude = parse_angular_distance (bytes "12102.4692") 87
        ∧ d.tpv.speed = Int.tdiv (wrap32 (parse_number (bytes "0.0") * 1000)) 1944
        ∧ d.tpv.track = parse_number (bytes "156.1") :=
  ⟨⟨by decide, by decide, by decide, by decide⟩, by decide, by decide,
    (gps_decode_rmc init_tpv rmc_sentence ⟨by decide, by decide, by decide, by decide⟩
      (by decide) (by decide)).1.imp
      (fun _ h => ⟨h.1, h.2.1, h.2.2.1, h.2.2.2.1, h.2.2.2.2.1, h.2.2.2.2.2.1,
        h.2.2.2.2.2.2.1⟩)⟩

/-- C7: for every well-framed RMC sentence whose field 1 does not begin with
`'A'` and every well-framed GLL sentence whose field 5 does not begin with
`'A'`, `gps_decode` returns `GPS_OK` and leaves latitude, longitude, the
whole time buffer, track, speed, altitude and mode as they were. -/
theorem gps_decode_status_gate (r : gps_tpv) (s : List Nat) (hw : well_framed s)
    (h : (sentence_id s = bytes "RMC" ∧ hd (field s 1) ≠ 65)
      ∨ (sentence_id s = bytes "GLL" ∧ hd (field s 5) ≠ 65)) :
    ∃ d, gps_decode r s = some d ∧ d.code = GPS_OK
      ∧ d.tpv.latitude = r.latitude ∧ d.tpv.longitude = r.longitude ∧ d.tpv.time = r.time
      ∧ d.tpv.track = r.track ∧ d.tpv.speed = r.speed ∧ d.tpv.altitude = r.altitude
      ∧ d.tpv.mode = r.mode := by
  obtain ⟨d, hd1, hc, htpv⟩ := gps_decode_well_framed r s hw
  refine ⟨d, hd1, hc, ?_⟩
  rcases h with ⟨hid, hA⟩ | ⟨hid, hA⟩
  · rw [htpv, hid]
    simp only [extract_fields, id_ne_GGA_RMC, id_ne_GLL_RMC, id_ne_GSA_RMC, if_false, if_true,
      hA, store_talker, and_self]
  · rw [htpv, hid]
    simp only [extract_fields, id_ne_GGA_GLL, if_false, if_true, hA, store_talker, and_self]

set_option maxRecDepth 100000 in
/-- The theorem `gps_decode_status_gate` at the RMC sentence of the tests
with status `'V'`, decoded into the record the GGA test leaves. -/
theorem gps_decode_status_gate_witness :
    well_framed rmc_void_sentence ∧ sentence_id rmc_void_sentence = bytes "RMC"
      ∧ hd (field rmc_void_sentence 1) = 86
      ∧ ∃ d, gps_decode gga_decoded.tpv rmc_void_sentence = some d ∧ d.code = GPS_OK
        ∧ d.tpv.latitude = 37391097 ∧ d.tpv.longitude = -122037826
        ∧ d.tpv.time = bytes "0000-00-00T17:28:14.000Z" ++ [0]
        ∧ d.tpv.track = GPS_INVALID_VALUE ∧ d.tpv.speed = GPS_INVALID_VALUE
        ∧ d.tpv.altitude = 18893 ∧ d.tpv.mode = gps_mode.GPS_MODE_UNKNOWN :=
  ⟨⟨by decide, by decide, by decide, by decide⟩, by decide, by decide,
    gps_decode_status_gate gga_decoded.tpv rmc_void_sentence
      ⟨by decide, by decide, by decide, by decide⟩ (Or.inl ⟨by decide, by decide⟩)⟩

/-! ## C8: rejected sentences -/

theorem gps_decode_rejected (r : gps_tpv) (s : List Nat) (d : decoded)
    (h : gps_decode r s = some d) (hc : d.code ≠ GPS_OK) :
    (d.code = GPS_ERROR_HEAD ∧ d.tpv = r)
      ∨ (d.code = GPS_ERROR_TRUNCATED ∧ (rd s 1 = 0 ∨ rd s 2 = 0) ∧ d.tpv = r)
      ∨ (d.code ≠ GPS_ERROR_HEAD ∧ rd s 1 ≠ 0 ∧ rd s 2 ≠ 0
          ∧ d.tpv = store_talker r (rd s 1) (rd s 2)) := by
  by_cases hh : rd s 0 = 36
  swap
  · simp [gps_decode, hh] at h
    subst h
    exact Or.inl ⟨rfl, rfl⟩
  by_cases ht : rd s 1 = 0 ∨ rd s 2 = 0
  · simp [gps_decode, hh, ht] at h
    subst h
    exact Or.inr (Or.inl ⟨rfl, ht, rfl⟩)
  have ht1 : rd s 1 ≠ 0 := fun h => ht (Or.inl h)
  have ht2 : rd s 2 ≠ 0 := fun h => ht (Or.inr h)
  right; right
  have hshape := shape_of_header s hh ht1 ht2
  suffices hsuf : d.code ≠ GPS_ERROR_HEAD ∧ d.tpv = store_talker r (rd s 1) (rd s 2) from
    ⟨hsuf.1, ht1, ht2, hsuf.2⟩
  rw [hshape] at h
  clear hshape hh ht
  generalize rd s 1 = t0 at h ht1 ⊢
  generalize rd s 2 = t1 at h ht2 ⊢
  generalize s.drop 3 = cur at h ⊢
  by_cases hm : memchr_nul SENTENCE_ID_SIZE cur = true
  · simp [gps_decode, rd, ht1, ht2, hm] at h
    subst h
    exact ⟨by simp [GPS_ERROR_HEAD, GPS_ERROR_TRUNCATED, GPS_ERROR_UNSUPPORTED,
      GPS_ERROR_CHECKSUM, GPS_ERROR_FOOT], rfl⟩
  have hm2 : memchr_nul SENTENCE_ID_SIZE cur = false := by simpa using hm
  cases hp : select_parse cur with
  | none =>
    simp [gps_decode, rd, ht1, ht2, hm2, hp] at h
    subst h
    exact ⟨by simp [GPS_ERROR_HEAD, GPS_ERROR_TRUNCATED, GPS_ERROR_UNSUPPORTED,
      GPS_ERROR_CHECKSUM, GPS_ERROR_FOOT], rfl⟩
  | some parse =>
    rw [gps_decode_body r t0 t1 _ parse ht1 ht2 hm2 hp] at h
    split_ifs at h with c0 c1 c2 c3
    · simp only [Option.some.injEq] at h
      subst h
      exact ⟨by simp [GPS_ERROR_HEAD, GPS_ERROR_TRUNCATED, GPS_ERROR_UNSUPPORTED,
      GPS_ERROR_CHECKSUM, GPS_ERROR_FOOT], rfl⟩
    · simp only [Option.some.injEq] at h
      subst h
      exact ⟨by simp [GPS_ERROR_HEAD, GPS_ERROR_TRUNCATED, GPS_ERROR_UNSUPPORTED,
      GPS_ERROR_CHECKSUM, GPS_ERROR_FOOT], rfl⟩
    · simp only [Option.some.injEq] at h
      subst h
      exact ⟨by simp [GPS_ERROR_HEAD, GPS_ERROR_TRUNCATED, GPS_ERROR_UNSUPPORTED,
      GPS_ERROR_CHECKSUM, GPS_ERROR_FOOT], rfl⟩
    · split at h
      · simp at h
      · simp only [Option.some.injEq] at h
        subst h
        exact absurd rfl hc

/-- C8 (amended): a rejected sentence leaves mode, altitude, latitude,
longitude, track, speed, the time buffer and `talker_id[2]` as they were;
`talker_id[0..1]` may be overwritten, and the whole record is unchanged when
the code is `GPS_ERROR_HEAD`. -/
theorem gps_decode_rejected_frame (r : gps_tpv) (s : List Nat) (d : decoded)
    (h : gps_decode r s = some d) (hc : d.code ≠ GPS_OK) :
    d.tpv.mode = r.mode ∧ d.tpv.altitude = r.altitude ∧ d.tpv.latitude = r.latitude
      ∧ d.tpv.longitude = r.longitude ∧ d.tpv.track = r.track ∧ d.tpv.speed = r.speed
      ∧ d.tpv.time = r.time ∧ d.tpv.talker_id[2]? = r.talker_id[2]?
      ∧ d.tpv.talker_id.length = r.talker_id.length
      ∧ (d.code = GPS_ERROR_HEAD → d.tpv = r) := by
  rcases gps_decode_rejected r s d h hc with ⟨_, e⟩ | ⟨_, _, e⟩ | ⟨hne, _, _, e⟩
  · rw [e]; simp
  · rw [e]; simp
  · rw [e]
    refine ⟨rfl, rfl, rfl, rfl, rfl, rfl, rfl, ?_, ?_, fun h2 => absurd h2 hne⟩
    · simp only [store_talker]
      rw [List.getElem?_set_ne (by decide), List.getElem?_set_ne (by decide)]
    · simp [store_talker]

set_option maxRecDepth 100000 in
/-- The theorem `gps_decode_rejected_frame` at the unsupported sentence of the tests. -/
theorem gps_decode_rejected_frame_witness :
    gps_decode gga_decoded.tpv rme_sentence
        = some ⟨GPS_ERROR_UNSUPPORTED,
            { gga_decoded.tpv with talker_id := bytes "PG" ++ [0] }, rme_sentence⟩
      ∧ ({ gga_decoded.tpv with talker_id := bytes "PG" ++ [0] } : gps_tpv).time
          = gga_decoded.tpv.time
      ∧ ({ gga_decoded.tpv with talker_id := bytes "PG" ++ [0] } : gps_tpv).latitude
          = gga_decoded.tpv.latitude :=
  ⟨by decide,
    (gps_decode_rejected_frame gga_decoded.tpv rme_sentence
      ⟨GPS_ERROR_UNSUPPORTED, { gga_decoded.tpv with talker_id := bytes "PG" ++ [0] },
        rme_sentence⟩ (by decide) (by decide)).2.2.2.2.2.2.1,
    (gps_decode_rejected_frame gga_decoded.tpv rme_sentence
      ⟨GPS_ERROR_UNSUPPORTED, { gga_decoded.tpv with talker_id := bytes "PG" ++ [0] },
        rme_sentence⟩ (by decide) (by decide)).2.2.1⟩

set_option maxRecDepth 100000 in
/-- C8 as stated fails: the unsupported sentence of the tests is rejected
with `GPS_ERROR_UNSUPPORTED`, yet the talker ID of the initialised record,
the empty string, has become "PG". -/
theorem gps_decode_rejected_counterexample :
    (gps_decode init_tpv rme_sentence).map (fun d => (d.code, d.tpv.talker_id))
        = some (GPS_ERROR_UNSUPPORTED, bytes "PG" ++ [0])
      ∧ init_tpv.talker_id = [0, 0, 0] := by
  decide

/-! ## C9: a failed speed is not stored as the sentinel -/

set_option maxRecDepth 100000 in
/-- C9, the behaviour of the code: with an empty speed field and a
recognised unit, `parse_speed` converts the sentinel returned by
`parse_number` as if it were a speed, and the stored speed is 0, not
`GPS_INVALID_VALUE`; the VTG and RMC sentences are otherwise accepted. -/
theorem empty_speed_not_invalid :
    (gps_decode init_tpv vtg_empty_speed).map (fun d => (d.code, d.tpv.track, d.tpv.speed))
        = some (GPS_OK, 176900, 0)
      ∧ (gps_decode init_tpv rmc_empty_speed).map (fun d => (d.code, d.tpv.track, d.tpv.speed))
        = some (GPS_OK, 156100, 0)
      ∧ field vtg_empty_speed 6 = [] ∧ hd (field vtg_empty_speed 7) = 75
      ∧ field rmc_empty_speed 6 = []
      ∧ parse_number [] = GPS_INVALID_VALUE
      ∧ parse_speed [] 75 = 0 ∧ parse_speed [] 78 = 0
      ∧ GPS_INVALID_VALUE = 2147483647 := by
  decide

/-! ## C10: a corrupted body byte -/

theorem foldl_xor_acc (l : List Nat) :
    ∀ a b : Nat, l.foldl (fun a c => a ^^^ c) (a ^^^ b) = l.foldl (fun a c => a ^^^ c) a ^^^ b := by
  induction l with
  | nil => intro a b; rfl
  | cons c rest ih =>
    intro a b
    simp only [List.foldl_cons]
    rw [Nat.xor_assoc, Nat.xor_comm b c, ← Nat.xor_assoc, ih]

theorem foldl_xor_set (l : List Nat) :
    ∀ (p a b : Nat), p < l.length →
      (l.set p b).foldl (fun a c => a ^^^ c) a
        = l.foldl (fun a c => a ^^^ c) a ^^^ (l.getD p 0 ^^^ b) := by
  induction l with
  | nil => intro p a b hp; simp at hp
  | cons c rest ih =>
    intro p a b hp
    cases p with
    | zero =>
      simp only [List.set_cons_zero, List.foldl_cons, List.getD_cons_zero]
      rw [foldl_xor_acc, foldl_xor_acc, Nat.xor_assoc, Nat.xor_cancel_left]
    | succ p =>
      simp only [List.set_cons_succ, List.foldl_cons, List.getD_cons_succ]
      exact ih p _ b (by simpa using hp)

theorem xor_bytes_set_ne (m : List Nat) (p b : Nat) (hp : p < m.length) (hb : b ≠ m.getD p 0) :
    xor_bytes (m.set p b) ≠ xor_bytes m := by
  unfold xor_bytes
  rw [foldl_xor_set m p 0 b hp]
  intro h
  have h2 : List.foldl (fun a c => a ^^^ c) 0 m ^^^ (m.getD p 0 ^^^ b)
      = List.foldl (fun a c => a ^^^ c) 0 m ^^^ 0 := by rw [h, Nat.xor_zero]
  have h3 := Nat.xor_right_inj.1 h2
  exact hb (Nat.xor_eq_zero.1 h3).symm

theorem supported_ids_bytes (x y z : Nat) (h : [x, y, z] ∈ supported_ids) :
    (x ≠ 0 ∧ x ≠ 42) ∧ (y ≠ 0 ∧ y ≠ 42) ∧ (z ≠ 0 ∧ z ≠ 42) := by
  simp only [supported_ids, List.mem_cons, List.mem_singleton, List.not_mem_nil, or_false,
    bytes_GGA, bytes_GLL, bytes_GSA, bytes_RMC, bytes_VTG, bytes_ZDA] at h
  rcases h with h | h | h | h | h | h <;>
    (simp only [List.cons.injEq, and_true] at h
     obtain ⟨rfl, rfl, rfl⟩ := h
     decide)

/-- The shape of a sentence that `gps_decode` accepts. -/
theorem gps_decode_ok_shape (r : gps_tpv) (s : List Nat) (d : decoded)
    (hs : ∀ b ∈ s, b < 256) (h : gps_decode r s = some d) (hc : d.code = GPS_OK) :
    ∃ t0 t1 body tail, s = 36 :: t0 :: t1 :: (body ++ 42 :: tail)
      ∧ t0 ≠ 0 ∧ t1 ≠ 0 ∧ (∀ b ∈ body, b ≠ 0 ∧ b ≠ 42) ∧ 3 ≤ body.length
      ∧ xor_bytes (t0 :: t1 :: body) = build_hex_byte (rd tail 0) (rd tail 1)
      ∧ star_pos s = 3 + body.length := by
  obtain ⟨hreach, _, hstar, hck, _, _, _⟩ := gps_decode_ok r s d h hc
  obtain ⟨h0, h1, h2, h3, h4, h5, hid⟩ := hreach
  have hshape := shape_of_header s h0 h1 h2
  have e3 : (36 :: rd s 1 :: rd s 2 :: s.drop 3).drop 3 = s.drop 3 := rfl
  have hb0 : rd s 1 < 256 := by
    rw [hshape] at hs; exact hs _ (by simp)
  have hb1 : rd s 2 < 256 := by
    rw [hshape] at hs; exact hs _ (by simp)
  have hcur : ∀ b ∈ s.drop 3, b < 256 := fun b hb => hs b (List.mem_of_mem_drop hb)
  have hsid : sentence_id s = [rd (s.drop 3) 0, rd (s.drop 3) 1, rd (s.drop 3) 2] := by
    simp only [sentence_id, rd_drop]
  rw [hsid] at hid
  have hsp : star_pos s = 3 + (scan_body (s.drop 3)).length := by
    rw [hshape, e3]
    exact star_pos_eq 36 _ _ _ hstar
  generalize rd s 1 = t0 at hshape h1 hck hb0
  generalize rd s 2 = t1 at hshape h2 hck hb1
  generalize s.drop 3 = cur at hshape hstar hck hcur hid hsp
  have hsplit : cur = scan_body cur ++ cur.drop (scan_body cur).length := by
    conv_lhs => rw [← List.take_append_drop (scan_body cur).length cur]
    rw [scan_body_take]
  cases hrest : cur.drop (scan_body cur).length with
  | nil => rw [hrest] at hstar; simp [hd] at hstar
  | cons c tail =>
    rw [hrest] at hstar hck hsplit
    have hc42 : c = 42 := by simpa [hd] using hstar
    subst hc42
    have hlen : 3 ≤ (scan_body cur).length := by
      rcases cur with _ | ⟨x, _ | ⟨y, _ | ⟨z, rest⟩⟩⟩
      · simp [rd, supported_ids, bytes_GGA, bytes_GLL, bytes_GSA, bytes_RMC, bytes_VTG,
          bytes_ZDA] at hid
      · simp [rd, supported_ids, bytes_GGA, bytes_GLL, bytes_GSA, bytes_RMC, bytes_VTG,
          bytes_ZDA] at hid
      · simp [rd, supported_ids, bytes_GGA, bytes_GLL, bytes_GSA, bytes_RMC, bytes_VTG,
          bytes_ZDA] at hid
      · have hxyz := supported_ids_bytes x y z (by simpa [rd] using hid)
        rw [scan_body_cons _ hxyz.1.2 hxyz.1.1, scan_body_cons _ hxyz.2.1.2 hxyz.2.1.1,
          scan_body_cons _ hxyz.2.2.2 hxyz.2.2.1]
        simp
    refine ⟨t0, t1, scan_body cur, tail, ?_, h1, h2,
      fun b hb => ⟨(scan_body_mem cur b hb).2, (scan_body_mem cur b hb).1⟩, hlen, ?_, hsp⟩
    · rw [← hsplit]; exact hshape
    · rw [← xor_fold_talker t0 t1 _ hb0 hb1 (fun b hb => hcur b (scan_body_subset cur b hb))]
      exact hck

theorem framed_checksum_error (r : gps_tpv) (t0 t1 : Nat) (body tail : List Nat)
    (hs : ∀ b ∈ 36 :: t0 :: t1 :: (body ++ 42 :: tail), b < 256)
    (h0 : t0 ≠ 0) (h1 : t1 ≠ 0) (hb : ∀ b ∈ body, b ≠ 0 ∧ b ≠ 42) (hlen : 3 ≤ body.length)
    (hid : sentence_id (36 :: t0 :: t1 :: (body ++ 42 :: tail)) ∈ supported_ids)
    (h32 : field_commas (36 :: t0 :: t1 :: (body ++ 42 :: tail)) ≤ NMEA_MAX_FIELDS)
    (hx : xor_bytes (t0 :: t1 :: body) ≠ build_hex_byte (rd tail 0) (rd tail 1)) :
    ∃ d, gps_decode r (36 :: t0 :: t1 :: (body ++ 42 :: tail)) = some d
      ∧ d.code = GPS_ERROR_CHECKSUM := by
  have hgate := gate_code_framed t0 t1 body tail h0 h1 (hs t0 (by simp)) (hs t1 (by simp)) hb
    (fun b hb2 => hs b (by simp [hb2])) (fun b hb2 => hs b (by simp [hb2])) hlen
  simp only [hid, not_true_eq_false, if_false, hx, ne_eq, not_false_eq_true, if_true] at hgate
  obtain ⟨d, hd1, hd2⟩ := gps_decode_gate_code_aux r _ hs (fun _ => h32)
    (fun hok => by rw [hgate] at hok; exact absurd hok (by decide))
  exact ⟨d, hd1, hd2.trans hgate⟩

/-- C10 (amended): for every sentence on which `gps_decode` returns `GPS_OK`
and every position strictly between the `'$'` and the `'*'`, replacing the
byte at that position by a different byte that is neither NUL nor `'*'`,
that leaves the sentence ID one of the six supported IDs and the number of
`','` at most 32, makes `gps_decode` return `GPS_ERROR_CHECKSUM`. -/
theorem corrupt_byte_checksum (r r1 : gps_tpv) (s : List Nat) (d : decoded)
    (hs : ∀ b ∈ s, b < 256) (h : gps_decode r s = some d) (hc : d.code = GPS_OK)
    (p b : Nat) (hp1 : 1 ≤ p) (hp2 : p < star_pos s) (hb : b ≠ rd s p) (hb256 : b < 256)
    (hb0 : b ≠ 0) (hb42 : b ≠ 42) (hid : sentence_id (s.set p b) ∈ supported_ids)
    (h32 : field_commas (s.set p b) ≤ NMEA_MAX_FIELDS) :
    ∃ d1, gps_decode r1 (s.set p b) = some d1 ∧ d1.code = GPS_ERROR_CHECKSUM := by
  obtain ⟨t0, t1, body, tail, rfl, h0, h1, hbody, hlen, hck, hsp⟩ :=
    gps_decode_ok_shape r s d hs h hc
  rw [hsp] at hp2
  have hs2 : ∀ x ∈ (36 :: t0 :: t1 :: (body ++ 42 :: tail)).set p b, x < 256 := by
    intro x hx
    rcases List.mem_or_eq_of_mem_set hx with h2 | h2
    · exact hs x h2
    · rw [h2]; exact hb256
  rcases p with _ | _ | _ | k
  · omega
  · have e : (36 :: t0 :: t1 :: (body ++ 42 :: tail)).set 1 b
        = 36 :: b :: t1 :: (body ++ 42 :: tail) := rfl
    rw [e] at hid h32 hs2 ⊢
    have hne : xor_bytes ((t0 :: t1 :: body).set 0 b) ≠ xor_bytes (t0 :: t1 :: body) :=
      xor_bytes_set_ne _ 0 b (by simp) (by simpa [rd] using hb)
    exact framed_checksum_error r1 b t1 body tail hs2 hb0 h1 hbody hlen hid h32
      (by rw [← hck]; exact hne)
  · have e : (36 :: t0 :: t1 :: (body ++ 42 :: tail)).set 2 b
        = 36 :: t0 :: b :: (body ++ 42 :: tail) := rfl
    rw [e] at hid h32 hs2 ⊢
    have hne : xor_bytes ((t0 :: t1 :: body).set 1 b) ≠ xor_bytes (t0 :: t1 :: body) :=
      xor_bytes_set_ne _ 1 b (by simp) (by simpa [rd] using hb)
    exact framed_checksum_error r1 t0 b body tail hs2 h0 hb0 hbody hlen hid h32
      (by rw [← hck]; exact hne)
  · have hk : k < body.length := by omega
    have e : (36 :: t0 :: t1 :: (body ++ 42 :: tail)).set (k + 1 + 1 + 1) b
        = 36 :: t0 :: t1 :: (body.set k b ++ 42 :: tail) := by
      simp only [List.set_cons_succ, List.set_append_left k b hk]
    rw [e] at hid h32 hs2 ⊢
    have hbk : b ≠ (t0 :: t1 :: body).getD (k + 2) 0 := by
      have e2 : rd (36 :: t0 :: t1 :: (body ++ 42 :: tail)) (k + 1 + 1 + 1)
          = (t0 :: t1 :: body).getD (k + 2) 0 := by
        simp [rd, List.getElem?_append_left hk]
      rw [← e2]; exact hb
    have hne : xor_bytes ((t0 :: t1 :: body).set (k + 2) b) ≠ xor_bytes (t0 :: t1 :: body) :=
      xor_bytes_set_ne _ (k + 2) b (by simp; omega) hbk
    have hbody2 : ∀ x ∈ body.set k b, x ≠ 0 ∧ x ≠ 42 := by
      intro x hx
      rcases List.mem_or_eq_of_mem_set hx with h2 | h2
      · exact hbody x h2
      · rw [h2]; exact ⟨hb0, hb42⟩
    exact framed_checksum_error r1 t0 t1 (body.set k b) tail hs2 h0 h1 hbody2
      (by simpa using hlen) hid h32 (by rw [← hck]; exact hne)

set_option maxRecDepth 100000 in
/-- The theorem `corrupt_byte_checksum` at the GGA sentence of the tests,
the first digit of the time field replaced by `'2'`. -/
theorem corrupt_byte_checksum_witness :
    gps_decode init_tpv gga_sentence = some gga_decoded ∧ rd gga_sentence 7 = 49
      ∧ star_pos gga_sentence = 84
      ∧ ∃ d1, gps_decode init_tpv (gga_sentence.set 7 50) = some d1
          ∧ d1.code = GPS_ERROR_CHECKSUM :=
  ⟨by decide, by decide, by decide,
    corrupt_byte_checksum init_tpv init_tpv gga_sentence gga_decoded (by decide) (by decide)
      (by decide) 7 50 (by decide) (by decide) (by decide) (by decide) (by decide) (by decide)
      (by decide) (by decide)⟩

set_option maxRecDepth 100000 in
/-- C10 as stated fails: in the GGA sentence of the tests, which decodes
with `GPS_OK`, replacing the last byte of the sentence ID by `'B'` gives
`GPS_ERROR_UNSUPPORTED`, replacing the first byte of the time field by NUL
gives `GPS_ERROR_TRUNCATED`, and replacing the talker byte `'P'` by NUL
gives `GPS_ERROR_TRUNCATED`. -/
theorem corrupt_byte_counterexample :
    (gps_decode init_tpv gga_sentence).map (fun d => d.code) = some GPS_OK
      ∧ star_pos gga_sentence = 84
      ∧ (rd gga_sentence 5 = 65
          ∧ (gps_decode init_tpv (gga_sentence.set 5 66)).map (fun d => d.code)
              = some GPS_ERROR_UNSUPPORTED)
      ∧ (rd gga_sentence 7 = 49
          ∧ (gps_decode init_tpv (gga_sentence.set 7 0)).map (fun d => d.code)
              = some GPS_ERROR_TRUNCATED)
      ∧ (rd gga_sentence 2 = 80
          ∧ (gps_decode init_tpv (gga_sentence.set 2 0)).map (fun d => d.code)
              = some GPS_ERROR_TRUNCATED) := by
  decide

/-! ## Digit runs -/

theorem is_digit_iff (c : Nat) : is_digit c = true ↔ 48 ≤ c ∧ c ≤ 57 := by
  simp [is_digit]

theorem is_digit_0_to_9_eq (c : Nat) (h : c < 256) : is_digit_0_to_9 c = is_digit c := by
  simp only [is_digit_0_to_9, is_char_in_range, is_digit]
  by_cases h1 : 48 ≤ c ∧ c ≤ 57
  · simp only [h1, and_self, decide_True, decide_eq_true_eq]; omega
  · simp only [h1, decide_False, decide_eq_false_iff_not]; omega

theorem wrap32_id {x : Int} (h1 : -2147483648 ≤ x) (h2 : x < 2147483648) : wrap32 x = x := by
  unfold wrap32; omega

theorem digits_from_cons (a : Int) (c : Nat) (ds : List Nat) :
    digits_from a (c :: ds) = digits_from (a * 10 + ((c : Int) - 48)) ds := rfl

theorem wfold_cons (a : Int) (c : Nat) (ds : List Nat) :
    wfold a (c :: ds) = wfold (wrap32 (a * 10 + ((c : Int) - 48))) ds := rfl

theorem digits_from_ge (ds : List Nat) (hds : ∀ c ∈ ds, is_digit c = true) :
    ∀ a : Int, 0 ≤ a → a ≤ digits_from a ds := by
  induction ds with
  | nil => intro a _; exact Int.le_refl _
  | cons c rest ih =>
    intro a ha
    have hc := (is_digit_iff c).1 (hds c (List.mem_cons_self _ _))
    rw [digits_from_cons]
    have := ih (fun x hx => hds x (List.mem_cons_of_mem _ hx)) (a * 10 + ((c : Int) - 48))
      (by omega)
    omega

theorem digits_from_lt (ds : List Nat) (hds : ∀ c ∈ ds, is_digit c = true) :
    ∀ a : Int, 0 ≤ a → digits_from a ds < (a + 1) * 10 ^ ds.length := by
  induction ds with
  | nil => intro a _; simp [digits_from]
  | cons c rest ih =>
    intro a ha
    have hc := (is_digit_iff c).1 (hds c (List.mem_cons_self _ _))
    rw [digits_from_cons]
    have h1 := ih (fun x hx => hds x (List.mem_cons_of_mem _ hx)) (a * 10 + ((c : Int) - 48))
      (by omega)
    have hp : (0 : Int) ≤ 10 ^ rest.length := by positivity
    have h2 : (a * 10 + ((c : Int) - 48) + 1) * 10 ^ rest.length
        ≤ ((a + 1) * 10) * 10 ^ rest.length :=
      Int.mul_le_mul_of_nonneg_right (by omega) hp
    have h3 : ((a + 1) * 10) * 10 ^ rest.length = (a + 1) * 10 ^ (c :: rest).length := by
      simp only [List.length_cons, pow_succ]; ring
    omega

theorem digits_from_split (ds : List Nat) :
    ∀ a : Int, digits_from a ds = a * 10 ^ ds.length + digits_from 0 ds := by
  induction ds with
  | nil => intro a; simp [digits_from]
  | cons c rest ih =>
    intro a
    rw [digits_from_cons, digits_from_cons, ih, ih (0 * 10 + ((c : Int) - 48))]
    simp only [List.length_cons, pow_succ]
    ring

theorem digits_from_append (a : Int) (ds es : List Nat) :
    digits_from a (ds ++ es) = digits_from (digits_from a ds) es := by
  simp [digits_from, List.foldl_append]

theorem wfold_append (a : Int) (ds es : List Nat) :
    wfold a (ds ++ es) = wfold (wfold a ds) es := by
  simp [wfold, List.foldl_append]

theorem wfold_eq (ds : List Nat) (hds : ∀ c ∈ ds, is_digit c = true) :
    ∀ a : Int, 0 ≤ a → digits_from a ds < 2147483648 → wfold a ds = digits_from a ds := by
  induction ds with
  | nil => intro a _ _; rfl
  | cons c rest ih =>
    intro a ha hlt
    have hc := (is_digit_iff c).1 (hds c (List.mem_cons_self _ _))
    have hrest : ∀ x ∈ rest, is_digit x = true := fun x hx => hds x (List.mem_cons_of_mem _ hx)
    rw [digits_from_cons] at hlt
    have hge := digits_from_ge rest hrest (a * 10 + ((c : Int) - 48)) (by omega)
    rw [wfold_cons, digits_from_cons, wrap32_id (by omega) (by omega)]
    exact ih hrest _ (by omega) hlt

theorem takeWhile_digit_all (str : List Nat) : ∀ c ∈ str.takeWhile is_digit, is_digit c = true :=
  fun _ hc => List.mem_takeWhile_imp hc

theorem take_digit_all (ds : List Nat) (n : Nat) (hds : ∀ c ∈ ds, is_digit c = true) :
    ∀ c ∈ ds.take n, is_digit c = true :=
  fun c hc => hds c (List.mem_of_mem_take hc)

/-! ## The loops of the scanners in closed form -/

theorem parse_number_int_run (str : List Nat) (hb : ∀ b ∈ str, b < 256) :
    ∀ (value : Int) (c0 : Nat),
      parse_number_int value c0 str =
        (wfold value (c0 :: str.takeWhile is_digit),
          hd (str.drop (str.takeWhile is_digit).length),
          (str.drop (str.takeWhile is_digit).length).tail) := by
  induction str with
  | nil => intro value c0; simp [parse_number_int, wfold, hd]
  | cons c rest ih =>
    intro value c0
    have hc := hb c (List.mem_cons_self _ _)
    have hrest : ∀ b ∈ rest, b < 256 := fun b hb2 => hb b (List.mem_cons_of_mem _ hb2)
    unfold parse_number_int
    simp only []
    rw [is_digit_0_to_9_eq c hc]
    by_cases hdg : is_digit c = true
    · simp only [hdg, if_true, ih hrest, List.takeWhile_cons, List.length_cons,
        List.drop_succ_cons]
      rfl
    · simp [hdg, wfold, hd]

theorem tdiv_iter_succ (f : Int) (n : Nat) : tdiv_iter f (n + 1) = tdiv_iter (Int.tdiv f 10) n :=
  rfl

theorem fraction_loop_run (str : List Nat) (hb : ∀ b ∈ str, b < 256) :
    ∀ (i : Nat) (value factor : Int) (c0 : Nat), 1 ≤ i → i ≤ 255 →
      fraction_loop i value factor c0 str =
        (wfold value ((c0 :: str.takeWhile is_digit).take i),
          tdiv_iter factor ((c0 :: str.takeWhile is_digit).take i).length) := by
  induction str with
  | nil =>
    intro i value factor c0 h1 _
    obtain ⟨k, rfl⟩ : ∃ k, i = k + 1 := ⟨i - 1, by omega⟩
    simp [fraction_loop, wfold, tdiv_iter]
  | cons c rest ih =>
    intro i value factor c0 h1 h2
    obtain ⟨k, rfl⟩ : ∃ k, i = k + 1 := ⟨i - 1, by omega⟩
    have hc := hb c (List.mem_cons_self _ _)
    have hrest : ∀ b ∈ rest, b < 256 := fun b hb2 => hb b (List.mem_cons_of_mem _ hb2)
    have hk : (k + 1 + 255) % 256 = k := by omega
    unfold fraction_loop
    simp only []
    rw [is_digit_0_to_9_eq c hc, hk]
    by_cases hdg : is_digit c = true
    · by_cases hk0 : k = 0
      · subst hk0
        simp [hdg, wfold, tdiv_iter]
      · have hk1 : 1 ≤ k := by omega
        simp only [hdg, Bool.true_and, bne_iff_ne, ne_eq, hk0, not_false_eq_true, if_true,
          ih hrest k _ _ c hk1 (by omega), List.takeWhile_cons, List.take_succ_cons,
          List.length_cons]
        rfl
    · simp [hdg, wfold, tdiv_iter]

/-! ## C13: `parse_number` and the number grammar -/

theorem hd_lt_of_bytes (l : List Nat) (hb : ∀ b ∈ l, b < 256) : hd l < 256 := by
  cases l with
  | nil => simp [hd]
  | cons c rest => simpa [hd] using hb c (List.mem_cons_self _ _)

theorem bytes_tail (l : List Nat) (hb : ∀ b ∈ l, b < 256) : ∀ b ∈ l.tail, b < 256 :=
  fun b h => hb b (List.mem_of_mem_tail h)

theorem bytes_drop (l : List Nat) (n : Nat) (hb : ∀ b ∈ l, b < 256) : ∀ b ∈ l.drop n, b < 256 :=
  fun b h => hb b (List.mem_of_mem_drop h)

theorem is_digit_hd_cons (l : List Nat) (h : is_digit (hd l) = true) : l = hd l :: l.tail := by
  cases l with
  | nil => simp [hd, is_digit] at h
  | cons c rest => rfl

theorem takeWhile_digit_of_not_hd (l : List Nat) (h : ¬ (is_digit (hd l) = true)) :
    l.takeWhile is_digit = [] := by
  cases l with
  | nil => rfl
  | cons c rest =>
    have hc : ¬ (is_digit c = true) := by simpa [hd] using h
    simp [List.takeWhile_cons, hc]

theorem takeWhile_digit_of_hd (l : List Nat) (h : is_digit (hd l) = true) :
    l.takeWhile is_digit = hd l :: l.tail.takeWhile is_digit := by
  cases l with
  | nil => simp [hd, is_digit] at h
  | cons c rest =>
    have hc : is_digit c = true := by simpa [hd] using h
    simp [List.takeWhile_cons, hc, hd]

theorem tdiv_iter_1000 (j : Nat) (hj : j ≤ 3) : tdiv_iter 1000 j = 10 ^ (3 - j) := by
  rcases j with _ | _ | _ | _ | j
  · rfl
  · rfl
  · rfl
  · rfl
  · omega

/-- The fraction part of `parse_number`, from the test of the `'.'` on: the
value and the factor it leaves. -/
theorem number_fraction_scan (value : Int) (c0 : Nat) (str : List Nat)
    (hb : ∀ b ∈ str, b < 256) :
    (if c0 = 46 then
        (if is_digit_0_to_9 (hd str) = true then
          fraction_loop 3 value GPS_VALUE_FACTOR (hd str) str.tail
        else (value, GPS_VALUE_FACTOR))
      else (value, GPS_VALUE_FACTOR))
    = (wfold value ((if c0 = 46 then str.takeWhile is_digit else []).take 3),
        tdiv_iter GPS_VALUE_FACTOR
          ((if c0 = 46 then str.takeWhile is_digit else []).take 3).length) := by
  by_cases h46 : c0 = 46
  · simp only [h46, if_true]
    rw [is_digit_0_to_9_eq _ (hd_lt_of_bytes str hb)]
    by_cases hdg : is_digit (hd str) = true
    · simp only [hdg, if_true]
      rw [fraction_loop_run str.tail (bytes_tail str hb) 3 _ _ _ (by decide) (by decide),
        takeWhile_digit_of_hd str hdg]
    · simp only [hdg, if_false, takeWhile_digit_of_not_hd str hdg]
      rfl
  · simp only [h46, if_false]
    rfl

theorem number_magnitude_eq (body : List Nat) (h45 : hd body ≠ 45) :
    number_magnitude body
      = digits_from 0 (body.takeWhile is_digit
          ++ (if hd (body.drop (body.takeWhile is_digit).length) = 46 then
                (body.drop (body.takeWhile is_digit).length).tail.takeWhile is_digit
              else []).take 3)
        * 10 ^ (3 - ((if hd (body.drop (body.takeWhile is_digit).length) = 46 then
                (body.drop (body.takeWhile is_digit).length).tail.takeWhile is_digit
              else []).take 3).length) := by
  have hbody : number_body body = body := by simp [number_body, h45]
  have hint : number_int body = body.takeWhile is_digit := by simp [number_int, hbody]
  have hfrac : number_frac body
      = if hd (body.drop (body.takeWhile is_digit).length) = 46 then
          (body.drop (body.takeWhile is_digit).length).tail.takeWhile is_digit
        else [] := by
    simp [number_frac, hbody, hint]
  unfold number_magnitude
  rw [hint, hfrac]
  generalize (if hd (body.drop (body.takeWhile is_digit).length) = 46 then
      (body.drop (body.takeWhile is_digit).length).tail.takeWhile is_digit else []) = fs
  have hlen : (fs.take 3).length = min fs.length 3 := by
    rw [List.length_take]; exact Nat.min_comm _ _
  have htake : fs.take (min fs.length 3) = fs.take 3 := by
    rcases Nat.le_total fs.length 3 with h | h
    · rw [Nat.min_eq_left h, List.take_of_length_le h, List.take_of_length_le (Nat.le_refl _)]
    · rw [Nat.min_eq_right h]
  rw [htake, digits_from_append, digits_from_split (fs.take 3), hlen]
  rfl

theorem scaled_fits (sign : Int) (hs : sign = 1 ∨ sign = -1) (V : Int) (j : Nat) (hj : j ≤ 3)
    (hV : 0 ≤ V) (hfit : V * 10 ^ (3 - j) < 2147483648) :
    V < 2147483648
      ∧ wrap32 (wrap32 (V * tdiv_iter GPS_VALUE_FACTOR j) * sign) = sign * (V * 10 ^ (3 - j)) := by
  rw [show GPS_VALUE_FACTOR = 1000 from rfl, tdiv_iter_1000 j hj]
  have hpow : (10 : Int) ^ (3 - j) = 1 ∨ (10 : Int) ^ (3 - j) = 10
      ∨ (10 : Int) ^ (3 - j) = 100 ∨ (10 : Int) ^ (3 - j) = 1000 := by
    rcases j with _ | _ | _ | _ | j
    · right; right; right; rfl
    · right; right; left; rfl
    · right; left; rfl
    · left; rfl
    · omega
  generalize (10 : Int) ^ (3 - j) = P at hfit hpow ⊢
  have h1 : V < 2147483648 := by
    rcases hpow with h | h | h | h <;> subst h <;> omega
  have h2 : 0 ≤ V * P := by
    rcases hpow with h | h | h | h <;> subst h <;> omega
  refine ⟨h1, ?_⟩
  rw [wrap32_id (by omega) hfit]
  rcases hs with h | h <;> subst h
  · rw [wrap32_id (by omega) (by omega)]; ring
  · rw [wrap32_id (by omega) (by omega)]; ring

theorem number_digits_value (sign : Int) (hs : sign = 1 ∨ sign = -1) (body : List Nat)
    (hb : ∀ b ∈ body, b < 256) (hdg : is_digit (hd body) = true)
    (hfit : number_magnitude body < 2147483648) :
    (match parse_number_int 0 (hd body) body.tail with
      | (value, c0, str) =>
        match (if c0 = 46 then
            (if is_digit_0_to_9 (hd str) = true then
              fraction_loop 3 value GPS_VALUE_FACTOR (hd str) str.tail
            else (value, GPS_VALUE_FACTOR))
          else (value, GPS_VALUE_FACTOR)) with
        | (value, factor) => wrap32 (wrap32 (value * factor) * sign))
      = sign * number_magnitude body := by
  have h45 : hd body ≠ 45 := by
    intro h; rw [h] at hdg; revert hdg; decide
  have hI : body.takeWhile is_digit = hd body :: body.tail.takeWhile is_digit :=
    takeWhile_digit_of_hd body hdg
  have hdrop : body.tail.drop (body.tail.takeWhile is_digit).length
      = body.drop (body.takeWhile is_digit).length := by
    rw [hI]
    conv_rhs => rw [is_digit_hd_cons body hdg]
    simp
  rw [number_magnitude_eq body h45] at hfit ⊢
  rw [parse_number_int_run body.tail (bytes_tail body hb)]
  simp only []
  rw [number_fraction_scan _ _ _ (bytes_tail _ (bytes_drop _ _ (bytes_tail body hb)))]
  simp only []
  rw [← wfold_append, ← hI, hdrop]
  obtain ⟨fs, hfs⟩ : ∃ fs, fs = (if hd (body.drop (body.takeWhile is_digit).length) = 46 then
      (body.drop (body.takeWhile is_digit).length).tail.takeWhile is_digit else []) := ⟨_, rfl⟩
  rw [← hfs] at hfit ⊢
  have hfsall : ∀ c ∈ fs.take 3, is_digit c = true := by
    intro c hc
    have hc2 := List.mem_of_mem_take hc
    rw [hfs] at hc2
    split_ifs at hc2
    · exact takeWhile_digit_all _ c hc2
    · simp at hc2
  have hall : ∀ c ∈ body.takeWhile is_digit ++ fs.take 3, is_digit c = true := by
    intro c hc
    rcases List.mem_append.1 hc with h | h
    · exact takeWhile_digit_all body c h
    · exact hfsall c h
  have hj : (fs.take 3).length ≤ 3 := by
    rw [List.length_take]; exact Nat.min_le_left _ _
  have hnn : 0 ≤ digits_from 0 (body.takeWhile is_digit ++ fs.take 3) :=
    digits_from_ge _ hall 0 (by decide)
  obtain ⟨hlt, hres⟩ := scaled_fits sign hs _ _ hj hnn hfit
  rw [wfold_eq _ hall 0 (by decide) hlt]
  exact hres

theorem parse_number_invalid (token : List Nat) (hb : ∀ b ∈ token, b < 256)
    (h : number_int token = []) : parse_number token = GPS_INVALID_VALUE := by
  unfold parse_number
  by_cases h0 : hd token = 0
  · simp only [h0, if_true]
  by_cases hm : hd token = 45
  · have hbody : number_body token = token.tail := by simp [number_body, hm]
    rw [number_int, hbody] at h
    have hnd : ¬ (is_digit (hd token.tail) = true) := by
      intro hdg
      rw [takeWhile_digit_of_hd _ hdg] at h
      simp at h
    have hnd2 : ¬ (is_digit_0_to_9 (hd token.tail) = true) := by
      rw [is_digit_0_to_9_eq _ (hd_lt_of_bytes _ (bytes_tail token hb))]; exact hnd
    simp [h0, hm, hnd2]
  · have hbody : number_body token = token := by simp [number_body, hm]
    rw [number_int, hbody] at h
    have hnd : ¬ (is_digit (hd token) = true) := by
      intro hdg
      rw [takeWhile_digit_of_hd _ hdg] at h
      simp at h
    have hnd2 : ¬ (is_digit_0_to_9 (hd token) = true) := by
      rw [is_digit_0_to_9_eq _ (hd_lt_of_bytes _ hb)]; exact hnd
    simp [h0, hm, hnd2]

theorem parse_number_valid (token : List Nat) (hb : ∀ b ∈ token, b < 256)
    (h : number_int token ≠ []) (hfit : number_magnitude token < 2147483648) :
    parse_number token = number_sign token * number_magnitude token := by
  unfold parse_number
  by_cases hm : hd token = 45
  · have h0 : hd token ≠ 0 := by rw [hm]; decide
    have hbody : number_body token = token.tail := by simp [number_body, hm]
    have hdg : is_digit (hd token.tail) = true := by
      by_contra hnd
      apply h
      rw [number_int, hbody, takeWhile_digit_of_not_hd _ hnd]
    have hdg2 : is_digit_0_to_9 (hd token.tail) = true := by
      rw [is_digit_0_to_9_eq _ (hd_lt_of_bytes _ (bytes_tail token hb))]; exact hdg
    have h45 : hd token.tail ≠ 45 := by
      intro h2; rw [h2] at hdg; revert hdg; decide
    have hbody2 : number_body token.tail = token.tail := by simp [number_body, h45]
    have hmag : number_magnitude token = number_magnitude token.tail := by
      simp only [number_magnitude, number_frac, number_int, hbody, hbody2]
    have hsign : number_sign token = -1 := by simp [number_sign, hm]
    rw [hmag] at hfit ⊢
    rw [hsign]
    simp only [h0, if_false, hm, if_true, hdg2]
    exact number_digits_value (-1) (Or.inr rfl) token.tail (bytes_tail token hb) hdg hfit
  · have hbody : number_body token = token := by simp [number_body, hm]
    have hdg : is_digit (hd token) = true := by
      by_contra hnd
      apply h
      rw [number_int, hbody, takeWhile_digit_of_not_hd _ hnd]
    have hdg2 : is_digit_0_to_9 (hd token) = true := by
      rw [is_digit_0_to_9_eq _ (hd_lt_of_bytes _ hb)]; exact hdg
    have h0 : hd token ≠ 0 := by
      intro h2; rw [h2] at hdg; revert hdg; decide
    have hsign : number_sign token = 1 := by simp [number_sign, hm]
    rw [hsign]
    simp only [h0, if_false, hm, hdg2, if_true]
    exact number_digits_value 1 (Or.inl rfl) token hb hdg hfit

theorem number_magnitude_nonneg (token : List Nat) : 0 ≤ number_magnitude token := by
  unfold number_magnitude
  have h1 : 0 ≤ digits_value (number_int token) :=
    digits_from_ge _ (takeWhile_digit_all _) 0 (by decide)
  have hfr : ∀ c ∈ number_frac token, is_digit c = true := by
    intro c hc
    unfold number_frac at hc
    split_ifs at hc
    · exact takeWhile_digit_all _ c hc
    · simp at hc
  have h2 : 0 ≤ digits_value ((number_frac token).take (min (number_frac token).length 3)) :=
    digits_from_ge _ (take_digit_all _ _ hfr) 0 (by decide)
  positivity

set_option maxRecDepth 100000 in
/-- C13: `parse_number` equals the grammar `-?[0-9]+(\.[0-9]{1,3})?`: when no
digit follows the optional `'-'` (an empty token included) the result is
`GPS_INVALID_VALUE`; otherwise, with `I` the digit run, `F` the value of the
first `j = min(k,3)` of the `k` digits after a `'.'` (none when no `'.'`
follows `I`) and whatever characters after them, the result is
`sign * ((I * 10^j + F) * 10^(3-j))` provided this magnitude fits in 32 bits. -/
theorem parse_number_grammar (token : List Nat) (hb : ∀ b ∈ token, b < 256) :
    (number_int token = [] → parse_number token = GPS_INVALID_VALUE)
      ∧ (number_int token ≠ [] → number_magnitude token < 2147483648 →
          parse_number token = number_sign token
            * ((digits_value (number_int token) * 10 ^ (min (number_frac token).length 3)
                + digits_value ((number_frac token).take (min (number_frac token).length 3)))
              * 10 ^ (3 - min (number_frac token).length 3)))
      ∧ (parse_number (bytes "176.90") = 176900 ∧ parse_number (bytes "-25.669") = -25669
          ∧ parse_number (bytes "0031") = 31000 ∧ parse_number (bytes "1.23456") = 1234
          ∧ parse_number (bytes "7.") = 7000 ∧ parse_number (bytes "12abc") = 12000
          ∧ parse_number (bytes "3.6,x") = 3600
          ∧ parse_number (bytes "") = GPS_INVALID_VALUE
          ∧ parse_number (bytes "-") = GPS_INVALID_VALUE
          ∧ parse_number (bytes ".5") = GPS_INVALID_VALUE
          ∧ parse_number (bytes "x1") = GPS_INVALID_VALUE) :=
  ⟨parse_number_invalid token hb, parse_number_valid token hb, by decide⟩

set_option maxRecDepth 100000 in
/-- The theorem `parse_number_grammar` at the token "-25.669". -/
theorem parse_number_grammar_witness :
    (∀ b ∈ bytes "-25.669", b < 256) ∧ number_int (bytes "-25.669") = bytes "25"
      ∧ number_frac (bytes "-25.669") = bytes "669" ∧ number_sign (bytes "-25.669") = -1
      ∧ parse_number (bytes "-25.669") = -1 * ((25 * 10 ^ 3 + 669) * 10 ^ 0) :=
  ⟨by decide, by decide, by decide, by decide,
    (parse_number_grammar (bytes "-25.669") (by decide)).2.1 (by decide) (by decide)⟩

/-! ## C14: `parse_speed` -/

theorem tdiv_eq_trunc_div (a : Int) (b : Nat) : Int.tdiv a (b : Int) = trunc_div a b := by
  unfold trunc_div
  cases a with
  | ofNat n =>
    show Int.ofNat (n / b) = Int.sign (Int.ofNat n) * ((n / b : Nat) : Int)
    cases n with
    | zero => simp
    | succ n =>
      have h1 : Int.sign (Int.ofNat (n + 1)) = 1 := rfl
      rw [h1, Int.one_mul]
      rfl
  | negSucc n =>
    show -Int.ofNat ((n + 1) / b) = Int.sign (Int.negSucc n) * (((n + 1) / b : Nat) : Int)
    have h1 : Int.sign (Int.negSucc n) = -1 := rfl
    rw [h1]
    simp

set_option maxRecDepth 100000 in
/-- C14: with `v` the value `parse_number` returns on the token, unit `'K'`
yields `v * 10 / 36` and unit `'N'` yields `v * 1000 / 1944`, the division
truncating toward zero, when the product is inside the 32-bit range; every
other unit yields `GPS_INVALID_VALUE` whatever the token.  The VTG sentence
of the tests gives track 176900 and speed 1891. -/
theorem parse_speed_conversion (token : List Nat) (unit : Nat) :
    (unit = 75 → -2147483648 ≤ parse_number token * 10 →
        parse_number token * 10 < 2147483648 →
        parse_speed token unit = trunc_div (parse_number token * 10) 36)
      ∧ (unit = 78 → -2147483648 ≤ parse_number token * 1000 →
        parse_number token * 1000 < 2147483648 →
        parse_speed token unit = trunc_div (parse_number token * 1000) 1944)
      ∧ (unit ≠ 75 → unit ≠ 78 → parse_speed token unit = GPS_INVALID_VALUE)
      ∧ (trunc_div 68100 36 = 1891 ∧ trunc_div (-68100) 36 = -1891
          ∧ trunc_div 3680000 1944 = 1893)
      ∧ (gps_decode init_tpv vtg_sentence).map (fun d => (d.code, d.tpv.track, d.tpv.speed))
          = some (GPS_OK, 176900, 1891) := by
  refine ⟨?_, ?_, ?_, by decide, by decide⟩
  · intro hu h1 h2
    simp only [parse_speed, hu, if_true]
    rw [wrap32_id h1 h2]
    exact tdiv_eq_trunc_div _ 36
  · intro hu h1 h2
    have hne : ¬ ((78 : Nat) = 75) := by decide
    simp only [parse_speed, hu, hne, if_false, if_true]
    rw [wrap32_id h1 h2]
    exact tdiv_eq_trunc_div _ 1944
  · intro h1 h2
    simp only [parse_speed, h1, h2, if_false]

set_option maxRecDepth 100000 in
/-- The theorem `parse_speed_conversion` at the speed fields of the VTG
sentence of the tests. -/
theorem parse_speed_conversion_witness :
    parse_number (bytes "6.81") = 6810 ∧ parse_speed (bytes "6.81") 75 = trunc_div 68100 36
      ∧ parse_number (bytes "3.68") = 3680
      ∧ parse_speed (bytes "3.68") 78 = trunc_div 3680000 1944
      ∧ parse_speed (bytes "3.68") 77 = GPS_INVALID_VALUE :=
  ⟨by decide,
    (parse_speed_conversion (bytes "6.81") 75).1 rfl (by decide) (by decide),
    by decide,
    (parse_speed_conversion (bytes "3.68") 78).2.1 rfl (by decide) (by decide),
    (parse_speed_conversion (bytes "3.68") 77).2.2.1 (by decide) (by decide)⟩

/-! ## C15 and C16: the sentinel and the scale factor -/

/-- C15 (amended): for every token that matches the number grammar and whose
scaled magnitude `(I * 10^j + F) * 10^(3-j)` is below 2147483647,
`parse_number` returns a value different from `GPS_INVALID_VALUE`. -/
theorem parse_number_not_sentinel (token : List Nat) (hb : ∀ b ∈ token, b < 256)
    (h : number_int token ≠ []) (hfit : number_magnitude token < 2147483647) :
    parse_number token ≠ GPS_INVALID_VALUE := by
  rw [parse_number_valid token hb h (by omega)]
  have hnn := number_magnitude_nonneg token
  have hs : number_sign token = 1 ∨ number_sign token = -1 := by
    unfold number_sign; split_ifs
    · right; rfl
    · left; rfl
  have hv : GPS_INVALID_VALUE = 2147483647 := rfl
  rw [hv]
  rcases hs with h1 | h1 <;> rw [h1] <;> omega

set_option maxRecDepth 100000 in
/-- The theorem `parse_number_not_sentinel` at the token "2147483.646". -/
theorem parse_number_not_sentinel_witness :
    number_int (bytes "2147483.646") = bytes "2147483"
      ∧ number_magnitude (bytes "2147483.646") = 2147483646
      ∧ parse_number (bytes "2147483.646") ≠ GPS_INVALID_VALUE :=
  ⟨by decide, by decide,
    parse_number_not_sentinel (bytes "2147483.646") (by decide) (by decide) (by decide)⟩

set_option maxRecDepth 100000 in
/-- C15 as stated fails: the token "2147483.647" matches the number grammar,
no intermediate value overflows, and `parse_number` returns 2147483647, the
sentinel itself. -/
theorem parse_number_sentinel_counterexample :
    number_int (bytes "2147483.647") = bytes "2147483"
      ∧ number_frac (bytes "2147483.647") = bytes "647"
      ∧ number_magnitude (bytes "2147483.647") = 2147483647
      ∧ parse_number (bytes "2147483.647") = GPS_INVALID_VALUE := by
  decide

set_option maxRecDepth 100000 in
/-- C16 (amended): on the token "12.5" the integer loop leaves the value 12
at the `'.'`, the fraction loop accumulates the value 125 and leaves the
factor 100, and `parse_number` returns 125 * 100 = 12500, that is 12.5 times
1000. -/
theorem parse_number_12_5 :
    parse_number_int 0 49 (bytes "2.5") = (12, 46, bytes "5")
      ∧ fraction_loop 3 12 GPS_VALUE_FACTOR 53 [] = (125, 100)
      ∧ (125 : Int) * 100 * 1 = 12500
      ∧ parse_number (bytes "12.5") = 12500 := by
  decide

set_option maxRecDepth 100000 in
/-- C16 as stated fails: `parse_number` on "12.5" does not return 1250. -/
theorem parse_number_12_5_counterexample :
    parse_number (bytes "12.5") ≠ 1250 ∧ parse_number (bytes "12.5") = 12500 := by
  decide

/-! ## C12: `parse_angular_distance` and the angular grammar -/

theorem angular_digits_run (i : Nat) :
    ∀ (acc : Int) (t : List Nat), (∀ b ∈ t, b < 256) →
      angular_digits i acc (hd t) t.tail =
        if (t.take i).length = i ∧ (t.take i).all is_digit = true then
          some (wfold acc (t.take i), hd (t.drop i), (t.drop i).tail)
        else none := by
  induction i with
  | zero => intro acc t _; simp [angular_digits, wfold]
  | succ i ih =>
    intro acc t hb
    unfold angular_digits
    rw [is_digit_0_to_9_eq _ (hd_lt_of_bytes t hb)]
    by_cases hdg : is_digit (hd t) = true
    · have ht := is_digit_hd_cons t hdg
      simp only [hdg, if_true]
      rw [ih _ _ (bytes_tail t hb)]
      conv_rhs => rw [ht]
      simp only [List.take_succ_cons, List.length_cons, List.all_cons, hdg, Bool.true_and,
        List.drop_succ_cons, Nat.add_right_cancel_iff, wfold_cons]
    · simp only [hdg, Bool.false_eq_true, if_false]
      cases t with
      | nil => simp
      | cons c rest =>
        have hc : is_digit c = false := by simpa [hd] using hdg
        simp [hc]

theorem tdiv_iter_million (j : Nat) (hj : j ≤ 6) :
    tdiv_iter GPS_LAT_LON_FACTOR j = 10 ^ (6 - j) := by
  rcases j with _ | _ | _ | _ | _ | _ | _ | j
  · rfl
  · rfl
  · rfl
  · rfl
  · rfl
  · rfl
  · rfl
  · omega

theorem angular_value_fits (sign : Int) (hs : sign = 1 ∨ sign = -1) (D M : Int) (u : List Nat)
    (hu : ∀ c ∈ u, is_digit c = true) (hu1 : 1 ≤ u.length) (hu6 : u.length ≤ 6)
    (hD0 : 0 ≤ D) (hD : D < 1000) (hM0 : 0 ≤ M) (hM : M < 100) :
    wrap32 (wrap32 (wrap32 (D * GPS_LAT_LON_FACTOR)
        + Int.tdiv (wrap32 (wfold M u * tdiv_iter GPS_LAT_LON_FACTOR u.length)) 60) * sign)
      = sign * (D * 10 ^ 6
          + Int.tdiv ((M * 10 ^ u.length + digits_value u) * 10 ^ (6 - u.length)) 60) := by
  have hX0 : 0 ≤ digits_from M u := Int.le_trans hM0 (digits_from_ge u hu M hM0)
  have hXlt := digits_from_lt u hu M hM0
  have hsplit := digits_from_split u M
  rw [tdiv_iter_million _ hu6, show GPS_LAT_LON_FACTOR = 1000000 from rfl]
  have hfit : digits_from M u < 2147483648 ∧ 0 ≤ digits_from M u * 10 ^ (6 - u.length)
      ∧ digits_from M u * 10 ^ (6 - u.length) < 100000000 := by
    generalize u.length = j at hu1 hu6 hXlt
    generalize digits_from M u = X at hX0 hXlt
    interval_cases j <;> norm_num at hXlt ⊢ <;> omega
  rw [wfold_eq u hu M hM0 hfit.1]
  rw [show digits_value u = digits_from 0 u from rfl, ← hsplit]
  generalize digits_from M u * 10 ^ (6 - u.length) = Y at hfit
  have hY0 := hfit.2.1
  have hY := hfit.2.2
  have h1 : wrap32 (D * 1000000) = D * 1000000 := wrap32_id (by omega) (by omega)
  have h2 : wrap32 Y = Y := wrap32_id (by omega) (by omega)
  rw [h1, h2, Int.tdiv_eq_ediv hY0 (by decide)]
  have h3 : wrap32 (D * 1000000 + Y / 60) = D * 1000000 + Y / 60 :=
    wrap32_id (by omega) (by omega)
  rw [h3]
  rcases hs with h | h <;> subst h
  · rw [wrap32_id (by omega) (by omega)]; ring
  · rw [wrap32_id (by omega) (by omega)]; ring

theorem take_min_length (l : List Nat) (n : Nat) : l.take (min l.length n) = l.take n := by
  by_cases h : l.length ≤ n
  · rw [Nat.min_eq_left h, List.take_of_length_le (Nat.le_refl _), List.take_of_length_le h]
  · rw [Nat.min_eq_right (by omega)]

theorem tail_drop_drop (w : Nat) (token : List Nat) :
    ((token.drop w).drop 2).tail = token.drop (w + 3) := by
  rw [List.tail_drop, List.drop_drop]

theorem angular_matches_iff (w : Nat) (token : List Nat) :
    angular_matches w token = true ↔
      ((token.take w).length = w ∧ (token.take w).all is_digit = true)
        ∧ (((token.drop w).take 2).length = 2 ∧ ((token.drop w).take 2).all is_digit = true)
        ∧ hd ((token.drop w).drop 2) = 46
        ∧ is_digit (hd ((token.drop w).drop 2).tail) = true := by
  have hfrac : angular_frac w token ≠ [] ↔ is_digit (hd ((token.drop w).drop 2).tail) = true := by
    rw [tail_drop_drop]
    unfold angular_frac
    by_cases hdg : is_digit (hd (token.drop (w + 3))) = true
    · rw [takeWhile_digit_of_hd _ hdg]; simp [hdg]
    · rw [takeWhile_digit_of_not_hd _ hdg]; simp [hdg]
  have hrd : rd token (w + 2) = hd ((token.drop w).drop 2) := by
    rw [rd_eq_hd_drop, List.drop_drop, Nat.add_comm]
  unfold angular_matches
  rw [List.take_add, hrd]
  simp only [Bool.and_eq_true, decide_eq_true_eq, List.all_append, List.length_append, hfrac]
  have h1 := List.length_take_le w token
  have h2 := List.length_take_le 2 (token.drop w)
  constructor
  · rintro ⟨⟨⟨hl, ha, hb⟩, h46⟩, hd⟩
    exact ⟨⟨by omega, ha⟩, ⟨by omega, hb⟩, h46, hd⟩
  · rintro ⟨⟨hl, ha⟩, ⟨hl2, hb⟩, h46, hd⟩
    exact ⟨⟨⟨by omega, ha, hb⟩, h46⟩, hd⟩

theorem angular_core (sign : Int) (hs : sign = 1 ∨ sign = -1) (w : Nat) (hw1 : 1 ≤ w)
    (hw3 : w ≤ 3) (token : List Nat) (hb : ∀ b ∈ token, b < 256) :
    (if hd token = 0 then GPS_INVALID_VALUE
      else
        match angular_digits w 0 (hd token) token.tail with
        | none => GPS_INVALID_VALUE
        | some st => angular_minutes sign st)
      = if angular_matches w token = true then
          sign * (digits_value (token.take w) * 10 ^ 6
            + Int.tdiv
                ((digits_value ((token.drop w).take 2) * 10 ^ (min (angular_frac w token).length 6)
                    + digits_value
                        ((angular_frac w token).take (min (angular_frac w token).length 6)))
                  * 10 ^ (6 - min (angular_frac w token).length 6)) 60)
        else GPS_INVALID_VALUE := by
  rw [angular_digits_run w 0 token hb]
  by_cases hA : (token.take w).length = w ∧ (token.take w).all is_digit = true
  swap
  · have hm : ¬ (angular_matches w token = true) := fun h => hA ((angular_matches_iff w token).1 h).1
    simp only [hA, if_false, hm]
    split <;> rfl
  have h0 : hd token ≠ 0 := by
    intro h0
    cases token with
    | nil => simp at hA; omega
    | cons c rest =>
      have hc : c = 0 := by simpa [hd] using h0
      subst hc
      obtain ⟨v, hv⟩ : ∃ v, w = v + 1 := ⟨w - 1, by omega⟩
      subst hv
      simp [is_digit] at hA
  simp only [h0, if_false, hA, and_self, if_true]
  unfold angular_minutes
  simp only []
  rw [angular_digits_run 2 0 (token.drop w) (bytes_drop token w hb)]
  by_cases hB : ((token.drop w).take 2).length = 2 ∧ ((token.drop w).take 2).all is_digit = true
  swap
  · have hm : ¬ (angular_matches w token = true) :=
      fun h => hB ((angular_matches_iff w token).1 h).2.1
    simp only [hB, if_false, hm, Bool.false_eq_true]
  simp only [hB, and_self, if_true]
  unfold angular_finish
  simp only []
  by_cases h46 : hd ((token.drop w).drop 2) = 46
  swap
  · have hm : ¬ (angular_matches w token = true) :=
      fun h => h46 ((angular_matches_iff w token).1 h).2.2.1
    simp only [h46, ne_eq, not_false_eq_true, if_true, hm, if_false, Bool.false_eq_true]
  have hr3b : ∀ b ∈ ((token.drop w).drop 2).tail, b < 256 :=
    bytes_tail _ (bytes_drop _ 2 (bytes_drop token w hb))
  rw [is_digit_0_to_9_eq _ (hd_lt_of_bytes _ hr3b)]
  by_cases hdg : is_digit (hd ((token.drop w).drop 2).tail) = true
  swap
  · have hm : ¬ (angular_matches w token = true) :=
      fun h => hdg ((angular_matches_iff w token).1 h).2.2.2
    simp only [h46, ne_eq, not_true_eq_false, if_false, hdg, hm, Bool.false_eq_true]
  have hm : angular_matches w token = true := (angular_matches_iff w token).2 ⟨hA, hB, h46, hdg⟩
  simp only [h46, ne_eq, not_true_eq_false, if_false, hdg, if_true, hm]
  rw [fraction_loop_run _ (bytes_tail _ hr3b) 6 _ _ _ (by decide) (by decide),
    ← takeWhile_digit_of_hd _ hdg]
  have hr := tail_drop_drop w token
  rw [hr]
  have hf : (token.drop (w + 3)).takeWhile is_digit = angular_frac w token := rfl
  rw [hf]
  have hfne : angular_frac w token ≠ [] := by
    rw [← hf, ← hr, takeWhile_digit_of_hd _ hdg]; simp
  have hAd : ∀ c ∈ token.take w, is_digit c = true := by
    have := hA.2; simpa [List.all_eq_true] using this
  have hBd : ∀ c ∈ (token.drop w).take 2, is_digit c = true := by
    have := hB.2; simpa [List.all_eq_true] using this
  have hD0 : (0 : Int) ≤ digits_from 0 (token.take w) := digits_from_ge _ hAd 0 (Int.le_refl _)
  have hD : digits_from 0 (token.take w) < 1000 := by
    have h := digits_from_lt _ hAd 0 (Int.le_refl _)
    rw [hA.1] at h
    have : w = 1 ∨ w = 2 ∨ w = 3 := by omega
    rcases this with h1 | h1 | h1 <;> subst h1 <;> norm_num at h <;> omega
  have hM0 : (0 : Int) ≤ digits_from 0 ((token.drop w).take 2) :=
    digits_from_ge _ hBd 0 (Int.le_refl _)
  have hM : digits_from 0 ((token.drop w).take 2) < 100 := by
    have h := digits_from_lt _ hBd 0 (Int.le_refl _)
    rw [hB.1] at h
    norm_num at h
    exact h
  rw [wfold_eq _ hAd 0 (Int.le_refl _) (by omega), wfold_eq _ hBd 0 (Int.le_refl _) (by omega)]
  have hu : ∀ c ∈ (angular_frac w token).take 6, is_digit c = true :=
    take_digit_all _ 6 (takeWhile_digit_all _)
  have hlen : ((angular_frac w token).take 6).length = min (angular_frac w token).length 6 := by
    rw [List.length_take, Nat.min_comm]
  have hpos : 1 ≤ (angular_frac w token).length := by
    cases hfr : angular_frac w token with
    | nil => exact absurd hfr hfne
    | cons c rest => simp
  rw [angular_value_fits sign hs _ _ _ hu (by rw [hlen]; omega) (by rw [hlen]; omega)
    hD0 hD hM0 hM, hlen, take_min_length]
  rfl

/-- C12: `parse_angular_distance` equals its reference grammar `angular_ref`.
For direction `N` or `S` (prefix width 2) and `E` or `W` (width 3), a token of
bytes that begins with the degree digits `D`, two arc-minute digits `M`, a
`'.'` and `k ≥ 1` fraction digits, of which the first `j = min k 6` have the
value `F`, yields `sign * (D * 10^6 + trunc((M * 10^j + F) * 10^(6-j) / 60))`;
every other token and every other direction yields `GPS_INVALID_VALUE`. -/
theorem parse_angular_distance_grammar (token : List Nat) (direction : Nat)
    (hb : ∀ b ∈ token, b < 256) :
    parse_angular_distance token direction = angular_ref token direction := by
  rw [parse_angular_distance_eq]
  unfold angular_ref angular_width
  by_cases hN : direction = 78
  · simp only [hN, if_true]
    exact angular_core 1 (Or.inl rfl) 2 (by decide) (by decide) token hb
  by_cases hS : direction = 83
  · simp only [hS, if_true]
    exact angular_core (-1) (Or.inr rfl) 2 (by decide) (by decide) token hb
  by_cases hE : direction = 69
  · simp only [hE, if_true]
    exact angular_core 1 (Or.inl rfl) 3 (by decide) (by decide) token hb
  by_cases hW : direction = 87
  · simp only [hW, if_true]
    exact angular_core (-1) (Or.inr rfl) 3 (by decide) (by decide) token hb
  simp only [hN, hS, hE, hW, if_false]
  split <;> rfl

set_option maxRecDepth 100000 in
/-- C12 at the token "4807.038" with direction `'N'`: the grammar matches and
the value is 48117300; with direction `'X'` the value is the sentinel. -/
theorem parse_angular_distance_grammar_witness :
    (∀ b ∈ bytes "4807.038", b < 256)
      ∧ parse_angular_distance (bytes "4807.038") 78 = angular_ref (bytes "4807.038") 78
      ∧ angular_ref (bytes "4807.038") 78 = 48117300
      ∧ angular_ref (bytes "4807.038") 88 = GPS_INVALID_VALUE
      ∧ angular_ref (bytes "4807") 78 = GPS_INVALID_VALUE :=
  ⟨by decide, parse_angular_distance_grammar (bytes "4807.038") 78 (by decide), by decide,
    by decide, by decide⟩

/-! ## C11: checksum characters that are not hexadecimal digits -/

set_option maxRecDepth 100000 in
/-- C11, the behaviour of the code: `hex_char_to_uint8` maps a character that
is no hexadecimal digit to 0, so such a character is read as the digit `0`.
The test sentence closed with "??" is rejected with `GPS_ERROR_CHECKSUM`
because its body does not have the checksum 0, but a GSA sentence whose body
has the checksum 0x30 closed with "3?", and one whose body has the checksum
0x00 closed with "??", pass every gate and are decoded with `GPS_OK`. -/
theorem nonhex_checksum_accepted :
    hex_char_to_uint8 63 = 0 ∧ build_hex_byte 51 63 = 48 ∧ build_hex_byte 63 63 = 0
      ∧ (gps_decode init_tpv gga_nonhex_sentence).map (fun d => d.code)
          = some GPS_ERROR_CHECKSUM
      ∧ xor_bytes (bytes "GPGSA,A,3") = 48
      ∧ (gps_decode init_tpv gsa_nonhex_low).map (fun d => (d.code, d.tpv.mode))
          = some (GPS_OK, gps_mode.GPS_MODE_3D_FIX)
      ∧ xor_bytes (bytes "GPGSA,A,3,A]") = 0
      ∧ (gps_decode init_tpv gsa_nonhex_both).map (fun d => (d.code, d.tpv.mode))
          = some (GPS_OK, gps_mode.GPS_MODE_3D_FIX) := by
  decide

/-! ## C17 to C20: the temporal reconstructors -/

theorem is_char_in_range_of_le (c k : Nat) (h1 : 48 ≤ c) (h2 : c ≤ k) (hk : k ≤ 57) :
    is_char_in_range c 48 k = true := by
  unfold is_char_in_range
  simp only [decide_eq_true_eq]
  omega

theorem write_at_length (ds : List Nat) :
    ∀ (p : Nat) (d : List Nat), (write_at p ds d).length = d.length := by
  induction ds with
  | nil => intro p d; rfl
  | cons x ds ih => intro p d; simp only [write_at, ih, List.length_set]

theorem write_at_getElem (ds : List Nat) :
    ∀ (p : Nat) (d : List Nat) (j : Nat), p + ds.length ≤ d.length →
      (write_at p ds d)[j]? = if p ≤ j ∧ j < p + ds.length then ds[j - p]? else d[j]? := by
  induction ds with
  | nil =>
    intro p d j _
    have : ¬ (p ≤ j ∧ j < p + ([] : List Nat).length) := by simp
    simp only [write_at, this, if_false]
  | cons x ds ih =>
    intro p d j h
    simp only [List.length_cons] at h
    simp only [write_at]
    rw [ih (p + 1) (d.set p x) j (by simp only [List.length_set]; omega)]
    by_cases hjp : j = p
    · subst hjp
      have h1 : ¬ (j + 1 ≤ j ∧ j < j + 1 + ds.length) := by omega
      have h2 : j ≤ j ∧ j < j + (x :: ds).length := by simp
      simp only [h1, h2, if_false, and_self, if_true, Nat.sub_self, List.getElem?_cons_zero]
      rw [List.getElem?_set_self (by omega)]
    · rw [List.getElem?_set_ne (fun h => hjp h.symm)]
      by_cases hin : p + 1 ≤ j ∧ j < p + 1 + ds.length
      · have h2 : p ≤ j ∧ j < p + (x :: ds).length := by simp only [List.length_cons]; omega
        obtain ⟨v, hv⟩ : ∃ v, j - p = v + 1 := ⟨j - p - 1, by omega⟩
        have hv2 : j - (p + 1) = v := by omega
        simp only [hin, h2, and_self, if_true, hv, hv2, List.getElem?_cons_succ]
      · have h2 : ¬ (p ≤ j ∧ j < p + (x :: ds).length) := by
          simp only [List.length_cons]; omega
        simp only [hin, h2, if_false]

theorem copy_digits_write (base n : Nat) (nmea : List Nat) (hb : ∀ b ∈ nmea, b < 256) :
    ∀ (i c0 : Nat) (destination : List Nat), c0 < 256 →
      copy_digits base n i c0 nmea destination
        = write_at (base + i) (((c0 :: nmea).takeWhile is_digit).take (n - i)) destination := by
  induction nmea with
  | nil =>
    intro i c0 destination hc
    unfold copy_digits
    rw [is_digit_0_to_9_eq c0 hc]
    by_cases hdg : is_digit c0 = true
    · by_cases hin : i < n
      · obtain ⟨v, hv⟩ : ∃ v, n - i = v + 1 := ⟨n - i - 1, by omega⟩
        simp [hdg, hin, hv, write_at]
      · have hz : n - i = 0 := by omega
        simp [hdg, hin, hz, write_at]
    · simp [hdg, write_at]
  | cons c rest ih =>
    intro i c0 destination hc
    unfold copy_digits
    rw [is_digit_0_to_9_eq c0 hc]
    by_cases hdg : is_digit c0 = true
    · by_cases hin : i < n
      · obtain ⟨v, hv⟩ : ∃ v, n - i = v + 1 := ⟨n - i - 1, by omega⟩
        have hv2 : n - (i + 1) = v := by omega
        simp only [hdg, hin, decide_True, Bool.and_self, if_true]
        rw [ih (fun b h => hb b (List.mem_cons_of_mem _ h)) (i + 1) c _
          (hb c (List.mem_cons_self _ _)), hv2, hv, List.takeWhile_cons_of_pos hdg]
        rfl
      · have hz : n - i = 0 := by omega
        simp [hdg, hin, hz, write_at]
    · simp [hdg, write_at]

theorem copy_digits_run (base n : Nat) (t destination : List Nat) (hb : ∀ b ∈ t, b < 256) :
    copy_digits base n 0 (hd t) t.tail destination
      = write_at base ((t.takeWhile is_digit).take n) destination := by
  rw [copy_digits_write base n t.tail (bytes_tail t hb) 0 (hd t) destination
    (hd_lt_of_bytes t hb)]
  cases t with
  | nil => simp [hd, is_digit, write_at]
  | cons c rest => rfl

theorem parse_time_valid (destination : List Nat) (h1 h2 m1 m2 s1 s2 : Nat) (rest : List Nat)
    (hh1 : is_digit_0_to_2 h1 = true) (hh2 : is_digit_0_to_9 h2 = true)
    (hm1 : is_digit_0_to_5 m1 = true) (hm2 : is_digit_0_to_9 m2 = true)
    (hs1 : is_digit_0_to_5 s1 = true) (hs2 : is_digit_0_to_9 s2 = true) :
    parse_time destination (h1 :: h2 :: m1 :: m2 :: s1 :: s2 :: rest)
      = if hd rest = 46 then
          copy_digits 20 3 0 (hd rest.tail) rest.tail.tail
            ((((((destination.set 11 h1).set 12 h2).set 14 m1).set 15 m2).set 17 s1).set 18 s2)
        else
          (((((((((destination.set 11 h1).set 12 h2).set 14 m1).set 15 m2).set 17 s1).set
            18 s2).set 20 48).set 21 48).set 22 48) := by
  simp [parse_time, hd, hh1, hh2, hm1, hm2, hs1, hs2]

theorem time_digits_getElem (destination : List Nat) (h1 h2 m1 m2 s1 s2 : Nat)
    (hlen : 24 ≤ destination.length) :
    ((((((destination.set 11 h1).set 12 h2).set 14 m1).set 15 m2).set 17 s1).set 18 s2).length
        = destination.length
      ∧ ∀ j, ((((((destination.set 11 h1).set 12 h2).set 14 m1).set 15 m2).set 17 s1).set
          18 s2)[j]?
        = if 18 = j then some s2 else if 17 = j then some s1 else if 15 = j then some m2
          else if 14 = j then some m1 else if 12 = j then some h2 else if 11 = j then some h1
          else destination[j]? := by
  refine ⟨by simp only [List.length_set], ?_⟩
  intro j
  have e11 : (11 : Nat) < destination.length := by omega
  have e12 : (12 : Nat) < destination.length := by omega
  have e14 : (14 : Nat) < destination.length := by omega
  have e15 : (15 : Nat) < destination.length := by omega
  have e17 : (17 : Nat) < destination.length := by omega
  have e18 : (18 : Nat) < destination.length := by omega
  simp only [List.getElem?_set, List.length_set, e11, e12, e14, e15, e17, e18, if_true]

set_option maxRecDepth 100000 in
/-- C17: `parse_time` on a grammar-valid token. For every buffer of at least
24 characters and every token `h1 h2 m1 m2 s1 s2` followed by bytes `rest`,
with `h1` in `'0'..'2'`, `m1` and `s1` in `'0'..'5'` and `h2`, `m2`, `s2`
digits, positions 11, 12, 14, 15, 17, 18 of the buffer become
`h1, h2, m1, m2, s1, s2`; if the next character is `'.'`, the leading run of
at most three digits after it is copied to positions 20.. in order (a position
the run does not reach keeps its value), and if it is not `'.'`, positions 20
to 22 become "000"; every other position is unchanged. From the null time,
"153030.311" gives "15:30:30.311" and "023044" gives "02:30:44.000". -/
theorem parse_time_grammar_valid (destination : List Nat) (h1 h2 m1 m2 s1 s2 : Nat)
    (rest : List Nat) (hlen : 24 ≤ destination.length)
    (hh1 : 48 ≤ h1 ∧ h1 ≤ 50) (hh2 : 48 ≤ h2 ∧ h2 ≤ 57)
    (hm1 : 48 ≤ m1 ∧ m1 ≤ 53) (hm2 : 48 ≤ m2 ∧ m2 ≤ 57)
    (hs1 : 48 ≤ s1 ∧ s1 ≤ 53) (hs2 : 48 ≤ s2 ∧ s2 ≤ 57)
    (hb : ∀ b ∈ rest, b < 256) :
    (parse_time destination (h1 :: h2 :: m1 :: m2 :: s1 :: s2 :: rest)).length
        = destination.length
      ∧ (parse_time destination (h1 :: h2 :: m1 :: m2 :: s1 :: s2 :: rest))[11]? = some h1
      ∧ (parse_time destination (h1 :: h2 :: m1 :: m2 :: s1 :: s2 :: rest))[12]? = some h2
      ∧ (parse_time destination (h1 :: h2 :: m1 :: m2 :: s1 :: s2 :: rest))[14]? = some m1
      ∧ (parse_time destination (h1 :: h2 :: m1 :: m2 :: s1 :: s2 :: rest))[15]? = some m2
      ∧ (parse_time destination (h1 :: h2 :: m1 :: m2 :: s1 :: s2 :: rest))[17]? = some s1
      ∧ (parse_time destination (h1 :: h2 :: m1 :: m2 :: s1 :: s2 :: rest))[18]? = some s2
      ∧ (hd rest = 46 → ∀ i, i < 3 →
          (parse_time destination (h1 :: h2 :: m1 :: m2 :: s1 :: s2 :: rest))[20 + i]?
            = if i < ((rest.tail.takeWhile is_digit).take 3).length then
                ((rest.tail.takeWhile is_digit).take 3)[i]?
              else destination[20 + i]?)
      ∧ (hd rest ≠ 46 →
          (parse_time destination (h1 :: h2 :: m1 :: m2 :: s1 :: s2 :: rest))[20]? = some 48
          ∧ (parse_time destination (h1 :: h2 :: m1 :: m2 :: s1 :: s2 :: rest))[21]? = some 48
          ∧ (parse_time destination (h1 :: h2 :: m1 :: m2 :: s1 :: s2 :: rest))[22]? = some 48)
      ∧ (∀ j, j ∉ [11, 12, 14, 15, 17, 18, 20, 21, 22] →
          (parse_time destination (h1 :: h2 :: m1 :: m2 :: s1 :: s2 :: rest))[j]?
            = destination[j]?)
      ∧ ((parse_time NULL_TIME (bytes "153030.311")).drop 11).take 12 = bytes "15:30:30.311"
      ∧ ((parse_time NULL_TIME (bytes "023044")).drop 11).take 12 = bytes "02:30:44.000" := by
  have hlenout := parse_time_length destination (h1 :: h2 :: m1 :: m2 :: s1 :: s2 :: rest)
  have hother : ∀ j, j ∉ [11, 12, 14, 15, 17, 18, 20, 21, 22] →
      (parse_time destination (h1 :: h2 :: m1 :: m2 :: s1 :: s2 :: rest))[j]?
        = destination[j]? := by
    intro j hj
    simp only [List.mem_cons, List.mem_singleton, List.not_mem_nil, or_false, not_or] at hj
    exact parse_time_getElem _ _ j hj
  have hform := parse_time_valid destination h1 h2 m1 m2 s1 s2 rest
    (is_char_in_range_of_le h1 50 hh1.1 hh1.2 (by decide))
    (is_char_in_range_of_le h2 57 hh2.1 hh2.2 (by decide))
    (is_char_in_range_of_le m1 53 hm1.1 hm1.2 (by decide))
    (is_char_in_range_of_le m2 57 hm2.1 hm2.2 (by decide))
    (is_char_in_range_of_le s1 53 hs1.1 hs1.2 (by decide))
    (is_char_in_range_of_le s2 57 hs2.1 hs2.2 (by decide))
  obtain ⟨hDlen, hD⟩ := time_digits_getElem destination h1 h2 m1 m2 s1 s2 hlen
  have hfs : ((rest.tail.takeWhile is_digit).take 3).length ≤ 3 := List.length_take_le _ _
  have hpos : ∀ j, j < 20 →
      (parse_time destination (h1 :: h2 :: m1 :: m2 :: s1 :: s2 :: rest))[j]?
        = ((((((destination.set 11 h1).set 12 h2).set 14 m1).set 15 m2).set 17 s1).set
            18 s2)[j]? := by
    intro j hj
    rw [hform]
    split_ifs
    · exact copy_digits_getElem 20 3 j (Or.inl hj) _ _ _ _
    · rw [List.getElem?_set_ne (by omega), List.getElem?_set_ne (by omega),
        List.getElem?_set_ne (by omega)]
  refine ⟨hlenout, ?_, ?_, ?_, ?_, ?_, ?_, ?_, ?_, hother, by decide, by decide⟩
  · rw [hpos 11 (by decide), hD]; rfl
  · rw [hpos 12 (by decide), hD]; rfl
  · rw [hpos 14 (by decide), hD]; rfl
  · rw [hpos 15 (by decide), hD]; rfl
  · rw [hpos 17 (by decide), hD]; rfl
  · rw [hpos 18 (by decide), hD]; rfl
  · intro h46 i hi
    rw [hform, if_pos h46, copy_digits_run 20 3 rest.tail _ (bytes_tail rest hb),
      write_at_getElem _ _ _ _ (by rw [hDlen]; omega), hD]
    by_cases hin : i < ((rest.tail.takeWhile is_digit).take 3).length
    · have hc : 20 ≤ 20 + i ∧ 20 + i < 20 + ((rest.tail.takeWhile is_digit).take 3).length := by
        omega
      simp only [hc, and_self, if_true, hin, Nat.add_sub_cancel_left]
    · have hc : ¬ (20 ≤ 20 + i
          ∧ 20 + i < 20 + ((rest.tail.takeWhile is_digit).take 3).length) := by omega
      simp only [hc, if_false, hin]
      split_ifs <;> first | rfl | omega
  · intro h46
    rw [hform, if_neg h46]
    have e20 : (20 : Nat) < destination.length := by omega
    have e21 : (21 : Nat) < destination.length := by omega
    have e22 : (22 : Nat) < destination.length := by omega
    simp [List.getElem?_set, e20, e21, e22]

set_option maxRecDepth 100000 in
/-- C17 at the token "153030.311" and the buffer "2003-10-29T05:03:06.999Z":
the result is "2003-10-29T15:30:30.311Z". -/
theorem parse_time_grammar_valid_witness :
    24 ≤ (bytes "2003-10-29T05:03:06.999Z" ++ [0]).length
      ∧ (∀ b ∈ bytes ".311", b < 256)
      ∧ (parse_time (bytes "2003-10-29T05:03:06.999Z" ++ [0])
            (49 :: 53 :: 51 :: 48 :: 51 :: 48 :: bytes ".311"))[11]? = some 49
      ∧ 49 :: 53 :: 51 :: 48 :: 51 :: 48 :: bytes ".311" = bytes "153030.311"
      ∧ parse_time (bytes "2003-10-29T05:03:06.999Z" ++ [0]) (bytes "153030.311")
          = bytes "2003-10-29T15:30:30.311Z" ++ [0]
      ∧ parse_time (bytes "2003-10-29T05:03:06.999Z" ++ [0]) (bytes "023044.5")
          = bytes "2003-10-29T02:30:44.599Z" ++ [0] :=
  ⟨by decide, by decide,
    (parse_time_grammar_valid (bytes "2003-10-29T05:03:06.999Z" ++ [0]) 49 53 51 48 51 48
      (bytes ".311") (by decide) (by decide) (by decide) (by decide) (by decide) (by decide)
      (by decide) (by decide)).2.1,
    by decide, by decide, by decide⟩

theorem parse_time_normal (destination token : List Nat) :
    parse_time destination token
      = parse_time destination
          (rd token 0 :: rd token 1 :: rd token 2 :: rd token 3 :: rd token 4 :: rd token 5
            :: token.drop 6) := by
  have z2 : is_digit_0_to_2 0 = false := by decide
  have z5 : is_digit_0_to_5 0 = false := by decide
  have z9 : is_digit_0_to_9 0 = false := by decide
  rcases token with _ | ⟨a0, _ | ⟨a1, _ | ⟨a2, _ | ⟨a3, _ | ⟨a4, _ | ⟨a5, rest⟩⟩⟩⟩⟩⟩ <;>
    simp [parse_time, hd, rd, z2, z5, z9]

theorem set_all_getElem (ps : List Nat) (j : Nat) (hj : j ∉ ps) :
    ∀ (cs destination : List Nat), (set_all ps cs destination)[j]? = destination[j]? := by
  induction ps with
  | nil => intro cs destination; rfl
  | cons p ps ih =>
    intro cs destination
    cases cs with
    | nil => rfl
    | cons c cs =>
      simp only [set_all]
      have hp : p ≠ j := fun h => hj (by rw [h]; exact List.mem_cons_self _ _)
      rw [ih (fun h => hj (List.mem_cons_of_mem _ h)), List.getElem?_set_ne hp]

theorem parse_time_written (destination token : List Nat) (hk : time_matched token < 6) :
    parse_time destination token = time_written destination token (time_matched token) := by
  rw [parse_time_normal]
  unfold time_matched at hk ⊢
  unfold time_written time_positions
  by_cases c0 : is_digit_0_to_2 (rd token 0) = true
  swap
  · simp [parse_time, hd, c0, set_all]
  by_cases c1 : is_digit_0_to_9 (rd token 1) = true
  swap
  · simp [parse_time, hd, c0, c1, set_all]
  by_cases c2 : is_digit_0_to_5 (rd token 2) = true
  swap
  · simp [parse_time, hd, c0, c1, c2, set_all]
  by_cases c3 : is_digit_0_to_9 (rd token 3) = true
  swap
  · simp [parse_time, hd, c0, c1, c2, c3, set_all]
  by_cases c4 : is_digit_0_to_5 (rd token 4) = true
  swap
  · simp [parse_time, hd, c0, c1, c2, c3, c4, set_all]
  by_cases c5 : is_digit_0_to_9 (rd token 5) = true
  swap
  · simp [parse_time, hd, c0, c1, c2, c3, c4, c5, set_all]
  simp [c0, c1, c2, c3, c4, c5] at hk

/-- C18 (amended): a token that fails one of the six digit checks of `HHMMSS`
(`time_matched token < 6`) makes `parse_time` write the digits matched before
the first failing check to their positions and nothing else: the buffer after
the call is `time_written destination token (time_matched token)`, every
position other than the first `time_matched token` of 11, 12, 14, 15, 17, 18
keeps its value, in particular the fraction positions 20 to 22, and a token
that fails the first check leaves the whole buffer unchanged. -/
theorem parse_time_malformed (destination token : List Nat) (hk : time_matched token < 6) :
    parse_time destination token = time_written destination token (time_matched token)
      ∧ (∀ j, j ∉ time_positions.take (time_matched token) →
          (parse_time destination token)[j]? = destination[j]?)
      ∧ (parse_time destination token)[20]? = destination[20]?
      ∧ (parse_time destination token)[21]? = destination[21]?
      ∧ (parse_time destination token)[22]? = destination[22]?
      ∧ (time_matched token = 0 → parse_time destination token = destination) := by
  have hform := parse_time_written destination token hk
  have hother : ∀ j, j ∉ time_positions.take (time_matched token) →
      (parse_time destination token)[j]? = destination[j]? := by
    intro j hj
    rw [hform]
    exact set_all_getElem _ j hj _ _
  have hfrac : ∀ j, j ∉ time_positions → j ∉ time_positions.take (time_matched token) :=
    fun j hj h => hj (List.mem_of_mem_take h)
  refine ⟨hform, hother, hother 20 (hfrac 20 (by decide)), hother 21 (hfrac 21 (by decide)),
    hother 22 (hfrac 22 (by decide)), ?_⟩
  intro h0
  rw [hform, h0]
  rfl

set_option maxRecDepth 100000 in
/-- C18 (amended) at the token "1X3030" and the buffer
"2003-10-29T05:03:06.999Z": the second check fails, position 11 has been
written and the result is "2003-10-29T15:03:06.999Z". -/
theorem parse_time_malformed_witness :
    time_matched (bytes "1X3030") < 6
      ∧ parse_time (bytes "2003-10-29T05:03:06.999Z" ++ [0]) (bytes "1X3030")
          = time_written (bytes "2003-10-29T05:03:06.999Z" ++ [0]) (bytes "1X3030")
              (time_matched (bytes "1X3030"))
      ∧ time_matched (bytes "1X3030") = 1
      ∧ time_written (bytes "2003-10-29T05:03:06.999Z" ++ [0]) (bytes "1X3030") 1
          = bytes "2003-10-29T15:03:06.999Z" ++ [0] :=
  ⟨by decide,
    (parse_time_malformed (bytes "2003-10-29T05:03:06.999Z" ++ [0]) (bytes "1X3030")
      (by decide)).1,
    by decide, by decide⟩

set_option maxRecDepth 100000 in
/-- C18 as stated fails: the token "2X" fails the second digit check of
`HHMMSS`, and `parse_time` has by then stored the `'2'` at position 11 of the
null time, which held `'0'` before the call. -/
theorem parse_time_malformed_counterexample :
    time_matched (bytes "2X") = 1
      ∧ is_digit_0_to_9 (rd (bytes "2X") 1) = false
      ∧ NULL_TIME[11]? = some 48
      ∧ (parse_time NULL_TIME (bytes "2X"))[11]? = some 50
      ∧ ¬ (∀ destination token : List Nat, time_matched token < 6 →
            ∀ j ∈ [11, 12, 14, 15, 17, 18, 20, 21, 22],
              (parse_time destination token)[j]? = destination[j]?) := by
  refine ⟨by decide, by decide, by decide, by decide, ?_⟩
  intro h
  have h11 := h NULL_TIME (bytes "2X") (by decide) 11 (by decide)
  revert h11
  decide

set_option maxRecDepth 100000 in
/-- C19: `parse_date` on a grammar-valid compact date. For every buffer of at
least 10 characters and every token `d1 d2 m1 m2 y1 y2` followed by any bytes,
with `d1` in `'0'..'3'`, `m1` in `'0'..'1'` and `d2`, `m2`, `y1`, `y2` digits,
the buffer after the call begins with `'2' '0' y1 y2`, its position 4, `m1 m2`,
its position 7, `d1 d2`, and continues as before from position 10 on: with the
separators `'-'` in place the date subfields read "20YY-MM-DD", the century
being the literal "20", and the time-of-day positions are unchanged. -/
theorem parse_date_grammar_valid (destination : List Nat) (d1 d2 m1 m2 y1 y2 : Nat)
    (rest : List Nat) (hlen : 10 ≤ destination.length)
    (hd1 : 48 ≤ d1 ∧ d1 ≤ 51) (hd2 : 48 ≤ d2 ∧ d2 ≤ 57)
    (hm1 : 48 ≤ m1 ∧ m1 ≤ 49) (hm2 : 48 ≤ m2 ∧ m2 ≤ 57)
    (hy1 : 48 ≤ y1 ∧ y1 ≤ 57) (hy2 : 48 ≤ y2 ∧ y2 ≤ 57) :
    parse_date destination (d1 :: d2 :: m1 :: m2 :: y1 :: y2 :: rest)
        = [50, 48, y1, y2, rd destination 4, m1, m2, rd destination 7, d1, d2]
            ++ destination.drop 10
      ∧ (rd destination 4 = 45 → rd destination 7 = 45 →
          (parse_date destination (d1 :: d2 :: m1 :: m2 :: y1 :: y2 :: rest)).take 10
            = [50, 48, y1, y2, 45, m1, m2, 45, d1, d2])
      ∧ (∀ j, 10 ≤ j →
          (parse_date destination (d1 :: d2 :: m1 :: m2 :: y1 :: y2 :: rest))[j]?
            = destination[j]?)
      ∧ parse_date NULL_TIME (bytes "131102") = bytes "2002-11-13T00:00:00.000Z" ++ [0] := by
  have hform : parse_date destination (d1 :: d2 :: m1 :: m2 :: y1 :: y2 :: rest)
      = [50, 48, y1, y2, rd destination 4, m1, m2, rd destination 7, d1, d2]
          ++ destination.drop 10 := by
    rw [parse_date_valid destination d1 d2 m1 m2 y1 y2 rest
      (is_char_in_range_of_le d1 51 hd1.1 hd1.2 (by decide))
      (is_char_in_range_of_le d2 57 hd2.1 hd2.2 (by decide))
      (is_char_in_range_of_le m1 49 hm1.1 hm1.2 (by decide))
      (is_char_in_range_of_le m2 57 hm2.1 hm2.2 (by decide))
      (is_char_in_range_of_le y1 57 hy1.1 hy1.2 (by decide))
      (is_char_in_range_of_le y2 57 hy2.1 hy2.2 (by decide))]
    rcases destination with _ | ⟨a0, _ | ⟨a1, _ | ⟨a2, _ | ⟨a3, _ | ⟨a4, _ | ⟨a5, _ | ⟨a6,
      _ | ⟨a7, _ | ⟨a8, _ | ⟨a9, tl⟩⟩⟩⟩⟩⟩⟩⟩⟩⟩ <;> simp at hlen
    simp [List.set, rd]
  refine ⟨hform, ?_, fun j hj => parse_date_getElem _ _ j hj, by decide⟩
  intro h4 h7
  rw [hform, h4, h7]
  simp

set_option maxRecDepth 100000 in
/-- C19 at the token "131102" and the buffer "0000-00-00T02:30:44.000Z": the
result is "2002-11-13T02:30:44.000Z". -/
theorem parse_date_grammar_valid_witness :
    10 ≤ (bytes "0000-00-00T02:30:44.000Z" ++ [0]).length
      ∧ parse_date (bytes "0000-00-00T02:30:44.000Z" ++ [0])
            (49 :: 51 :: 49 :: 49 :: 48 :: 50 :: [])
          = [50, 48, 48, 50, rd (bytes "0000-00-00T02:30:44.000Z" ++ [0]) 4, 49, 49,
              rd (bytes "0000-00-00T02:30:44.000Z" ++ [0]) 7, 49, 51]
            ++ (bytes "0000-00-00T02:30:44.000Z" ++ [0]).drop 10
      ∧ 49 :: 51 :: 49 :: 49 :: 48 :: 50 :: [] = bytes "131102"
      ∧ parse_date (bytes "0000-00-00T02:30:44.000Z" ++ [0]) (bytes "131102")
          = bytes "2002-11-13T02:30:44.000Z" ++ [0] :=
  ⟨by decide,
    (parse_date_grammar_valid (bytes "0000-00-00T02:30:44.000Z" ++ [0]) 49 51 49 49 48 50 []
      (by decide) (by decide) (by decide) (by decide) (by decide) (by decide) (by decide)).1,
    by decide, by decide⟩

theorem parse_extended_date_valid (destination : List Nat) (d1 d2 m1 m2 : Nat)
    (dr mr year : List Nat) (hd1 : is_digit_0_to_3 d1 = true) (hd2 : is_digit_0_to_9 d2 = true)
    (hm1 : is_digit_0_to_1 m1 = true) (hm2 : is_digit_0_to_9 m2 = true)
    (hb : ∀ b ∈ year, b < 256) :
    parse_extended_date destination (d1 :: d2 :: dr) (m1 :: m2 :: mr) year
      = write_at 0 ((year.takeWhile is_digit).take 4)
          ((((destination.set 8 d1).set 9 d2).set 5 m1).set 6 m2) := by
  rw [← copy_digits_run 0 4 year _ hb]
  simp [parse_extended_date, hd, hd1, hd2, hm1, hm2]

theorem date_digits_getElem (destination : List Nat) (d1 d2 m1 m2 : Nat)
    (hlen : 10 ≤ destination.length) (j : Nat) :
    ((((destination.set 8 d1).set 9 d2).set 5 m1).set 6 m2)[j]?
      = if 6 = j then some m2 else if 5 = j then some m1 else if 9 = j then some d2
        else if 8 = j then some d1 else destination[j]? := by
  have e5 : (5 : Nat) < destination.length := by omega
  have e6 : (6 : Nat) < destination.length := by omega
  have e8 : (8 : Nat) < destination.length := by omega
  have e9 : (9 : Nat) < destination.length := by omega
  simp only [List.getElem?_set, List.length_set, e5, e6, e8, e9, if_true]

set_option maxRecDepth 100000 in
/-- C20: the extended date of ZDA. For every buffer of at least 10 characters,
every day token beginning with `d1 d2` in `[0-3][0-9]`, every month token
beginning with `m1 m2` in `[0-1][0-9]` and every year token, `parse_extended_date`
writes `d1 d2` to positions 8 and 9, `m1 m2` to positions 5 and 6, and copies
the leading run of at most 4 digits of the year token to positions 0.. in
order, whatever their value (a position the run does not reach keeps its
value); positions 4 and 7 and every position from 10 on, the time of day
included, are unchanged. The ZDA sentence of the tests, decoded into an
initialised record, gives the time "2003-10-29T05:03:06.000Z". -/
theorem parse_extended_date_spec (destination : List Nat) (d1 d2 m1 m2 : Nat)
    (dr mr year : List Nat) (hlen : 10 ≤ destination.length)
    (hd1 : 48 ≤ d1 ∧ d1 ≤ 51) (hd2 : 48 ≤ d2 ∧ d2 ≤ 57)
    (hm1 : 48 ≤ m1 ∧ m1 ≤ 49) (hm2 : 48 ≤ m2 ∧ m2 ≤ 57)
    (hb : ∀ b ∈ year, b < 256) :
    (parse_extended_date destination (d1 :: d2 :: dr) (m1 :: m2 :: mr) year)[8]? = some d1
      ∧ (parse_extended_date destination (d1 :: d2 :: dr) (m1 :: m2 :: mr) year)[9]? = some d2
      ∧ (parse_extended_date destination (d1 :: d2 :: dr) (m1 :: m2 :: mr) year)[5]? = some m1
      ∧ (parse_extended_date destination (d1 :: d2 :: dr) (m1 :: m2 :: mr) year)[6]? = some m2
      ∧ (∀ i, i < 4 →
          (parse_extended_date destination (d1 :: d2 :: dr) (m1 :: m2 :: mr) year)[i]?
            = if i < ((year.takeWhile is_digit).take 4).length then
                ((year.takeWhile is_digit).take 4)[i]?
              else destination[i]?)
      ∧ (parse_extended_date destination (d1 :: d2 :: dr) (m1 :: m2 :: mr) year)[4]?
          = destination[4]?
      ∧ (parse_extended_date destination (d1 :: d2 :: dr) (m1 :: m2 :: mr) year)[7]?
          = destination[7]?
      ∧ (∀ j, 10 ≤ j →
          (parse_extended_date destination (d1 :: d2 :: dr) (m1 :: m2 :: mr) year)[j]?
            = destination[j]?)
      ∧ (gps_decode init_tpv zda_sentence).map (fun d => (d.code, d.tpv.time))
          = some (GPS_OK, bytes "2003-10-29T05:03:06.000Z" ++ [0]) := by
  have hform := parse_extended_date_valid destination d1 d2 m1 m2 dr mr year
    (is_char_in_range_of_le d1 51 hd1.1 hd1.2 (by decide))
    (is_char_in_range_of_le d2 57 hd2.1 hd2.2 (by decide))
    (is_char_in_range_of_le m1 49 hm1.1 hm1.2 (by decide))
    (is_char_in_range_of_le m2 57 hm2.1 hm2.2 (by decide)) hb
  have hys : ((year.takeWhile is_digit).take 4).length ≤ 4 := List.length_take_le _ _
  have hget : ∀ j,
      (parse_extended_date destination (d1 :: d2 :: dr) (m1 :: m2 :: mr) year)[j]?
        = if j < ((year.takeWhile is_digit).take 4).length then
            ((year.takeWhile is_digit).take 4)[j]?
          else if 6 = j then some m2 else if 5 = j then some m1 else if 9 = j then some d2
          else if 8 = j then some d1 else destination[j]? := by
    intro j
    rw [hform, write_at_getElem _ _ _ _ (by simp only [List.length_set]; omega),
      date_digits_getElem destination d1 d2 m1 m2 hlen]
    simp only [Nat.zero_le, true_and, Nat.zero_add, Nat.sub_zero]
  refine ⟨?_, ?_, ?_, ?_, ?_, ?_, ?_, fun j hj => parse_extended_date_getElem _ _ _ _ j hj,
    by decide⟩
  · rw [hget, if_neg (by omega)]; rfl
  · rw [hget, if_neg (by omega)]; rfl
  · rw [hget, if_neg (by omega)]; rfl
  · rw [hget, if_neg (by omega)]; rfl
  · intro i hi
    rw [hget]
    split_ifs <;> first | rfl | omega
  · rw [hget, if_neg (by omega)]; rfl
  · rw [hget, if_neg (by omega)]; rfl

set_option maxRecDepth 100000 in
/-- C20 at the tokens "29", "10", "2003" and the buffer
"0000-00-00T05:03:06.000Z", and at the year token "9" that leaves three year
positions as they were. -/
theorem parse_extended_date_spec_witness :
    10 ≤ (bytes "0000-00-00T05:03:06.000Z" ++ [0]).length
      ∧ (∀ b ∈ bytes "2003", b < 256)
      ∧ (parse_extended_date (bytes "0000-00-00T05:03:06.000Z" ++ [0]) (50 :: 57 :: [])
            (49 :: 48 :: []) (bytes "2003"))[8]? = some 50
      ∧ parse_extended_date (bytes "0000-00-00T05:03:06.000Z" ++ [0]) (bytes "29")
            (bytes "10") (bytes "2003")
          = bytes "2003-10-29T05:03:06.000Z" ++ [0]
      ∧ parse_extended_date (bytes "0000-00-00T05:03:06.000Z" ++ [0]) (bytes "29")
            (bytes "10") (bytes "9")
          = bytes "9000-10-29T05:03:06.000Z" ++ [0] :=
  ⟨by decide, by decide,
    (parse_extended_date_spec (bytes "0000-00-00T05:03:06.000Z" ++ [0]) 50 57 49 48 [] []
      (bytes "2003") (by decide) (by decide) (by decide) (by decide) (by decide)
      (by decide)).1,
    by decide, by decide⟩

/-! ## C21: the mode of a GSA sentence -/

/-- C21: for every well-framed GSA sentence, `gps_decode` returns `GPS_OK`
and sets `mode` from the first character of the second field (field 1): `'1'`
gives `GPS_MODE_NO_FIX`, `'2'` gives `GPS_MODE_2D_FIX`, `'3'` gives
`GPS_MODE_3D_FIX`, every other character and the empty field give
`GPS_MODE_UNKNOWN`. -/
theorem gps_decode_gsa_mode (r : gps_tpv) (s : List Nat) (hw : well_framed s)
    (hid : sentence_id s = bytes "GSA") :
    ∃ d, gps_decode r s = some d ∧ d.code = GPS_OK
      ∧ (hd (field s 1) = 49 → d.tpv.mode = gps_mode.GPS_MODE_NO_FIX)
      ∧ (hd (field s 1) = 50 → d.tpv.mode = gps_mode.GPS_MODE_2D_FIX)
      ∧ (hd (field s 1) = 51 → d.tpv.mode = gps_mode.GPS_MODE_3D_FIX)
      ∧ (hd (field s 1) ≠ 49 → hd (field s 1) ≠ 50 → hd (field s 1) ≠ 51 →
          d.tpv.mode = gps_mode.GPS_MODE_UNKNOWN)
      ∧ (field s 1 = [] → d.tpv.mode = gps_mode.GPS_MODE_UNKNOWN) := by
  obtain ⟨d, hd1, hc, htpv⟩ := gps_decode_well_framed r s hw
  have hmode : d.tpv.mode = parse_mode (hd (field s 1)) := by
    rw [htpv, hid]
    simp only [extract_fields, id_ne_GGA_GSA, id_ne_GLL_GSA, if_false, if_true]
  refine ⟨d, hd1, hc, ?_, ?_, ?_, ?_, ?_⟩
  · intro h; rw [hmode, h]; rfl
  · intro h; rw [hmode, h]; rfl
  · intro h; rw [hmode, h]; rfl
  · intro h1 h2 h3; rw [hmode]; simp only [parse_mode, h1, h2, h3, if_false]
  · intro h; rw [hmode, h]; rfl

set_option maxRecDepth 100000 in
/-- C21 at the GSA sentence of the tests, which gives `GPS_MODE_3D_FIX`, and
at a GSA sentence with an empty second field, which gives `GPS_MODE_UNKNOWN`. -/
theorem gps_decode_gsa_mode_witness :
    well_framed gsa_sentence ∧ sentence_id gsa_sentence = bytes "GSA"
      ∧ field gsa_sentence 1 = bytes "3"
      ∧ (∃ d, gps_decode init_tpv gsa_sentence = some d ∧ d.code = GPS_OK
          ∧ d.tpv.mode = gps_mode.GPS_MODE_3D_FIX)
      ∧ gps_decode init_tpv gsa_sentence
          = some ⟨GPS_OK,
              { init_tpv with mode := gps_mode.GPS_MODE_3D_FIX, talker_id := bytes "GP" ++ [0] },
              after_decode gsa_sentence⟩
      ∧ field gsa_empty_mode 1 = []
      ∧ (gps_decode { init_tpv with mode := gps_mode.GPS_MODE_3D_FIX } gsa_empty_mode).map
          (fun d => (d.code, d.tpv.mode)) = some (GPS_OK, gps_mode.GPS_MODE_UNKNOWN) :=
  ⟨⟨by decide, by decide, by decide, by decide⟩, by decide, by decide,
    (gps_decode_gsa_mode init_tpv gsa_sentence ⟨by decide, by decide, by decide, by decide⟩
      (by decide)).imp (fun _ h => ⟨h.1, h.2.1, h.2.2.2.2.1 (by decide)⟩),
    by decide, by decide, by decide⟩

/-! ## C24: `gps_init_tpv` -/

/-- C24: `gps_init_tpv` puts any record into the known state: `mode` is
`GPS_MODE_UNKNOWN`, `altitude`, `latitude`, `longitude`, `track` and `speed`
are `GPS_INVALID_VALUE`, `time` is the string "0000-00-00T00:00:00.000Z" with
its NUL, and the three bytes of `talker_id` are NUL, whatever the record
held before. -/
theorem gps_init_tpv_known_state (r : gps_tpv) :
    (gps_init_tpv r).mode = gps_mode.GPS_MODE_UNKNOWN
      ∧ (gps_init_tpv r).altitude = GPS_INVALID_VALUE
      ∧ (gps_init_tpv r).latitude = GPS_INVALID_VALUE
      ∧ (gps_init_tpv r).longitude = GPS_INVALID_VALUE
      ∧ (gps_init_tpv r).track = GPS_INVALID_VALUE
      ∧ (gps_init_tpv r).speed = GPS_INVALID_VALUE
      ∧ (gps_init_tpv r).time = bytes "0000-00-00T00:00:00.000Z" ++ [0]
      ∧ cstr (gps_init_tpv r).time = bytes "0000-00-00T00:00:00.000Z"
      ∧ (gps_init_tpv r).talker_id = [0, 0, 0]
      ∧ cstr (gps_init_tpv r).talker_id = []
      ∧ GPS_INVALID_VALUE = 2147483647 :=
  ⟨rfl, rfl, rfl, rfl, rfl, rfl, rfl,
    show cstr NULL_TIME = bytes "0000-00-00T00:00:00.000Z" by decide, rfl,
    show cstr [0, 0, 0] = [] by decide, rfl⟩

/-! ## C25: `gps_error_string` -/

/-- C25: `gps_error_string` is defined on every integer; it maps the six
result codes 0 to 5 to their messages, which are pairwise distinct, and every
other integer, negative or greater than 5, to "Unknown error". -/
theorem gps_error_string_spec (e : Int) :
    gps_error_string 0 = "No error while parsing NMEA"
      ∧ gps_error_string 1 = "Header '$' missing"
      ∧ gps_error_string 2 = "Footer CRLF missing"
      ∧ gps_error_string 3 = "Checksum did not match"
      ∧ gps_error_string 4 = "Sentence truncated"
      ∧ gps_error_string 5 = "Unsupported NMEA sentence"
      ∧ [gps_error_string 0, gps_error_string 1, gps_error_string 2, gps_error_string 3,
          gps_error_string 4, gps_error_string 5].Nodup
      ∧ ((e < 0 ∨ 5 < e) → gps_error_string e = "Unknown error")
      ∧ gps_error_string 9999 = "Unknown error"
      ∧ gps_error_string (-1) = "Unknown error"
      ∧ ((GPS_OK : Int) = 0 ∧ (GPS_ERROR_HEAD : Int) = 1 ∧ (GPS_ERROR_FOOT : Int) = 2
          ∧ (GPS_ERROR_CHECKSUM : Int) = 3 ∧ (GPS_ERROR_TRUNCATED : Int) = 4
          ∧ (GPS_ERROR_UNSUPPORTED : Int) = 5) := by
  refine ⟨by decide, by decide, by decide, by decide, by decide, by decide, by decide, ?_,
    by decide, by decide, by decide⟩
  intro h
  unfold gps_error_string
  have hc : ¬ (0 ≤ e ∧ e < (([
    "No error while parsing NMEA",
    "Header '$' missing",
    "Footer CRLF missing",
    "Checksum did not match",
    "Sentence truncated",
    "Unsupported NMEA sentence"] : List String).length : Int)) := by
    simp only [List.length_cons, List.length_nil]
    omega
  simp only [hc, if_false]

set_option maxRecDepth 100000 in
/-- The theorem `gps_error_string_spec` at the code 9999 of the tests. -/
theorem gps_error_string_spec_witness :
    ((9999 : Int) < 0 ∨ (5 : Int) < 9999) ∧ gps_error_string 9999 = "Unknown error" :=
  ⟨by decide, (gps_error_string_spec 9999).2.2.2.2.2.2.2.1 (by decide)⟩

/-! ## C26: the pointer returned by `gps_encode` -/

/-- C26 (amended): for every NUL-free message `m` of bytes, the pointer
returned by `gps_encode` is the position of the written NUL terminator itself,
`destination + |m| + 6`, and the `|m| + 7` bytes written end with that NUL, so
that the output buffer needs `|m| + 7` bytes. -/
theorem gps_encode_return (m : List Nat) (hm : ∀ b ∈ m, 0 < b ∧ b < 256) :
    (gps_encode m).2 = m.length + 6
      ∧ rd (gps_encode m).1 (gps_encode m).2 = 0
      ∧ (gps_encode m).1.length = m.length + 7
      ∧ (gps_encode m).2 + 1 = (gps_encode m).1.length := by
  rw [gps_encode_eq m hm]
  refine ⟨rfl, ?_, ?_, ?_⟩
  · simp only [rd]
    rw [List.getD_eq_getElem?_getD, List.getElem?_append_right (by simp)]
    simp
  · simp
  · simp

set_option maxRecDepth 100000 in
/-- The theorem `gps_encode_return` at the message "PMTK251,38400" of the
tests: the returned position is 19. -/
theorem gps_encode_return_witness :
    (∀ b ∈ bytes "PMTK251,38400", 0 < b ∧ b < 256)
      ∧ (gps_encode (bytes "PMTK251,38400")).2 = (bytes "PMTK251,38400").length + 6
      ∧ (bytes "PMTK251,38400").length + 6 = 19 :=
  ⟨by decide, (gps_encode_return (bytes "PMTK251,38400") (by decide)).1, by decide⟩

set_option maxRecDepth 100000 in
/-- C26 as stated fails: for the message "PMTK251,38400" of 13 bytes the
returned position is 19, where the NUL is, not 13 + 7 = 20; for the empty
message it is 6, not 7. -/
theorem gps_encode_return_counterexample :
    (bytes "PMTK251,38400").length = 13
      ∧ (gps_encode (bytes "PMTK251,38400")).2 = 19
      ∧ (gps_encode (bytes "PMTK251,38400")).2 ≠ (bytes "PMTK251,38400").length + 7
      ∧ rd (gps_encode (bytes "PMTK251,38400")).1 19 = 0
      ∧ (gps_encode (bytes "")).2 = 6
      ∧ (gps_encode (bytes "")).2 ≠ (bytes "").length + 7 := by
  decide

/-! ## C28: what a rejected sentence can touch -/

/-- C28: for every record `r` and input `s` on which `gps_decode` returns a
code other than `GPS_OK`, mode, altitude, latitude, longitude, track, speed,
the whole time buffer and `talker_id[2]` are unchanged; `talker_id` is
unchanged when the code is `GPS_ERROR_HEAD` or one of the two talker bytes is
NUL, and in every other rejected case `talker_id[0..1]` are overwritten with
the two bytes that follow the `'$'`. -/
theorem gps_decode_rejected_touch (r : gps_tpv) (s : List Nat) (d : decoded)
    (h : gps_decode r s = some d) (hc : d.code ≠ GPS_OK) :
    d.tpv.mode = r.mode ∧ d.tpv.altitude = r.altitude ∧ d.tpv.latitude = r.latitude
      ∧ d.tpv.longitude = r.longitude ∧ d.tpv.track = r.track ∧ d.tpv.speed = r.speed
      ∧ d.tpv.time = r.time ∧ d.tpv.talker_id[2]? = r.talker_id[2]?
      ∧ ((d.code = GPS_ERROR_HEAD ∨ rd s 1 = 0 ∨ rd s 2 = 0) →
          d.tpv.talker_id = r.talker_id)
      ∧ (¬ (d.code = GPS_ERROR_HEAD ∨ rd s 1 = 0 ∨ rd s 2 = 0) →
          d.tpv.talker_id = (r.talker_id.set 0 (rd s 1)).set 1 (rd s 2))
      ∧ ((rd s 1 = 0 ∨ rd s 2 = 0) →
          d.code = GPS_ERROR_HEAD ∨ d.code = GPS_ERROR_TRUNCATED) := by
  rcases gps_decode_rejected r s d h hc with ⟨h1, h2⟩ | ⟨h1, h2, h3⟩ | ⟨h1, h2, h3, h4⟩
  · rw [h2]
    exact ⟨rfl, rfl, rfl, rfl, rfl, rfl, rfl, rfl, fun _ => rfl,
      fun hn => absurd (Or.inl h1) hn, fun _ => Or.inl h1⟩
  · rw [h3]
    exact ⟨rfl, rfl, rfl, rfl, rfl, rfl, rfl, rfl, fun _ => rfl,
      fun hn => absurd (Or.inr h2) hn, fun _ => Or.inr h1⟩
  · rw [h4]
    refine ⟨rfl, rfl, rfl, rfl, rfl, rfl, rfl, ?_, ?_, fun _ => rfl, ?_⟩
    · simp only [store_talker]
      rw [List.getElem?_set_ne (by decide), List.getElem?_set_ne (by decide)]
    · rintro (hh | hh | hh)
      · exact absurd hh h1
      · exact absurd hh h2
      · exact absurd hh h3
    · rintro (hh | hh)
      · exact absurd hh h2
      · exact absurd hh h3

set_option maxRecDepth 100000 in
/-- The theorem `gps_decode_rejected_touch` at the unsupported sentence of the
tests, decoded into the record the GGA sentence left: the code is 5, the
talker bytes become "PG" and the time is kept. -/
theorem gps_decode_rejected_touch_witness :
    gps_decode gga_decoded.tpv rme_sentence
        = some ⟨GPS_ERROR_UNSUPPORTED,
            { gga_decoded.tpv with talker_id := bytes "PG" ++ [0] }, rme_sentence⟩
      ∧ ({ gga_decoded.tpv with talker_id := bytes "PG" ++ [0] } : gps_tpv).talker_id
          = (gga_decoded.tpv.talker_id.set 0 (rd rme_sentence 1)).set 1 (rd rme_sentence 2)
      ∧ gga_decoded.tpv.talker_id = bytes "GP" ++ [0]
      ∧ (gps_decode gga_decoded.tpv (bytes "$P")).map (fun d => (d.code, d.tpv.talker_id))
          = some (GPS_ERROR_TRUNCATED, bytes "GP" ++ [0]) :=
  ⟨by decide,
    (gps_decode_rejected_touch gga_decoded.tpv rme_sentence
      ⟨GPS_ERROR_UNSUPPORTED, { gga_decoded.tpv with talker_id := bytes "PG" ++ [0] },
        rme_sentence⟩ (by decide) (by decide)).2.2.2.2.2.2.2.2.2.1 (by decide),
    by decide, by decide⟩

/-! ## C30: stale millisecond digits -/

set_option maxRecDepth 100000 in
/-- C30: when a grammar-valid time token `h1 h2 m1 m2 s1 s2` carries a `'.'`
followed by a run of `k < 3` digits, `parse_time` overwrites the millisecond
positions 20 to `20 + k - 1` with the run and leaves positions `20 + k` to 22
at their previous contents, so the millisecond subfield after the call depends
on the prior buffer: a buffer holding ".311" and the token "172814.0" give
".011", not ".000". -/
theorem parse_time_stale_fraction (destination : List Nat) (h1 h2 m1 m2 s1 s2 : Nat)
    (rest : List Nat) (hlen : 24 ≤ destination.length)
    (hh1 : 48 ≤ h1 ∧ h1 ≤ 50) (hh2 : 48 ≤ h2 ∧ h2 ≤ 57)
    (hm1 : 48 ≤ m1 ∧ m1 ≤ 53) (hm2 : 48 ≤ m2 ∧ m2 ≤ 57)
    (hs1 : 48 ≤ s1 ∧ s1 ≤ 53) (hs2 : 48 ≤ s2 ∧ s2 ≤ 57)
    (hb : ∀ b ∈ rest, b < 256) (hk : (rest.takeWhile is_digit).length < 3) :
    (∀ i, i < (rest.takeWhile is_digit).length →
        (parse_time destination (h1 :: h2 :: m1 :: m2 :: s1 :: s2 :: 46 :: rest))[20 + i]?
          = (rest.takeWhile is_digit)[i]?)
      ∧ (∀ i, (rest.takeWhile is_digit).length ≤ i → i < 3 →
        (parse_time destination (h1 :: h2 :: m1 :: m2 :: s1 :: s2 :: 46 :: rest))[20 + i]?
          = destination[20 + i]?)
      ∧ parse_time (bytes "0000-00-00T15:30:30.311Z" ++ [0]) (bytes "172814.0")
          = bytes "0000-00-00T17:28:14.011Z" ++ [0]
      ∧ parse_time (bytes "0000-00-00T15:30:30.311Z" ++ [0]) (bytes "172814.0")
          ≠ bytes "0000-00-00T17:28:14.000Z" ++ [0] := by
  have hform := parse_time_valid destination h1 h2 m1 m2 s1 s2 (46 :: rest)
    (is_char_in_range_of_le h1 50 hh1.1 hh1.2 (by decide))
    (is_char_in_range_of_le h2 57 hh2.1 hh2.2 (by decide))
    (is_char_in_range_of_le m1 53 hm1.1 hm1.2 (by decide))
    (is_char_in_range_of_le m2 57 hm2.1 hm2.2 (by decide))
    (is_char_in_range_of_le s1 53 hs1.1 hs1.2 (by decide))
    (is_char_in_range_of_le s2 57 hs2.1 hs2.2 (by decide))
  rw [if_pos (show hd (46 :: rest) = 46 from rfl)] at hform
  simp only [List.tail_cons] at hform
  rw [copy_digits_run 20 3 rest _ hb, List.take_of_length_le (by omega)] at hform
  obtain ⟨hDlen, hD⟩ := time_digits_getElem destination h1 h2 m1 m2 s1 s2 hlen
  have hget : ∀ j,
      (parse_time destination (h1 :: h2 :: m1 :: m2 :: s1 :: s2 :: 46 :: rest))[j]?
        = if 20 ≤ j ∧ j < 20 + (rest.takeWhile is_digit).length then
            (rest.takeWhile is_digit)[j - 20]?
          else ((((((destination.set 11 h1).set 12 h2).set 14 m1).set 15 m2).set 17 s1).set
            18 s2)[j]? := by
    intro j
    rw [hform, write_at_getElem _ _ _ _ (by rw [hDlen]; omega)]
  refine ⟨?_, ?_, by decide, by decide⟩
  · intro i hi
    rw [hget, if_pos (by omega), Nat.add_sub_cancel_left]
  · intro i hi1 hi2
    rw [hget, if_neg (by omega), hD]
    split_ifs <;> first | rfl | omega

set_option maxRecDepth 100000 in
/-- The theorem `parse_time_stale_fraction` at the buffer
"0000-00-00T15:30:30.311Z" and the token "172814.0": position 20 becomes `'0'`,
positions 21 and 22 keep "11". -/
theorem parse_time_stale_fraction_witness :
    24 ≤ (bytes "0000-00-00T15:30:30.311Z" ++ [0]).length
      ∧ (∀ b ∈ bytes "0", b < 256) ∧ ((bytes "0").takeWhile is_digit).length = 1
      ∧ 49 :: 55 :: 50 :: 56 :: 49 :: 52 :: 46 :: bytes "0" = bytes "172814.0"
      ∧ (∀ i, ((bytes "0").takeWhile is_digit).length ≤ i → i < 3 →
          (parse_time (bytes "0000-00-00T15:30:30.311Z" ++ [0])
              (49 :: 55 :: 50 :: 56 :: 49 :: 52 :: 46 :: bytes "0"))[20 + i]?
            = (bytes "0000-00-00T15:30:30.311Z" ++ [0])[20 + i]?) :=
  ⟨by decide, by decide, by decide, by decide,
    (parse_time_stale_fraction (bytes "0000-00-00T15:30:30.311Z" ++ [0]) 49 55 50 56 49 52
      (bytes "0") (by decide) (by decide) (by decide) (by decide) (by decide) (by decide)
      (by decide) (by decide) (by decide)).2.1⟩

/-! ## C29: the range of `parse_angular_distance` -/

theorem angular_minutes_fits (M : Int) (u : List Nat) (hu : ∀ c ∈ u, is_digit c = true)
    (hu6 : u.length ≤ 6) (hM0 : 0 ≤ M) (hM : M < 100) :
    0 ≤ (M * 10 ^ u.length + digits_value u) * 10 ^ (6 - u.length)
      ∧ (M * 10 ^ u.length + digits_value u) * 10 ^ (6 - u.length) < 100000000 := by
  have hX0 : 0 ≤ digits_from M u := Int.le_trans hM0 (digits_from_ge u hu M hM0)
  have hXlt := digits_from_lt u hu M hM0
  rw [show digits_value u = digits_from 0 u from rfl, ← digits_from_split u M]
  generalize u.length = j at hu6 hXlt
  generalize digits_from M u = X at hX0 hXlt
  interval_cases j <;> norm_num at hXlt ⊢ <;> omega

theorem angular_bounds (w : Nat) (token : List Nat) (hm : angular_matches w token = true) :
    0 ≤ digits_value (token.take w) ∧ digits_value (token.take w) < 10 ^ w
      ∧ 0 ≤ angular_scaled_minutes w token ∧ angular_scaled_minutes w token < 100000000 := by
  obtain ⟨hA, hB, _, _⟩ := (angular_matches_iff w token).1 hm
  have hAd : ∀ c ∈ token.take w, is_digit c = true := by
    have := hA.2; simpa [List.all_eq_true] using this
  have hBd : ∀ c ∈ (token.drop w).take 2, is_digit c = true := by
    have := hB.2; simpa [List.all_eq_true] using this
  have hD0 : (0 : Int) ≤ digits_from 0 (token.take w) := digits_from_ge _ hAd 0 (Int.le_refl _)
  have hD : digits_from 0 (token.take w) < 10 ^ w := by
    have h := digits_from_lt _ hAd 0 (Int.le_refl _)
    rw [hA.1] at h
    simpa using h
  have hM0 : (0 : Int) ≤ digits_from 0 ((token.drop w).take 2) :=
    digits_from_ge _ hBd 0 (Int.le_refl _)
  have hM : digits_from 0 ((token.drop w).take 2) < 100 := by
    have h := digits_from_lt _ hBd 0 (Int.le_refl _)
    rw [hB.1] at h
    norm_num at h
    exact h
  have hu : ∀ c ∈ (angular_frac w token).take (min (angular_frac w token).length 6),
      is_digit c = true := take_digit_all _ _ (takeWhile_digit_all _)
  have hlen : ((angular_frac w token).take (min (angular_frac w token).length 6)).length
      = min (angular_frac w token).length 6 := by
    rw [List.length_take]; omega
  have hfit := angular_minutes_fits _ _ hu (by rw [hlen]; omega) hM0 hM
  rw [hlen] at hfit
  exact ⟨hD0, hD, hfit.1, hfit.2⟩

theorem parse_angular_distance_width (token : List Nat) (direction : Nat)
    (hb : ∀ b ∈ token, b < 256) (sign : Int) (w : Nat)
    (hwd : angular_width direction = some (sign, w)) :
    (sign = 1 ∨ sign = -1) ∧ (w = 2 ∨ w = 3)
      ∧ parse_angular_distance token direction
        = if angular_matches w token = true then
            sign * (angular_degrees w token + Int.tdiv (angular_scaled_minutes w token) 60)
          else GPS_INVALID_VALUE := by
  rw [parse_angular_distance_eq]
  unfold angular_width at hwd
  unfold angular_degrees angular_scaled_minutes
  by_cases hN : direction = 78
  · simp only [hN, if_true, Option.some.injEq, Prod.mk.injEq] at hwd ⊢
    obtain ⟨rfl, rfl⟩ := hwd
    exact ⟨Or.inl rfl, Or.inl rfl,
      angular_core 1 (Or.inl rfl) 2 (by decide) (by decide) token hb⟩
  by_cases hS : direction = 83
  · simp only [hS, if_true, Option.some.injEq, Prod.mk.injEq] at hwd ⊢
    obtain ⟨rfl, rfl⟩ := hwd
    exact ⟨Or.inr rfl, Or.inl rfl,
      angular_core (-1) (Or.inr rfl) 2 (by decide) (by decide) token hb⟩
  by_cases hE : direction = 69
  · simp only [hE, if_true, Option.some.injEq, Prod.mk.injEq] at hwd ⊢
    obtain ⟨rfl, rfl⟩ := hwd
    exact ⟨Or.inl rfl, Or.inr rfl,
      angular_core 1 (Or.inl rfl) 3 (by decide) (by decide) token hb⟩
  by_cases hW : direction = 87
  · simp only [hW, if_true, Option.some.injEq, Prod.mk.injEq] at hwd ⊢
    obtain ⟨rfl, rfl⟩ := hwd
    exact ⟨Or.inr rfl, Or.inr rfl,
      angular_core (-1) (Or.inr rfl) 3 (by decide) (by decide) token hb⟩
  simp [hN, hS, hE, hW] at hwd

theorem parse_angular_distance_no_width (token : List Nat) (direction : Nat)
    (hwd : angular_width direction = none) :
    parse_angular_distance token direction = GPS_INVALID_VALUE := by
  rw [parse_angular_distance_eq]
  unfold angular_width at hwd
  rw [hwd]
  split <;> rfl

theorem angular_range_core (sign : Int) (hs : sign = 1 ∨ sign = -1) (w : Nat)
    (hw : w = 2 ∨ w = 3) (token : List Nat) (hm : angular_matches w token = true) :
    0 ≤ angular_degrees w token ∧ angular_degrees w token < 2147483648
      ∧ 0 ≤ angular_scaled_minutes w token ∧ angular_scaled_minutes w token < 2147483648
      ∧ 0 ≤ angular_degrees w token + Int.tdiv (angular_scaled_minutes w token) 60
      ∧ angular_degrees w token + Int.tdiv (angular_scaled_minutes w token) 60 < 2147483648
      ∧ (w = 2 →
          -100666666
              ≤ sign * (angular_degrees w token + Int.tdiv (angular_scaled_minutes w token) 60)
            ∧ sign * (angular_degrees w token + Int.tdiv (angular_scaled_minutes w token) 60)
              ≤ 100666666)
      ∧ (-1000666666
            ≤ sign * (angular_degrees w token + Int.tdiv (angular_scaled_minutes w token) 60)
          ∧ sign * (angular_degrees w token + Int.tdiv (angular_scaled_minutes w token) 60)
            ≤ 1000666666)
      ∧ sign * (angular_degrees w token + Int.tdiv (angular_scaled_minutes w token) 60)
          ≠ GPS_INVALID_VALUE := by
  obtain ⟨hD0, hD, hX0, hX⟩ := angular_bounds w token hm
  rw [Int.tdiv_eq_ediv hX0 (by decide), show GPS_INVALID_VALUE = 2147483647 from rfl]
  unfold angular_degrees
  generalize angular_scaled_minutes w token = X at hX0 hX ⊢
  generalize digits_value (token.take w) = D at hD0 hD ⊢
  rcases hw with h | h <;> subst h <;> norm_num at hD <;>
    rcases hs with h | h <;> subst h <;> simp only [one_mul, neg_mul] <;>
    refine ⟨by omega, by omega, by omega, by omega, by omega, by omega, ?_, by omega, by omega⟩
  · intro _; omega
  · intro _; omega
  · intro h; omega
  · intro h; omega

set_option maxRecDepth 100000 in
/-- C29: `parse_angular_distance` never overflows and never collides with the
sentinel. For every byte token and direction the angular grammar accepts, the
degrees times `10^6`, the arc minutes times the factor and their sum fit in a
signed 32-bit integer, the result `r` is the signed sum, `|r|` is at most
1000666666 for `E` and `W` and at most 100666666 for `N` and `S`, and `r` is
not `GPS_INVALID_VALUE`; the function returns the sentinel if and only if the
token or the direction is rejected. No geographic range is checked: "9999.9"
with `N` (99 degrees, 99.9 minutes) is accepted. -/
theorem parse_angular_distance_range (token : List Nat) (direction : Nat)
    (hb : ∀ b ∈ token, b < 256) :
    (angular_accepts token direction = true →
        ∃ sign w, angular_width direction = some (sign, w)
          ∧ 0 ≤ angular_degrees w token ∧ angular_degrees w token < 2147483648
          ∧ 0 ≤ angular_scaled_minutes w token ∧ angular_scaled_minutes w token < 2147483648
          ∧ 0 ≤ angular_degrees w token + Int.tdiv (angular_scaled_minutes w token) 60
          ∧ angular_degrees w token + Int.tdiv (angular_scaled_minutes w token) 60 < 2147483648
          ∧ parse_angular_distance token direction
              = sign * (angular_degrees w token + Int.tdiv (angular_scaled_minutes w token) 60)
          ∧ -1000666666 ≤ parse_angular_distance token direction
          ∧ parse_angular_distance token direction ≤ 1000666666
          ∧ ((direction = 78 ∨ direction = 83) →
              -100666666 ≤ parse_angular_distance token direction
                ∧ parse_angular_distance token direction ≤ 100666666)
          ∧ parse_angular_distance token direction ≠ GPS_INVALID_VALUE)
      ∧ (parse_angular_distance token direction = GPS_INVALID_VALUE
          ↔ angular_accepts token direction = false)
      ∧ parse_angular_distance (bytes "9999.9") 78 = 100665000
      ∧ parse_angular_distance (bytes "99999.999999") 87 = -1000666666
      ∧ parse_angular_distance (bytes "9999.999999") 78 = 100666666 := by
  refine ⟨?_, ?_, by decide, by decide, by decide⟩
  · intro hacc
    unfold angular_accepts at hacc
    cases hwd : angular_width direction with
    | none => rw [hwd] at hacc; simp at hacc
    | some p =>
      obtain ⟨sign, w⟩ := p
      rw [hwd] at hacc
      simp only [] at hacc
      obtain ⟨hs, hw, hr⟩ := parse_angular_distance_width token direction hb sign w hwd
      rw [if_pos hacc] at hr
      obtain ⟨a1, a2, a3, a4, a5, a6, a7, a8, a9⟩ := angular_range_core sign hs w hw token hacc
      refine ⟨sign, w, rfl, a1, a2, a3, a4, a5, a6, hr, ?_, ?_, ?_, ?_⟩
      · rw [hr]; exact a8.1
      · rw [hr]; exact a8.2
      · intro hdir
        have hw2 : w = 2 := by
          unfold angular_width at hwd
          rcases hdir with h | h <;> subst h <;>
            simp only [if_true, Nat.reduceEqDiff, if_false, Option.some.injEq,
              Prod.mk.injEq] at hwd <;> exact hwd.2.symm
        rw [hr]; exact a7 hw2
      · rw [hr]; exact a9
  · unfold angular_accepts
    cases hwd : angular_width direction with
    | none =>
      simp only [parse_angular_distance_no_width token direction hwd]
    | some p =>
      obtain ⟨sign, w⟩ := p
      simp only []
      obtain ⟨hs, hw, hr⟩ := parse_angular_distance_width token direction hb sign w hwd
      by_cases hm : angular_matches w token = true
      · rw [if_pos hm] at hr
        have a9 := (angular_range_core sign hs w hw token hm).2.2.2.2.2.2.2.2
        rw [← hr] at a9
        simp only [a9, hm, Bool.true_eq_false]
      · rw [if_neg hm] at hr
        simp only [hr, true_iff]
        simpa using hm

set_option maxRecDepth 100000 in
/-- The theorem `parse_angular_distance_range` at the token "4807.038" with
direction `'N'`. -/
theorem parse_angular_distance_range_witness :
    (∀ b ∈ bytes "4807.038", b < 256) ∧ angular_accepts (bytes "4807.038") 78 = true
      ∧ (parse_angular_distance (bytes "4807.038") 78 = GPS_INVALID_VALUE
          ↔ angular_accepts (bytes "4807.038") 78 = false)
      ∧ (∃ sign w, angular_width 78 = some (sign, w)
          ∧ 0 ≤ angular_degrees w (bytes "4807.038")
          ∧ angular_degrees w (bytes "4807.038") < 2147483648) :=
  ⟨by decide, by decide,
    (parse_angular_distance_range (bytes "4807.038") 78 (by decide)).2.1,
    ((parse_angular_distance_range (bytes "4807.038") 78 (by decide)).1 (by decide)).imp
      (fun _ h => h.imp (fun _ h2 => ⟨h2.1, h2.2.1, h2.2.2.1⟩))⟩

/-! ## C27: the accesses to the token array -/

theorem comma_offsets_bound (body : List Nat) :
    ∀ p, ∀ o ∈ comma_offsets p body, p < o ∧ o ≤ p + body.length := by
  induction body with
  | nil => intro p o h; simp [comma_offsets] at h
  | cons c rest ih =>
    intro p o h
    simp only [comma_offsets] at h
    simp only [List.length_cons]
    split_ifs at h
    · rcases List.mem_cons.1 h with h1 | h1
      · omega
      · have := ih (p + 1) o h1; omega
    · have := ih (p + 1) o h; omega

theorem mem_drop_of_getElem (buf : List Nat) (o i v : Nat) (h : buf[i]? = some v)
    (ho : o ≤ i) : v ∈ buf.drop o := by
  have h2 : (buf.drop o)[i - o]? = some v := by
    rw [List.getElem?_drop, ← h]
    congr 1
    omega
  exact List.getElem?_mem h2

theorem token_array_terminated (t0 t1 : Nat) (cur tail : List Nat) (k : Nat)
    (hk : k < (scan_body cur).count 44) :
    ∃ t, token_array ([36, t0, t1] ++ mutate (scan_body cur) ++ [0] ++ tail)
          (comma_offsets 3 (scan_body cur)) k = some t
      ∧ 0 ∈ t ∧ cstr t = field (36 :: t0 :: t1 :: cur) k := by
  have hlen := comma_offsets_length (scan_body cur) 3
  obtain ⟨t, ht⟩ := token_array_some
    ([36, t0, t1] ++ mutate (scan_body cur) ++ [0] ++ tail)
    (comma_offsets 3 (scan_body cur)) k (by omega)
  refine ⟨t, ht, ?_, token_array_field t0 t1 cur tail k t ht⟩
  simp only [token_array, Option.map_eq_some'] at ht
  obtain ⟨o, ho, rfl⟩ := ht
  have hmem : o ∈ comma_offsets 3 (scan_body cur) := List.get?_mem ho
  have hb := comma_offsets_bound (scan_body cur) 3 o hmem
  apply mem_drop_of_getElem _ o (3 + (scan_body cur).length) 0 _ hb.2
  have hl : ([36, t0, t1] ++ mutate (scan_body cur)).length = 3 + (scan_body cur).length := by
    simp [mutate]; omega
  rw [List.append_assoc, List.getElem?_append_right (by omega), hl]
  simp

/-- C27: for every well-framed sentence (bytes that pass every gate and carry
between the sentence ID and the `'*'` a number `n` of commas with
`min(type) ≤ n ≤ 32`), the tokenizing loop ends at the `'*'` having stored
exactly `n` entries in `token`, at the indices `0` to `n - 1`, all below 32;
each stored entry points to a string that is NUL-terminated inside the
sentence buffer and is the corresponding field; the dispatched extractor is
defined as soon as the entries below `min(type)` are stored; and `gps_decode`
returns `GPS_OK` without reading any entry that was not stored. -/
theorem gps_decode_token_bounds (r : gps_tpv) (s : List Nat) (hw : well_framed s) :
    (∀ c, tokenize (s.take 3) (s.drop 3) c []
        = scan.star (s.take 3 ++ mutate (scan_body (s.drop 3)))
            ((s.drop 3).drop (scan_body (s.drop 3)).length)
            (xor_fold c (scan_body (s.drop 3))) (comma_offsets 3 (scan_body (s.drop 3))))
      ∧ (comma_offsets 3 (scan_body (s.drop 3))).length = field_commas s
      ∧ field_commas s ≤ NMEA_MAX_FIELDS
      ∧ min_tokens (sentence_id s) ≤ field_commas s
      ∧ (∀ k, k < field_commas s →
          ∃ t, token_array
                (s.take 3 ++ mutate (scan_body (s.drop 3)) ++ [0]
                  ++ ((s.drop 3).drop (scan_body (s.drop 3)).length).tail)
                (comma_offsets 3 (scan_body (s.drop 3))) k = some t
            ∧ 0 ∈ t ∧ cstr t = field s k)
      ∧ (∃ parse, select_parse (s.drop 3) = some parse
          ∧ ∀ (r1 : gps_tpv) (token : Nat → Option (List Nat)),
              (∀ k, k < min_tokens (sentence_id s) → ∃ t, token k = some t) →
              ∃ r2, parse r1 token = some r2)
      ∧ ∃ d, gps_decode r s = some d ∧ d.code = GPS_OK := by
  obtain ⟨d, hdec, hc, _⟩ := gps_decode_well_framed r s hw
  obtain ⟨hreach, h32, hstar, _, _, _, _⟩ := gps_decode_ok r s d hdec hc
  obtain ⟨_, _, hmin, _⟩ := hw
  obtain ⟨h0, h1, h2, h3, h4, h5, hid⟩ := hreach
  obtain ⟨t0, t1, cur, rfl⟩ : ∃ t0 t1 cur, s = 36 :: t0 :: t1 :: cur :=
    ⟨_, _, _, shape_of_header s h0 h1 h2⟩
  have e3 : (36 :: t0 :: t1 :: cur).drop 3 = cur := rfl
  have e4 : (36 :: t0 :: t1 :: cur).take 3 = [36, t0, t1] := rfl
  rw [e3] at hstar
  simp only [e3, e4]
  have hfc : field_commas (36 :: t0 :: t1 :: cur) = (scan_body cur).count 44 := rfl
  rw [hfc] at h32 hmin ⊢
  refine ⟨?_, comma_offsets_length _ 3, h32, hmin, ?_, ?_, d, hdec, hc⟩
  · intro c
    rw [tokenize_eq cur [36, t0, t1] c [] (by simp)]
    have hno : ¬ (NMEA_MAX_FIELDS < ([] : List Nat).length + (scan_body cur).count 44) := by
      simp only [List.length_nil]; omega
    simp only [List.length_nil] at hno
    simp only [hno, if_false, hstar, if_true, List.nil_append, List.length_cons,
      List.length_nil]
  · intro k hk
    exact token_array_terminated t0 t1 cur _ k hk
  · rcases cur with _ | ⟨x, _ | ⟨y, _ | ⟨z, rest⟩⟩⟩
    · simp [rd] at h3
    · simp [rd] at h4
    · simp [rd] at h5
    · have hx : x ≠ 0 := by simpa [rd] using h3
      have hy : y ≠ 0 := by simpa [rd] using h4
      exact supported_select x y z rest hx hy hid

set_option maxRecDepth 100000 in
/-- The theorem `gps_decode_token_bounds` at the GGA sentence of the tests: 14
entries are stored and the decode returns `GPS_OK`. -/
theorem gps_decode_token_bounds_witness :
    well_framed gga_sentence ∧ field_commas gga_sentence = 14
      ∧ min_tokens (sentence_id gga_sentence) = 10
      ∧ (comma_offsets 3 (scan_body (gga_sentence.drop 3))).length = field_commas gga_sentence
      ∧ ∃ d, gps_decode init_tpv gga_sentence = some d ∧ d.code = GPS_OK :=
  ⟨⟨by decide, by decide, by decide, by decide⟩, by decide, by decide,
    (gps_decode_token_bounds init_tpv gga_sentence
      ⟨by decide, by decide, by decide, by decide⟩).2.1,
    (gps_decode_token_bounds init_tpv gga_sentence
      ⟨by decide, by decide, by decide, by decide⟩).2.2.2.2.2.2⟩

/-! ## C22: decoding a sentence twice -/

theorem write_all_length (ws : List (Nat × Nat)) :
    ∀ d, (write_all ws d).length = d.length := by
  induction ws with
  | nil => intro d; rfl
  | cons w ws ih =>
    intro d
    show (write_all ws (d.set w.1 w.2)).length = d.length
    rw [ih, List.length_set]

theorem write_all_getElem (j : Nat) (ws : List (Nat × Nat)) :
    ∀ d : List Nat, j < d.length → (write_all ws d)[j]? = last_write j ws d[j]? := by
  induction ws with
  | nil => intro d _; rfl
  | cons w ws ih =>
    intro d hj
    show (write_all ws (d.set w.1 w.2))[j]? = last_write j ws (if w.1 = j then some w.2 else d[j]?)
    rw [ih _ (by rw [List.length_set]; exact hj), List.getElem?_set]
    by_cases hw : w.1 = j
    · have : w.1 < d.length := by omega
      simp only [hw, if_true, hj]
    · simp only [hw, if_false]

theorem last_write_cases (j : Nat) (ws : List (Nat × Nat)) :
    (∀ o, last_write j ws o = o) ∨ ∃ v, ∀ o, last_write j ws o = some v := by
  induction ws with
  | nil => exact Or.inl (fun _ => rfl)
  | cons w ws ih =>
    have hstep : ∀ o, last_write j (w :: ws) o
        = last_write j ws (if w.1 = j then some w.2 else o) := fun _ => rfl
    rcases ih with h | ⟨v, h⟩
    · by_cases hw : w.1 = j
      · exact Or.inr ⟨w.2, fun o => by rw [hstep, h, if_pos hw]⟩
      · exact Or.inl (fun o => by rw [hstep, h, if_neg hw])
    · exact Or.inr ⟨v, fun o => by rw [hstep, h]⟩

theorem write_all_idem (ws : List (Nat × Nat)) (d : List Nat) :
    write_all ws (write_all ws d) = write_all ws d := by
  apply List.ext_getElem?
  intro j
  by_cases hj : j < d.length
  · rw [write_all_getElem j ws _ (by rw [write_all_length]; exact hj),
      write_all_getElem j ws d hj]
    rcases last_write_cases j ws with h | ⟨v, h⟩
    · rw [h, h]
    · rw [h, h]
  · rw [List.getElem?_eq_none (by simp only [write_all_length]; omega),
      List.getElem?_eq_none (by simp only [write_all_length]; omega)]

theorem is_writes_idem (f : List Nat → List Nat) (hf : is_writes f) (d : List Nat) :
    f (f d) = f d := by
  obtain ⟨ws, h⟩ := hf
  rw [h, h, write_all_idem]

theorem is_writes_id : is_writes (fun d => d) := ⟨[], fun _ => rfl⟩

theorem is_writes_set (f : List Nat → List Nat) (p v : Nat) (hf : is_writes f) :
    is_writes (fun d => (f d).set p v) := by
  obtain ⟨ws, h⟩ := hf
  refine ⟨ws ++ [(p, v)], fun d => ?_⟩
  simp only [h, write_all, List.foldl_append, List.foldl_cons, List.foldl_nil]

theorem is_writes_ite (c : Prop) [Decidable c] (f g : List Nat → List Nat)
    (hf : is_writes f) (hg : is_writes g) :
    is_writes (fun d => if c then f d else g d) := by
  by_cases hc : c
  · simpa only [hc, if_true] using hf
  · simpa only [hc, if_false] using hg

theorem is_writes_copy_digits (base n : Nat) (nmea : List Nat) :
    ∀ (i c0 : Nat) (f : List Nat → List Nat), is_writes f →
      is_writes (fun d => copy_digits base n i c0 nmea (f d)) := by
  induction nmea with
  | nil =>
    intro i c0 f hf
    unfold copy_digits
    exact is_writes_ite _ _ _ (is_writes_set f _ _ hf) hf
  | cons c rest ih =>
    intro i c0 f hf
    unfold copy_digits
    exact is_writes_ite _ _ _ (ih (i + 1) c _ (is_writes_set f _ _ hf)) hf

theorem is_writes_comp (f g : List Nat → List Nat) (hf : is_writes f) (hg : is_writes g) :
    is_writes (fun d => g (f d)) := by
  obtain ⟨ws, h⟩ := hf
  obtain ⟨ws2, h2⟩ := hg
  refine ⟨ws ++ ws2, fun d => ?_⟩
  simp only [h, h2, write_all, List.foldl_append]

theorem set_all_is_writes (ps : List Nat) :
    ∀ cs : List Nat, is_writes (set_all ps cs) := by
  induction ps with
  | nil => intro cs; exact ⟨[], fun _ => rfl⟩
  | cons p ps ih =>
    intro cs
    cases cs with
    | nil => exact ⟨[], fun _ => rfl⟩
    | cons c cs =>
      exact is_writes_comp (fun d => d.set p c) (set_all ps cs)
        (is_writes_set _ p c is_writes_id) (ih cs)

theorem time_matched_six (token : List Nat) (hk : ¬ (time_matched token < 6)) :
    is_digit_0_to_2 (rd token 0) = true ∧ is_digit_0_to_9 (rd token 1) = true
      ∧ is_digit_0_to_5 (rd token 2) = true ∧ is_digit_0_to_9 (rd token 3) = true
      ∧ is_digit_0_to_5 (rd token 4) = true ∧ is_digit_0_to_9 (rd token 5) = true := by
  unfold time_matched at hk
  split_ifs at hk with c0 c1 c2 c3 c4 c5 <;> first | omega | skip
  simp only [Bool.not_eq_false] at c0 c1 c2 c3 c4 c5
  exact ⟨c0, c1, c2, c3, c4, c5⟩

theorem parse_time_is_writes (nmea : List Nat) : is_writes (fun d => parse_time d nmea) := by
  by_cases hk : time_matched nmea < 6
  · have e : (fun d => parse_time d nmea)
        = set_all (time_positions.take (time_matched nmea))
            [rd nmea 0, rd nmea 1, rd nmea 2, rd nmea 3, rd nmea 4, rd nmea 5] := by
      funext d
      exact parse_time_written d nmea hk
    rw [e]
    exact set_all_is_writes _ _
  · obtain ⟨c0, c1, c2, c3, c4, c5⟩ := time_matched_six nmea hk
    have e : (fun d => parse_time d nmea)
        = fun d =>
          if hd (nmea.drop 6) = 46 then
            copy_digits 20 3 0 (hd (nmea.drop 6).tail) (nmea.drop 6).tail.tail
              ((((((d.set 11 (rd nmea 0)).set 12 (rd nmea 1)).set 14 (rd nmea 2)).set 15
                (rd nmea 3)).set 17 (rd nmea 4)).set 18 (rd nmea 5))
          else
            (((((((((d.set 11 (rd nmea 0)).set 12 (rd nmea 1)).set 14 (rd nmea 2)).set 15
              (rd nmea 3)).set 17 (rd nmea 4)).set 18 (rd nmea 5)).set 20 48).set 21 48).set
              22 48) := by
      funext d
      rw [parse_time_normal, parse_time_valid d _ _ _ _ _ _ _ c0 c1 c2 c3 c4 c5]
    rw [e]
    have h6 : is_writes (fun d : List Nat =>
        (((((d.set 11 (rd nmea 0)).set 12 (rd nmea 1)).set 14 (rd nmea 2)).set 15
          (rd nmea 3)).set 17 (rd nmea 4)).set 18 (rd nmea 5)) :=
      is_writes_set _ _ _ (is_writes_set _ _ _ (is_writes_set _ _ _ (is_writes_set _ _ _
        (is_writes_set _ _ _ (is_writes_set _ _ _ is_writes_id)))))
    exact is_writes_ite _ _ _ (is_writes_copy_digits 20 3 _ 0 _ _ h6)
      (is_writes_set _ _ _ (is_writes_set _ _ _ (is_writes_set _ _ _ h6)))

theorem parse_date_is_writes (nmea : List Nat) : is_writes (fun d => parse_date d nmea) := by
  by_cases c0 : is_digit_0_to_3 (hd nmea) = true
  swap
  · exact ⟨[], fun d => by simp [parse_date, c0, write_all]⟩
  by_cases c1 : is_digit_0_to_9 (hd nmea.tail) = true
  swap
  · exact ⟨[(8, hd nmea)], fun d => by simp [parse_date, c0, c1, write_all]⟩
  by_cases c2 : is_digit_0_to_1 (hd nmea.tail.tail) = true
  swap
  · exact ⟨[(8, hd nmea), (9, hd nmea.tail)],
      fun d => by simp [parse_date, c0, c1, c2, write_all]⟩
  by_cases c3 : is_digit_0_to_9 (hd nmea.tail.tail.tail) = true
  swap
  · exact ⟨[(8, hd nmea), (9, hd nmea.tail), (5, hd nmea.tail.tail)],
      fun d => by simp [parse_date, c0, c1, c2, c3, write_all]⟩
  by_cases c4 : is_digit_0_to_9 (hd nmea.tail.tail.tail.tail) = true
  swap
  · exact ⟨[(8, hd nmea), (9, hd nmea.tail), (5, hd nmea.tail.tail),
        (6, hd nmea.tail.tail.tail)],
      fun d => by simp [parse_date, c0, c1, c2, c3, c4, write_all]⟩
  by_cases c5 : is_digit_0_to_9 (hd nmea.tail.tail.tail.tail.tail) = true
  swap
  · exact ⟨[(8, hd nmea), (9, hd nmea.tail), (5, hd nmea.tail.tail),
        (6, hd nmea.tail.tail.tail), (2, hd nmea.tail.tail.tail.tail)],
      fun d => by simp [parse_date, c0, c1, c2, c3, c4, c5, write_all]⟩
  exact ⟨[(8, hd nmea), (9, hd nmea.tail), (5, hd nmea.tail.tail),
      (6, hd nmea.tail.tail.tail), (2, hd nmea.tail.tail.tail.tail),
      (3, hd nmea.tail.tail.tail.tail.tail), (0, 50), (1, 48)],
    fun d => by simp [parse_date, c0, c1, c2, c3, c4, c5, write_all]⟩

theorem parse_extended_date_is_writes (day month year : List Nat) :
    is_writes (fun d => parse_extended_date d day month year) := by
  by_cases c0 : is_digit_0_to_3 (hd day) = true
  swap
  · exact ⟨[], fun d => by simp [parse_extended_date, c0, write_all]⟩
  by_cases c1 : is_digit_0_to_9 (hd day.tail) = true
  swap
  · exact ⟨[(8, hd day)], fun d => by simp [parse_extended_date, c0, c1, write_all]⟩
  by_cases c2 : is_digit_0_to_1 (hd month) = true
  swap
  · exact ⟨[(8, hd day), (9, hd day.tail)],
      fun d => by simp [parse_extended_date, c0, c1, c2, write_all]⟩
  by_cases c3 : is_digit_0_to_9 (hd month.tail) = true
  swap
  · exact ⟨[(8, hd day), (9, hd day.tail), (5, hd month)],
      fun d => by simp [parse_extended_date, c0, c1, c2, c3, write_all]⟩
  have e : (fun d => parse_extended_date d day month year)
      = fun d => copy_digits 0 4 0 (hd year) year.tail
          ((((d.set 8 (hd day)).set 9 (hd day.tail)).set 5 (hd month)).set 6 (hd month.tail)) := by
    funext d
    simp [parse_extended_date, c0, c1, c2, c3]
  rw [e]
  exact is_writes_copy_digits 0 4 _ 0 _ _
    (is_writes_set _ _ _ (is_writes_set _ _ _ (is_writes_set _ _ _
      (is_writes_set _ _ _ is_writes_id))))

theorem parse_gga_defined (r r2 r1 : gps_tpv) (token : Nat → Option (List Nat))
    (h : parse_gga r token = some r1) : ∃ r3, parse_gga r2 token = some r3 := by
  simp only [parse_gga, Option.bind_eq_bind, Option.bind_eq_some, Option.pure_def,
    Option.some.injEq] at h ⊢
  obtain ⟨t0, h0, t1, h1, t2, h2, t3, h3, t4, h4, t8, h8, t9, h9, _⟩ := h
  exact ⟨_, t0, h0, t1, h1, t2, h2, t3, h3, t4, h4, t8, h8, t9, h9, rfl⟩

theorem parse_gll_defined (r r2 r1 : gps_tpv) (token : Nat → Option (List Nat))
    (h : parse_gll r token = some r1) : ∃ r3, parse_gll r2 token = some r3 := by
  simp only [parse_gll, Option.bind_eq_bind, Option.bind_eq_some] at h ⊢
  obtain ⟨t5, h5, h⟩ := h
  by_cases hv : is_status_valid (hd t5) = true
  · simp only [hv, if_true, Option.bind_eq_bind, Option.bind_eq_some, Option.pure_def,
      Option.some.injEq] at h
    obtain ⟨t0, h0, t1, h1, t2, h2, t3, h3, t4, h4, _⟩ := h
    refine ⟨{ r2 with
      latitude := parse_angular_distance t0 (hd t1)
      longitude := parse_angular_distance t2 (hd t3)
      time := parse_time r2.time t4 }, t5, h5, ?_⟩
    simp only [hv, if_true, h0, h1, h2, h3, h4, Option.bind_eq_bind, Option.some_bind,
      Option.pure_def]
  · refine ⟨r2, t5, h5, ?_⟩
    simp only [hv, Bool.false_eq_true, if_false, Option.pure_def]

theorem parse_gsa_defined (r r2 r1 : gps_tpv) (token : Nat → Option (List Nat))
    (h : parse_gsa r token = some r1) : ∃ r3, parse_gsa r2 token = some r3 := by
  simp only [parse_gsa, Option.bind_eq_bind, Option.bind_eq_some, Option.pure_def,
    Option.some.injEq] at h ⊢
  obtain ⟨t1, h1, _⟩ := h
  exact ⟨_, t1, h1, rfl⟩

theorem parse_rmc_defined (r r2 r1 : gps_tpv) (token : Nat → Option (List Nat))
    (h : parse_rmc r token = some r1) : ∃ r3, parse_rmc r2 token = some r3 := by
  simp only [parse_rmc, Option.bind_eq_bind, Option.bind_eq_some] at h ⊢
  obtain ⟨t1, h1, h⟩ := h
  by_cases hv : is_status_valid (hd t1) = true
  · simp only [hv, if_true, Option.bind_eq_bind, Option.bind_eq_some, Option.pure_def,
      Option.some.injEq] at h
    obtain ⟨t0, h0, t2, h2, t3, h3, t4, h4, t5, h5, t7, h7, t6, h6, t8, h8, _⟩ := h
    refine ⟨{ r2 with
      time := parse_date (parse_time r2.time t0) t8
      latitude := parse_angular_distance t2 (hd t3)
      longitude := parse_angular_distance t4 (hd t5)
      track := parse_track t7 84
      speed := parse_speed t6 78 }, t1, h1, ?_⟩
    simp only [hv, if_true, h0, h2, h3, h4, h5, h6, h7, h8, Option.bind_eq_bind,
      Option.some_bind, Option.pure_def]
  · refine ⟨r2, t1, h1, ?_⟩
    simp only [hv, Bool.false_eq_true, if_false, Option.pure_def]

theorem parse_vtg_defined (r r2 r1 : gps_tpv) (token : Nat → Option (List Nat))
    (h : parse_vtg r token = some r1) : ∃ r3, parse_vtg r2 token = some r3 := by
  simp only [parse_vtg, Option.bind_eq_bind, Option.bind_eq_some, Option.pure_def,
    Option.some.injEq] at h ⊢
  obtain ⟨t0, h0, t1, h1, t6, h6, t7, h7, _⟩ := h
  exact ⟨_, t0, h0, t1, h1, t6, h6, t7, h7, rfl⟩

theorem parse_zda_defined (r r2 r1 : gps_tpv) (token : Nat → Option (List Nat))
    (h : parse_zda r token = some r1) : ∃ r3, parse_zda r2 token = some r3 := by
  simp only [parse_zda, Option.bind_eq_bind, Option.bind_eq_some, Option.pure_def,
    Option.some.injEq] at h ⊢
  obtain ⟨t0, h0, t1, h1, t2, h2, t3, h3, _⟩ := h
  exact ⟨_, t0, h0, t1, h1, t2, h2, t3, h3, rfl⟩

theorem select_parse_defined (cur : List Nat) (parse : parse_function)
    (hp : select_parse cur = some parse) (r r2 r1 : gps_tpv)
    (token : Nat → Option (List Nat)) (h : parse r token = some r1) :
    ∃ r3, parse r2 token = some r3 := by
  unfold select_parse at hp
  split_ifs at hp <;> simp only [Option.some.injEq] at hp <;> subst hp
  · exact parse_gga_defined r r2 r1 token h
  · exact parse_gll_defined r r2 r1 token h
  · exact parse_gsa_defined r r2 r1 token h
  · exact parse_rmc_defined r r2 r1 token h
  · exact parse_vtg_defined r r2 r1 token h
  · exact parse_zda_defined r r2 r1 token h

/-- Whether a decode is accepted does not depend on the record: a sentence
decoded with `GPS_OK` into one record is decoded with `GPS_OK` into any other. -/
theorem gps_decode_ok_record (r r2 : gps_tpv) (s : List Nat) (d : decoded)
    (h : gps_decode r s = some d) (hc : d.code = GPS_OK) :
    ∃ d2, gps_decode r2 s = some d2 ∧ d2.code = GPS_OK := by
  by_cases hh : rd s 0 = 36
  swap
  · simp [gps_decode, hh] at h
    subst h
    simp [GPS_ERROR_HEAD, GPS_OK] at hc
  by_cases ht : rd s 1 = 0 ∨ rd s 2 = 0
  · simp [gps_decode, hh, ht] at h
    subst h
    simp [GPS_ERROR_TRUNCATED, GPS_OK] at hc
  have ht1 : rd s 1 ≠ 0 := fun h => ht (Or.inl h)
  have ht2 : rd s 2 ≠ 0 := fun h => ht (Or.inr h)
  obtain ⟨t0, t1, cur, rfl⟩ : ∃ t0 t1 cur, s = 36 :: t0 :: t1 :: cur :=
    ⟨_, _, _, shape_of_header s hh ht1 ht2⟩
  have e1 : rd (36 :: t0 :: t1 :: cur) 1 = t0 := rfl
  have e2 : rd (36 :: t0 :: t1 :: cur) 2 = t1 := rfl
  rw [e1] at ht1
  rw [e2] at ht2
  by_cases hm : memchr_nul SENTENCE_ID_SIZE cur = true
  · simp [gps_decode, rd, ht1, ht2, hm] at h
    subst h
    simp [GPS_ERROR_TRUNCATED, GPS_OK] at hc
  have hm2 : memchr_nul SENTENCE_ID_SIZE cur = false := by simpa using hm
  cases hp : select_parse cur with
  | none =>
    simp [gps_decode, rd, ht1, ht2, hm2, hp] at h
    subst h
    simp [GPS_ERROR_UNSUPPORTED, GPS_OK] at hc
  | some parse =>
    rw [gps_decode_body r t0 t1 _ parse ht1 ht2 hm2 hp] at h
    rw [gps_decode_body r2 t0 t1 _ parse ht1 ht2 hm2 hp]
    split_ifs at h with c0 c1 c2 c3
    · simp only [Option.some.injEq] at h
      subst h
      simp [GPS_ERROR_TRUNCATED, GPS_OK] at hc
    · simp only [Option.some.injEq] at h
      subst h
      simp [GPS_ERROR_CHECKSUM, GPS_OK] at hc
    · simp only [Option.some.injEq] at h
      subst h
      simp [GPS_ERROR_FOOT, GPS_OK] at hc
    · rw [if_neg c0, if_neg c1, if_neg c2, if_neg c3]
      cases hparse : parse (store_talker r t0 t1)
          (token_array ([36, t0, t1] ++ mutate (scan_body cur) ++ [0]
              ++ (cur.drop (scan_body cur).length).tail)
            (comma_offsets 3 (scan_body cur))) with
      | none => rw [hparse] at h; simp at h
      | some r1 =>
        obtain ⟨r3, h3⟩ := select_parse_defined cur parse hp _ (store_talker r2 t0 t1) r1 _
          hparse
        rw [h3]
        exact ⟨_, rfl, rfl⟩

theorem extract_fields_idem (id : List Nat) (r : gps_tpv) (t0 t1 : Nat) (f : Nat → List Nat) :
    extract_fields id (store_talker (extract_fields id (store_talker r t0 t1) f) t0 t1) f
      = extract_fields id (store_talker r t0 t1) f := by
  have htalk : ∀ l : List Nat,
      (((l.set 0 t0).set 1 t1).set 0 t0).set 1 t1 = (l.set 0 t0).set 1 t1 := fun l =>
    is_writes_idem (fun d => (d.set 0 t0).set 1 t1)
      (is_writes_set _ _ _ (is_writes_set _ _ _ is_writes_id)) l
  have htime : ∀ a d, parse_time (parse_time d a) a = parse_time d a := fun a d =>
    is_writes_idem (fun d => parse_time d a) (parse_time_is_writes a) d
  have hrmc : ∀ a b d, parse_date (parse_time (parse_date (parse_time d a) b) a) b
      = parse_date (parse_time d a) b := fun a b d =>
    is_writes_idem (fun d => parse_date (parse_time d a) b)
      (is_writes_comp _ _ (parse_time_is_writes a) (parse_date_is_writes b)) d
  have hzda : ∀ a x y z d,
      parse_extended_date (parse_time (parse_extended_date (parse_time d a) x y z) a) x y z
        = parse_extended_date (parse_time d a) x y z := fun a x y z d =>
    is_writes_idem (fun d => parse_extended_date (parse_time d a) x y z)
      (is_writes_comp _ _ (parse_time_is_writes a) (parse_extended_date_is_writes x y z)) d
  unfold extract_fields store_talker
  split_ifs <;> simp only [htalk, htime, hrmc, hzda]

/-- C22: for every record `r` and every sentence `s` on which `gps_decode`
returns `GPS_OK`, decoding a second, independent copy of `s` into the record
the first decode produced returns `GPS_OK` again and leaves every field (mode,
altitude, latitude, longitude, track, speed, time, talker_id) equal to its
value after the first decode. -/
theorem gps_decode_idempotent (r : gps_tpv) (s : List Nat) (d : decoded)
    (h : gps_decode r s = some d) (hc : d.code = GPS_OK) :
    ∃ d2, gps_decode d.tpv s = some d2 ∧ d2.code = GPS_OK ∧ d2.tpv = d.tpv
      ∧ d2.tpv.mode = d.tpv.mode ∧ d2.tpv.altitude = d.tpv.altitude
      ∧ d2.tpv.latitude = d.tpv.latitude ∧ d2.tpv.longitude = d.tpv.longitude
      ∧ d2.tpv.track = d.tpv.track ∧ d2.tpv.speed = d.tpv.speed
      ∧ d2.tpv.time = d.tpv.time ∧ d2.tpv.talker_id = d.tpv.talker_id := by
  obtain ⟨d2, h2, hc2⟩ := gps_decode_ok_record r d.tpv s d h hc
  have e1 := (gps_decode_ok r s d h hc).2.2.2.2.2.2
  have e2 := (gps_decode_ok d.tpv s d2 h2 hc2).2.2.2.2.2.2
  have e : d2.tpv = d.tpv := by
    rw [e2]
    conv_rhs => rw [e1]
    conv_lhs => rw [e1]
    exact extract_fields_idem _ _ _ _ _
  refine ⟨d2, h2, hc2, e, ?_, ?_, ?_, ?_, ?_, ?_, ?_, ?_⟩ <;> rw [e]

set_option maxRecDepth 100000 in
/-- The theorem `gps_decode_idempotent` at the RMC sentence of the tests,
decoded twice from an initialised record. -/
theorem gps_decode_idempotent_witness :
    gps_decode init_tpv rmc_sentence = some rmc_decoded ∧ rmc_decoded.code = GPS_OK
      ∧ (∃ d2, gps_decode rmc_decoded.tpv rmc_sentence = some d2 ∧ d2.code = GPS_OK
          ∧ d2.tpv = rmc_decoded.tpv)
      ∧ gps_decode rmc_decoded.tpv rmc_sentence = some rmc_decoded :=
  ⟨by decide, by decide,
    (gps_decode_idempotent init_tpv rmc_sentence rmc_decoded (by decide) (by decide)).imp
      (fun _ h => ⟨h.1, h.2.1, h.2.2.1⟩),
    by decide⟩

/-! ## C23: the shape of the time buffer -/

theorem rd_set (d : List Nat) (p v j : Nat) :
    rd (d.set p v) j = if p = j ∧ j < d.length then v else rd d j := by
  simp only [rd, List.getD_eq_getElem?_getD, List.getElem?_set]
  by_cases h : p = j
  · subst h
    by_cases h2 : p < d.length
    · simp [h2]
    · simp [h2, List.getElem?_eq_none (Nat.le_of_not_lt h2)]
  · simp [h]

theorem time_shape_set (d : List Nat) (p v : Nat) (hp : p ∈ digit_positions)
    (hv : is_digit v = true) (hs : time_shape d) : time_shape (d.set p v) := by
  obtain ⟨h0, h1, h2, h3, h4, h5, h6, h7, h8, h9⟩ := hs
  have hne : p ≠ 24 ∧ p ≠ 4 ∧ p ≠ 7 ∧ p ≠ 10 ∧ p ≠ 13 ∧ p ≠ 16 ∧ p ≠ 19 ∧ p ≠ 23 := by
    simp only [digit_positions, List.mem_cons, List.mem_singleton, List.not_mem_nil,
      or_false] at hp
    omega
  refine ⟨by rw [List.length_set]; exact h0, ?_, ?_, ?_, ?_, ?_, ?_, ?_, ?_, ?_⟩
  · rw [rd_set, if_neg (fun h => hne.1 h.1), h1]
  · rw [rd_set, if_neg (fun h => hne.2.1 h.1), h2]
  · rw [rd_set, if_neg (fun h => hne.2.2.1 h.1), h3]
  · rw [rd_set, if_neg (fun h => hne.2.2.2.1 h.1), h4]
  · rw [rd_set, if_neg (fun h => hne.2.2.2.2.1 h.1), h5]
  · rw [rd_set, if_neg (fun h => hne.2.2.2.2.2.1 h.1), h6]
  · rw [rd_set, if_neg (fun h => hne.2.2.2.2.2.2.1 h.1), h7]
  · rw [rd_set, if_neg (fun h => hne.2.2.2.2.2.2.2 h.1), h8]
  · intro j hj
    rw [rd_set]
    split_ifs
    · exact hv
    · exact h9 j hj

theorem digit_of_check (l : List Nat) (hb : ∀ b ∈ l, b < 256) (k : Nat) (hk : 48 ≤ k ∧ k ≤ 57)
    (h : is_char_in_range (hd l) 48 k = true) : is_digit (hd l) = true := by
  have hlt := hd_lt_of_bytes l hb
  unfold is_char_in_range at h
  simp only [decide_eq_true_eq] at h
  rw [is_digit_iff]
  omega

theorem keeps_shape_id : keeps_shape (fun d => d) := fun _ h => h

theorem keeps_shape_guarded (c : Bool) (p v : Nat) (k : List Nat → List Nat)
    (hp : p ∈ digit_positions) (hv : c = true → is_digit v = true) (hk : keeps_shape k) :
    keeps_shape (guarded_write c p v k) := by
  intro d hs
  unfold guarded_write
  by_cases hc : c = true
  · simp only [hc, if_true]
    exact hk _ (time_shape_set d p v hp (hv hc) hs)
  · simp only [hc, Bool.false_eq_true, if_false]
    exact hs

theorem keeps_shape_copy_digits (base n : Nat)
    (hpos : ∀ i, i < n → base + i ∈ digit_positions) (nmea : List Nat) :
    ∀ (i c0 : Nat), (∀ b ∈ nmea, b < 256) → c0 < 256 →
      keeps_shape (copy_digits base n i c0 nmea) := by
  induction nmea with
  | nil =>
    intro i c0 _ hc d hs
    unfold copy_digits
    split_ifs with h
    · simp only [Bool.and_eq_true, decide_eq_true_eq] at h
      exact time_shape_set d _ c0 (hpos i h.2) (by rw [← is_digit_0_to_9_eq c0 hc]; exact h.1) hs
    · exact hs
  | cons c rest ih =>
    intro i c0 hb hc d hs
    unfold copy_digits
    split_ifs with h
    · simp only [Bool.and_eq_true, decide_eq_true_eq] at h
      exact ih (i + 1) c (fun b hb2 => hb b (List.mem_cons_of_mem _ hb2))
        (hb c (List.mem_cons_self _ _)) _
        (time_shape_set d _ c0 (hpos i h.2) (by rw [← is_digit_0_to_9_eq c0 hc]; exact h.1) hs)
    · exact hs

theorem parse_time_guarded (d nmea : List Nat) :
    parse_time d nmea
      = guarded_write (is_digit_0_to_2 (hd nmea)) 11 (hd nmea)
          (guarded_write (is_digit_0_to_9 (hd nmea.tail)) 12 (hd nmea.tail)
            (guarded_write (is_digit_0_to_5 (hd nmea.tail.tail)) 14 (hd nmea.tail.tail)
              (guarded_write (is_digit_0_to_9 (hd nmea.tail.tail.tail)) 15
                (hd nmea.tail.tail.tail)
                (guarded_write (is_digit_0_to_5 (hd nmea.tail.tail.tail.tail)) 17
                  (hd nmea.tail.tail.tail.tail)
                  (guarded_write (is_digit_0_to_9 (hd nmea.tail.tail.tail.tail.tail)) 18
                    (hd nmea.tail.tail.tail.tail.tail)
                    (fun d =>
                      if hd nmea.tail.tail.tail.tail.tail.tail = 46 then
                        copy_digits 20 3 0 (hd nmea.tail.tail.tail.tail.tail.tail.tail)
                          nmea.tail.tail.tail.tail.tail.tail.tail.tail d
                      else ((d.set 20 48).set 21 48).set 22 48)))))) d :=
  rfl

theorem parse_date_guarded (d nmea : List Nat) :
    parse_date d nmea
      = guarded_write (is_digit_0_to_3 (hd nmea)) 8 (hd nmea)
          (guarded_write (is_digit_0_to_9 (hd nmea.tail)) 9 (hd nmea.tail)
            (guarded_write (is_digit_0_to_1 (hd nmea.tail.tail)) 5 (hd nmea.tail.tail)
              (guarded_write (is_digit_0_to_9 (hd nmea.tail.tail.tail)) 6
                (hd nmea.tail.tail.tail)
                (guarded_write (is_digit_0_to_9 (hd nmea.tail.tail.tail.tail)) 2
                  (hd nmea.tail.tail.tail.tail)
                  (guarded_write (is_digit_0_to_9 (hd nmea.tail.tail.tail.tail.tail)) 3
                    (hd nmea.tail.tail.tail.tail.tail)
                    (fun d => (d.set 0 50).set 1 48)))))) d :=
  rfl

theorem parse_extended_date_guarded (d day month year : List Nat) :
    parse_extended_date d day month year
      = guarded_write (is_digit_0_to_3 (hd day)) 8 (hd day)
          (guarded_write (is_digit_0_to_9 (hd day.tail)) 9 (hd day.tail)
            (guarded_write (is_digit_0_to_1 (hd month)) 5 (hd month)
              (guarded_write (is_digit_0_to_9 (hd month.tail)) 6 (hd month.tail)
                (fun d => copy_digits 0 4 0 (hd year) year.tail d)))) d :=
  rfl

theorem parse_time_shape (d nmea : List Nat) (hb : ∀ b ∈ nmea, b < 256) (hs : time_shape d) :
    time_shape (parse_time d nmea) := by
  have b1 := bytes_tail _ hb
  have b2 := bytes_tail _ b1
  have b3 := bytes_tail _ b2
  have b4 := bytes_tail _ b3
  have b5 := bytes_tail _ b4
  have b6 := bytes_tail _ b5
  have b7 := bytes_tail _ b6
  rw [parse_time_guarded]
  refine keeps_shape_guarded _ _ _ _ (by decide) (digit_of_check _ hb 50 (by decide))
    (keeps_shape_guarded _ _ _ _ (by decide) (digit_of_check _ b1 57 (by decide))
    (keeps_shape_guarded _ _ _ _ (by decide) (digit_of_check _ b2 53 (by decide))
    (keeps_shape_guarded _ _ _ _ (by decide) (digit_of_check _ b3 57 (by decide))
    (keeps_shape_guarded _ _ _ _ (by decide) (digit_of_check _ b4 53 (by decide))
    (keeps_shape_guarded _ _ _ _ (by decide) (digit_of_check _ b5 57 (by decide)) ?_))))) d hs
  intro d2 hs2
  simp only []
  split_ifs
  · exact keeps_shape_copy_digits 20 3
      (fun i hi => by
        have : i = 0 ∨ i = 1 ∨ i = 2 := by omega
        rcases this with h | h | h <;> subst h <;> decide)
      _ 0 _ (bytes_tail _ b7) (hd_lt_of_bytes _ b7) d2 hs2
  · exact time_shape_set _ 22 48 (by decide) (by decide)
      (time_shape_set _ 21 48 (by decide) (by decide)
        (time_shape_set _ 20 48 (by decide) (by decide) hs2))

theorem parse_date_shape (d nmea : List Nat) (hb : ∀ b ∈ nmea, b < 256) (hs : time_shape d) :
    time_shape (parse_date d nmea) := by
  have b1 := bytes_tail _ hb
  have b2 := bytes_tail _ b1
  have b3 := bytes_tail _ b2
  have b4 := bytes_tail _ b3
  have b5 := bytes_tail _ b4
  rw [parse_date_guarded]
  refine keeps_shape_guarded _ _ _ _ (by decide) (digit_of_check _ hb 51 (by decide))
    (keeps_shape_guarded _ _ _ _ (by decide) (digit_of_check _ b1 57 (by decide))
    (keeps_shape_guarded _ _ _ _ (by decide) (digit_of_check _ b2 49 (by decide))
    (keeps_shape_guarded _ _ _ _ (by decide) (digit_of_check _ b3 57 (by decide))
    (keeps_shape_guarded _ _ _ _ (by decide) (digit_of_check _ b4 57 (by decide))
    (keeps_shape_guarded _ _ _ _ (by decide) (digit_of_check _ b5 57 (by decide)) ?_))))) d hs
  intro d2 hs2
  exact time_shape_set _ 1 48 (by decide) (by decide)
    (time_shape_set _ 0 50 (by decide) (by decide) hs2)

theorem parse_extended_date_shape (d day month year : List Nat) (hday : ∀ b ∈ day, b < 256)
    (hmonth : ∀ b ∈ month, b < 256) (hyear : ∀ b ∈ year, b < 256) (hs : time_shape d) :
    time_shape (parse_extended_date d day month year) := by
  rw [parse_extended_date_guarded]
  refine keeps_shape_guarded _ _ _ _ (by decide) (digit_of_check _ hday 51 (by decide))
    (keeps_shape_guarded _ _ _ _ (by decide)
      (digit_of_check _ (bytes_tail _ hday) 57 (by decide))
    (keeps_shape_guarded _ _ _ _ (by decide) (digit_of_check _ hmonth 49 (by decide))
    (keeps_shape_guarded _ _ _ _ (by decide)
      (digit_of_check _ (bytes_tail _ hmonth) 57 (by decide)) ?_))) d hs
  intro d2 hs2
  exact keeps_shape_copy_digits 0 4
    (fun i hi => by
      have : i = 0 ∨ i = 1 ∨ i = 2 ∨ i = 3 := by omega
      rcases this with h | h | h | h <;> subst h <;> decide)
    _ 0 _ (bytes_tail _ hyear) (hd_lt_of_bytes _ hyear) d2 hs2

theorem split_commas_subset (body : List Nat) :
    ∀ t ∈ split_commas body, ∀ b ∈ t, b ∈ body := by
  induction body with
  | nil => intro t ht b hb; simp [split_commas] at ht; subst ht; simp at hb
  | cons c rest ih =>
    intro t ht b hb
    simp only [split_commas] at ht
    split_ifs at ht with hc
    · rcases List.mem_cons.1 ht with h | h
      · subst h; simp at hb
      · exact List.mem_cons_of_mem _ (ih t h b hb)
    · rcases List.mem_cons.1 ht with h | h
      · subst h
        rcases List.mem_cons.1 hb with h2 | h2
        · rw [h2]; exact List.mem_cons_self _ _
        · cases hsp : split_commas rest with
          | nil => rw [hsp] at h2; simp at h2
          | cons u us =>
            rw [hsp] at h2
            exact List.mem_cons_of_mem _ (ih u (by rw [hsp]; exact List.mem_cons_self _ _) b h2)
      · exact List.mem_cons_of_mem _ (ih t (List.mem_of_mem_tail h) b hb)

theorem field_bytes (s : List Nat) (hs : ∀ b ∈ s, b < 256) (k : Nat) :
    ∀ b ∈ field s k, b < 256 := by
  intro b hb
  unfold field fields at hb
  rw [List.getD_eq_getElem?_getD] at hb
  cases hk : ((split_commas (scan_body (s.drop 3))).tail)[k]? with
  | none => rw [hk] at hb; simp at hb
  | some t =>
    rw [hk] at hb
    simp only [Option.getD_some] at hb
    have ht : t ∈ split_commas (scan_body (s.drop 3)) :=
      List.mem_of_mem_tail (List.getElem?_mem hk)
    exact hs b (List.mem_of_mem_drop
      (scan_body_subset _ b (split_commas_subset _ t ht b hb)))

theorem extract_fields_shape (id : List Nat) (r : gps_tpv) (f : Nat → List Nat)
    (hf : ∀ k, ∀ b ∈ f k, b < 256) (hs : time_shape r.time) :
    time_shape (extract_fields id r f).time := by
  unfold extract_fields
  split_ifs <;> try dsimp only
  · exact parse_time_shape _ _ (hf 0) hs
  · exact parse_time_shape _ _ (hf 0) hs
  · exact parse_time_shape _ _ (hf 4) hs
  · exact hs
  · exact hs
  · exact parse_date_shape _ _ (hf 8) (parse_time_shape _ _ (hf 0) hs)
  · exact hs
  · exact hs
  · exact hs
  · exact parse_extended_date_shape _ _ _ _ (hf 1) (hf 2) (hf 3)
      (parse_time_shape _ _ (hf 0) hs)
  · exact hs

theorem gps_decode_shape (r : gps_tpv) (s : List Nat) (d : decoded)
    (hb : ∀ b ∈ s, b < 256) (h : gps_decode r s = some d) (hs : time_shape r.time) :
    time_shape d.tpv.time := by
  by_cases hc : d.code = GPS_OK
  · rw [(gps_decode_ok r s d h hc).2.2.2.2.2.2]
    exact extract_fields_shape _ _ _ (field_bytes s hb) hs
  · rcases gps_decode_rejected r s d h hc with ⟨_, h2⟩ | ⟨_, _, h2⟩ | ⟨_, _, _, h2⟩
    · rw [h2]; exact hs
    · rw [h2]; exact hs
    · rw [h2]; exact hs

theorem decode_all_shape (inputs : List (List Nat)) :
    ∀ r : gps_tpv, (∀ s ∈ inputs, in_range s) → time_shape r.time →
      ∃ r2, decode_all r inputs = some r2 ∧ time_shape r2.time := by
  induction inputs with
  | nil => intro r _ hs; exact ⟨r, rfl, hs⟩
  | cons s ss ih =>
    intro r hin hs
    obtain ⟨hb, h32, hmin⟩ := hin s (List.mem_cons_self _ _)
    obtain ⟨d, hd1, _⟩ := gps_decode_gate_code_aux r s hb h32 hmin
    obtain ⟨r2, h2, hs2⟩ := ih d.tpv (fun t ht => hin t (List.mem_cons_of_mem _ ht))
      (gps_decode_shape r s d hb hd1 hs)
    refine ⟨r2, ?_, hs2⟩
    simp only [decode_all, hd1]
    exact h2

theorem cstr_length_of (t : List Nat) :
    ∀ n, rd t n = 0 → n < t.length → (∀ j, j < n → rd t j ≠ 0) → (cstr t).length = n := by
  induction t with
  | nil => intro n _ hn _; simp at hn
  | cons c rest ih =>
    intro n h0 hn hnz
    cases n with
    | zero =>
      have hc : c = 0 := by simpa [rd] using h0
      simp [cstr, hc]
    | succ m =>
      have hc : c ≠ 0 := by simpa [rd] using hnz 0 (by omega)
      have hrest := ih m (by simpa [rd] using h0) (by simpa using hn)
        (fun j hj => by simpa [rd] using hnz (j + 1) (by omega))
      simp only [cstr] at hrest ⊢
      rw [List.takeWhile_cons_of_pos (by simpa using hc), List.length_cons, hrest]

theorem time_shape_cstr (t : List Nat) (hs : time_shape t) : (cstr t).length = 24 := by
  obtain ⟨h0, h1, h2, h3, h4, h5, h6, h7, h8, h9⟩ := hs
  apply cstr_length_of t 24 h1 (by omega)
  intro j hj
  by_cases hdg : j ∈ digit_positions
  · have := (is_digit_iff _).1 (h9 j hdg)
    omega
  · simp only [digit_positions, List.mem_cons, List.mem_singleton, List.not_mem_nil,
      or_false, not_or] at hdg
    have hsep : j = 4 ∨ j = 7 ∨ j = 10 ∨ j = 13 ∨ j = 16 ∨ j = 19 ∨ j = 23 := by omega
    rcases hsep with h | h | h | h | h | h | h <;> subst h
    · rw [h2]; decide
    · rw [h3]; decide
    · rw [h4]; decide
    · rw [h5]; decide
    · rw [h6]; decide
    · rw [h7]; decide
    · rw [h8]; decide

theorem null_time_shape : time_shape NULL_TIME := by
  unfold time_shape
  decide

/-- C23: after `gps_init_tpv` and any finite sequence of `gps_decode` calls on
inputs of bytes with in-range token counts, whether the calls succeed or
reject, every call is defined and the time field is a buffer of 24 characters
and a NUL with `'-'` at positions 4 and 7, `'T'` at 10, `':'` at 13 and 16,
`'.'` at 19, `'Z'` at 23 and a decimal digit at every other position. -/
theorem time_shape_invariant (r0 : gps_tpv) (inputs : List (List Nat))
    (h : ∀ s ∈ inputs, in_range s) :
    ∃ r, decode_all (gps_init_tpv r0) inputs = some r
      ∧ r.time.length = 25 ∧ rd r.time 24 = 0 ∧ rd r.time 4 = 45 ∧ rd r.time 7 = 45
      ∧ rd r.time 10 = 84 ∧ rd r.time 13 = 58 ∧ rd r.time 16 = 58 ∧ rd r.time 19 = 46
      ∧ rd r.time 23 = 90
      ∧ (∀ j ∈ [0, 1, 2, 3, 5, 6, 8, 9, 11, 12, 14, 15, 17, 18, 20, 21, 22],
          48 ≤ rd r.time j ∧ rd r.time j ≤ 57)
      ∧ (cstr r.time).length = 24 := by
  obtain ⟨r, hr, hs⟩ := decode_all_shape inputs (gps_init_tpv r0) h null_time_shape
  obtain ⟨h0, h1, h2, h3, h4, h5, h6, h7, h8, h9⟩ := hs
  have hdig : ∀ j ∈ [0, 1, 2, 3, 5, 6, 8, 9, 11, 12, 14, 15, 17, 18, 20, 21, 22],
      48 ≤ rd r.time j ∧ rd r.time j ≤ 57 := fun j hj => (is_digit_iff _).1 (h9 j hj)
  exact ⟨r, hr, h0, h1, h2, h3, h4, h5, h6, h7, h8, hdig,
    time_shape_cstr r.time ⟨h0, h1, h2, h3, h4, h5, h6, h7, h8, h9⟩⟩

set_option maxRecDepth 100000 in
/-- The theorem `time_shape_invariant` at the sequence of the GGA sentence,
the unsupported sentence and the ZDA sentence of the tests; the ZDA sentence
decoded into the record the GGA sentence left gives the time
"2003-10-29T05:03:06.000Z". -/
theorem time_shape_invariant_witness :
    (∃ r, decode_all (gps_init_tpv init_tpv) [gga_sentence, rme_sentence, zda_sentence] = some r
        ∧ r.time.length = 25 ∧ rd r.time 24 = 0 ∧ rd r.time 4 = 45)
      ∧ (decode_all (gps_init_tpv init_tpv) [gga_sentence, rme_sentence]).map
          (fun r => r.time) = some (bytes "0000-00-00T17:28:14.000Z" ++ [0])
      ∧ (gps_decode gga_decoded.tpv zda_sentence).map (fun d => (d.code, d.tpv.time))
          = some (GPS_OK, bytes "2003-10-29T05:03:06.000Z" ++ [0]) :=
  ⟨(time_shape_invariant init_tpv [gga_sentence, rme_sentence, zda_sentence]
      (fun s hs => by
        simp only [List.mem_cons, List.mem_singleton, List.not_mem_nil, or_false] at hs
        rcases hs with h | h | h <;> subst h <;>
          exact ⟨by decide, fun _ => by decide, fun _ => by decide⟩)).imp
      (fun _ h => ⟨h.1, h.2.1, h.2.2.1, h.2.2.2.1⟩),
    by decide, by decide⟩

end Gps
